import Mathlib

/-!
# Verzamel: orchestration, code relay and credential store

A shallow embedding of `src/lib/repository.js` (class `Repository`),
`src/lib/main-process.js` (class `MainProcess`) and the provider catalog
`src/providers/index.js`: the account store with its keychain indirection, the
delivery records, the settings, the 2FA code relay, the fetch orchestrator with
its per-account failure handling, and the saving and mailing of fetched
documents.

Conventions of the embedding
* A JavaScript string is a `Str`: either text that a user or a site script
  supplied, or an identifier produced by a generator (`uuid.v4()` in
  `createSecret`, NeDB's `_id` on `insert`).  Generated identifiers are
  numbered by the counter `Repository.fresh`; two of them are equal only when
  they were produced by the same draw, and none of them equals typed text.
* A NeDB datastore is the list of its documents in insertion order.  Disk
  errors of the datastore and of the keychain are not modelled (the `err`
  branches of the callbacks are not taken), with two exceptions: a violated
  unique index, and the insert of `createInvoice`, whose error is an input.
* `async` functions become state-passing functions on the state they touch.
-/

namespace Verzamel

/-! ## Strings and small maps -/

/-- A string value held by the program. -/
inductive Str where
  | text (s : String)
  | gen (n : Nat)
deriving DecidableEq, Repr

/-- JavaScript truthiness of a string: every string but the empty one. -/
def Str.truthy : Str → Bool
  | Str.text s => s ≠ ""
  | Str.gen _ => true

/-- JavaScript truthiness of an optional text property (`undefined` is falsy). -/
def truthyText : Option String → Bool
  | some s => s ≠ ""
  | none => false

/-- Lookup by key, as done by `Map.prototype.get` and by property access. -/
def assocGet {α : Type} (m : List (Str × α)) (k : Str) : Option α :=
  match m with
  | [] => none
  | (k', v) :: rest => if k' = k then some v else assocGet rest k

/-- Insertion by key, as done by `Map.prototype.set` and by property assignment:
an existing key keeps its position and takes the new value, a new key is
appended. -/
def assocSet {α : Type} (m : List (Str × α)) (k : Str) (v : α) : List (Str × α) :=
  match m with
  | [] => [(k, v)]
  | (k', v') :: rest => if k' = k then (k, v) :: rest else (k', v') :: assocSet rest k v

/-- Removal by key, as done by `Map.prototype.delete`. -/
def assocDelete {α : Type} (m : List (Str × α)) (k : Str) : List (Str × α) :=
  m.filter (fun e => decide (e.1 ≠ k))

/-! ## Records -/

/-- A document of `websiteDb`: the account record as persisted. -/
structure Website where
  _id : Str
  name : String
  url : String
  username : Str
  password : Str
  accountId : Str
  businessId : Str
  secured : Bool
  authFailed : Bool
  fetchFailed : Bool
deriving DecidableEq, Repr

/-- The website DTO received by `createWebsite` and `updateWebsite`.  A property
that is absent from the object is `none` (`false` for a flag).  `createWebsite`
spreads the object into the document it inserts, so an `_id` and failure flags
carried by the input are stored; `updateWebsite` reads the `_id`, the name, the
url and the credentials. -/
structure WebsiteInput where
  _id : Option Str
  name : String
  url : String
  username : Option String
  password : Option String
  accountId : Option String
  businessId : Option String
  authFailed : Bool := false
  fetchFailed : Bool := false
deriving DecidableEq, Repr

/-- An account as returned by `getWebsitesByIds`: the credential fields are
dereferenced, `none` standing for the `null` of a failed keychain lookup. -/
structure Account where
  _id : Str
  name : String
  url : String
  username : Option Str
  password : Option Str
  accountId : Option Str
  businessId : Option Str
  secured : Bool
  authFailed : Bool
  fetchFailed : Bool
deriving DecidableEq, Repr

/-- A document of `invoiceDb`. -/
structure Invoice where
  _id : Str
  description : String
  date : Option String
  wsName : String
  fileName : String
deriving DecidableEq, Repr

/-- The document of `settingDb`. -/
structure Settings where
  format : Option String
  dateFormat : Option String
  debugMode : Option Bool
  licenseKey : Option String
deriving DecidableEq, Repr

/-- State of `Repository`: the datastores, the keychain entries of service
`VerzamelSysteem` (account name to password) and the identifier generator. -/
structure Repository where
  websiteDb : List Website
  invoiceDb : List Invoice
  settingDb : List Settings
  vault : List (Str × String)
  fresh : Nat
deriving DecidableEq, Repr

/-- A repository with empty datastores and an empty keychain. -/
def Repository.empty : Repository :=
  { websiteDb := [], invoiceDb := [], settingDb := [], vault := [], fresh := 0 }

/-! ## Repository: secrets -/

/-- Models `createSecret(secret)`: draws an identifier, stores the secret under
it in the keychain and returns the identifier. -/
def createSecret (secret : String) (r : Repository) : Str × Repository :=
  let id := Str.gen r.fresh
  (id, { r with fresh := r.fresh + 1, vault := assocSet r.vault id secret })

/-- Models `getSecret(id)`: `keytar.getPassword`, `none` for `null`. -/
def getSecret (r : Repository) (id : Str) : Option String :=
  assocGet r.vault id

/-- Models `deleteSecret(id)`: `keytar.deletePassword`. -/
def deleteSecret (id : Str) (r : Repository) : Repository :=
  { r with vault := assocDelete r.vault id }

/-- The expression `field ? await this.createSecret(field) : ''` of
`createWebsite`. -/
def secretOrEmpty (field : Option String) (r : Repository) : Str × Repository :=
  match field with
  | some s => if s ≠ "" then createSecret s r else (Str.text "", r)
  | none => (Str.text "", r)

/-- The expression `field ? await this.createSecret(field) : existing` of
`updateWebsite`. -/
def secretOrExisting (field : Option String) (existing : Str) (r : Repository) :
    Str × Repository :=
  match field with
  | some s => if s ≠ "" then createSecret s r else (existing, r)
  | none => (existing, r)

/-! ## Repository: accounts -/

/-- NeDB `createNewId()`: an identifier is drawn, and drawn again while a stored
document has it.  Gives the number of the draw that is accepted, `n` being the
number of the next draw and `fuel` the number of draws that may be repeated. -/
def createNewId (docs : List Website) : Nat → Nat → Nat
  | 0, n => n
  | fuel + 1, n =>
    if docs.any (fun d => decide (d._id = Str.gen n)) then createNewId docs fuel (n + 1) else n

/-- The first part of `createWebsite(website)`: the four secrets are created in
source order and the document passed to `insert` is built, the input being
spread into it under the four references and `secured: true`.  When the input
has no `_id`, NeDB gives the document a new one (as many draws may be repeated
as there are documents, which is enough to find an unused one).  Gives the
document and the state in which the insert is made. -/
def prepareWebsite (website : WebsiteInput) (r : Repository) : Website × Repository :=
  let (secretUsername, r1) := secretOrEmpty website.username r
  let (secretPassword, r2) := secretOrEmpty website.password r1
  let (secretAccountId, r3) := secretOrEmpty website.accountId r2
  let (secretBusinessId, r4) := secretOrEmpty website.businessId r3
  let newId := createNewId r4.websiteDb r4.websiteDb.length r4.fresh
  let doc : Website :=
    { _id := website._id.getD (Str.gen newId)
      name := website.name
      url := website.url
      username := secretUsername
      password := secretPassword
      accountId := secretAccountId
      businessId := secretBusinessId
      secured := true
      authFailed := website.authFailed
      fetchFailed := website.fetchFailed }
  (doc, { r4 with fresh := if website._id.isSome then r4.fresh else newId + 1 })

/-- Models `createWebsite(website)`: the document is prepared and inserted.  The
datastore refuses a document whose `_id` a stored document has (the unique
index of NeDB on `_id`); the error object is then returned, the secrets having
been written.  Otherwise the inserted document is returned. -/
def createWebsite (website : WebsiteInput) (r : Repository) :
    Except String Website × Repository :=
  let (doc, r5) := prepareWebsite website r
  if r5.websiteDb.any (fun d => decide (d._id = doc._id)) then
    (Except.error "Datastore error. Something went wrong", r5)
  else (Except.ok doc, { r5 with websiteDb := r5.websiteDb ++ [doc] })

/-- Models `getWebsiteById(_id)`: `findOne({ _id })`. -/
def getWebsiteById (r : Repository) (id : Str) : Option Website :=
  r.websiteDb.find? (fun d => decide (d._id = id))

/-- NeDB `update(query, ...)` without `multi`: the first matching document is
replaced. -/
def updateFirst {α : Type} (p : α → Bool) (f : α → α) : List α → List α
  | [] => []
  | d :: rest => if p d then f d :: rest else d :: updateFirst p f rest

/-- NeDB `remove(query)` without `multi`: the first matching document is
removed. -/
def removeFirst {α : Type} (p : α → Bool) : List α → List α
  | [] => []
  | d :: rest => if p d then rest else d :: removeFirst p rest

/-- The JavaScript expression `a || b` on text. -/
def orElse (a b : String) : String := if a ≠ "" then a else b

/-- Models `updateWebsite(website)`.  The two early returns are the `error`
results; otherwise the merged record is written with `$set` and returned. -/
def updateWebsite (website : WebsiteInput) (r : Repository) :
    Except String Website × Repository :=
  match website._id with
  | none => (Except.error "Missing _id field. Unable to update.", r)
  | some id =>
    if ¬ id.truthy then (Except.error "Missing _id field. Unable to update.", r)
    else
      match getWebsiteById r id with
      | none => (Except.error "Website not found. Unable to update.", r)
      | some existingWebsite =>
        let (username, r1) := secretOrExisting website.username existingWebsite.username r
        let (password, r2) := secretOrExisting website.password existingWebsite.password r1
        let (accountId, r3) := secretOrExisting website.accountId existingWebsite.accountId r2
        let (businessId, r4) := secretOrExisting website.businessId existingWebsite.businessId r3
        let updatedWebsite : Website :=
          { existingWebsite with
            name := orElse website.name existingWebsite.name
            url := orElse website.url existingWebsite.url
            username := username
            password := password
            accountId := accountId
            businessId := businessId
            secured := true }
        (Except.ok updatedWebsite,
          { r4 with websiteDb :=
              updateFirst (fun d => decide (d._id = id)) (fun _ => updatedWebsite) r4.websiteDb })

/-- One guarded release of `deleteWebsite`:
`if (ws && ws.secured && ws.field) await this.deleteSecret(ws.field)`. -/
def releaseField (ws : Option Website) (field : Website → Str) (r : Repository) : Repository :=
  match ws with
  | some w => if w.secured && (field w).truthy then deleteSecret (field w) r else r
  | none => r

/-- The four guarded releases of `deleteWebsite`, in source order. -/
def releaseSecrets (ws : Option Website) (r : Repository) : Repository :=
  releaseField ws Website.businessId
    (releaseField ws Website.accountId
      (releaseField ws Website.password
        (releaseField ws Website.username r)))

/-- Models `deleteWebsite(_id)`: the record is looked up, its secrets are
released, then the record is removed. -/
def deleteWebsite (id : Str) (r : Repository) : Repository :=
  let ws := getWebsiteById r id
  let r1 := releaseSecrets ws r
  { r1 with websiteDb := removeFirst (fun d => decide (d._id = id)) r1.websiteDb }

/-- The number a text stands for when it is a canonical array index: a decimal
numeral without leading zero whose value is below `2^32 - 1`. -/
def canonicalIndex (s : String) : Option Nat :=
  match s.data with
  | [] => none
  | c :: rest =>
    if (c :: rest).all Char.isDigit && (c != '0' || rest.isEmpty) then
      let value := (c :: rest).foldl (fun acc d => 10 * acc + (d.toNat - 48)) 0
      if value < 4294967295 then some value else none
    else none

/-- The array index a property key is, if it is one.  A generated identifier
(the 16 characters of a NeDB `_id`, a uuid) is never an array index. -/
def arrayIndex : Str → Option Nat
  | Str.text s => canonicalIndex s
  | Str.gen _ => none

/-- The order of two properties that are array indices. -/
def indexOrder {α : Type} (a b : Str × α) : Prop :=
  (arrayIndex a.1).getD 0 ≤ (arrayIndex b.1).getD 0

instance {α : Type} : DecidableRel (indexOrder : Str × α → Str × α → Prop) :=
  fun a b => inferInstanceAs (Decidable ((arrayIndex a.1).getD 0 ≤ (arrayIndex b.1).getD 0))

/-- The order in which `Object.keys` lists the properties of an object whose
properties are given in the order of their first assignment: the array indices
in ascending numeric order, then the other keys in assignment order. -/
def ownPropertyOrder {α : Type} (props : List (Str × α)) : List (Str × α) :=
  (props.filter (fun e => (arrayIndex e.1).isSome)).insertionSort indexOrder ++
    props.filter (fun e => !(arrayIndex e.1).isSome)

/-- NeDB's index lookup for an array of values, used for `{ _id: { $in: ids } }`:
every value is looked up in turn, each document found is stored in an object
under its `_id`, and the values of the object are returned in the order
`Object.keys` lists its keys. -/
def getMatching (docs : List Website) (values : List Str) : List Website :=
  let res : List (Str × Website) :=
    values.foldl
      (fun acc v =>
        (docs.filter (fun d => decide (d._id = v))).foldl (fun acc d => assocSet acc d._id d) acc)
      []
  (ownPropertyOrder res).map Prod.snd

/-- Models `websiteDb.find({ _id: { $in: ids } })`: the candidates of the index
lookup that match the query. -/
def findByIds (r : Repository) (ids : List Str) : List Website :=
  (getMatching r.websiteDb ids).filter (fun d => decide (d._id ∈ ids))

/-- The expression `ws.field && ws.secured ? await this.getSecret(ws.field) : ws.field`. -/
def deref (r : Repository) (secured : Bool) (field : Str) : Option Str :=
  if field.truthy && secured then (getSecret r field).map Str.text else some field

/-- The record built for one document by `getWebsitesByIds` and `getAllWebsites`. -/
def derefWebsite (r : Repository) (ws : Website) : Account :=
  { _id := ws._id
    name := ws.name
    url := ws.url
    username := deref r ws.secured ws.username
    password := deref r ws.secured ws.password
    accountId := deref r ws.secured ws.accountId
    businessId := deref r ws.secured ws.businessId
    secured := ws.secured
    authFailed := ws.authFailed
    fetchFailed := ws.fetchFailed }

/-- Models `getWebsitesByIds(ids)`. -/
def getWebsitesByIds (r : Repository) (ids : List Str) : List Account :=
  (findByIds r ids).map (derefWebsite r)

/-- Models `setWebsiteAuthFailed(_id)`: `$set: { authFailed: true }`. -/
def setWebsiteAuthFailed (id : Str) (r : Repository) : Repository :=
  let set : Website → Website := fun d => { d with authFailed := true }
  { r with websiteDb := updateFirst (fun d => decide (d._id = id)) set r.websiteDb }

/-- Models `unsetWebsiteAuthFailed(_id)`: `$unset: { authFailed: true }`. -/
def unsetWebsiteAuthFailed (id : Str) (r : Repository) : Repository :=
  let set : Website → Website := fun d => { d with authFailed := false }
  { r with websiteDb := updateFirst (fun d => decide (d._id = id)) set r.websiteDb }

/-- Models `setWebsiteFetchFailed(_id)`: `$set: { fetchFailed: true }`. -/
def setWebsiteFetchFailed (id : Str) (r : Repository) : Repository :=
  let set : Website → Website := fun d => { d with fetchFailed := true }
  { r with websiteDb := updateFirst (fun d => decide (d._id = id)) set r.websiteDb }

/-- Models `unsetWebsiteFetchFailed(_id)`: `$unset: { fetchFailed: true }`. -/
def unsetWebsiteFetchFailed (id : Str) (r : Repository) : Repository :=
  let set : Website → Website := fun d => { d with fetchFailed := false }
  { r with websiteDb := updateFirst (fun d => decide (d._id = id)) set r.websiteDb }

/-! ## Repository: invoices and settings -/

/-- The object passed to `createInvoice`. -/
structure InvoiceInput where
  description : String
  date : Option String
  wsName : String
  fileName : String
deriving DecidableEq, Repr

/-- Models `createInvoice(invoice)`: the row is inserted with a generated `_id`
and returned, unless the datastore reports an error (`err`), in which case the
error object is returned and nothing is stored. -/
def createInvoice (err : Bool) (invoice : InvoiceInput) (r : Repository) :
    Except String Invoice × Repository :=
  if err then (Except.error "Datastore error. Something went wrong", r)
  else
    let doc : Invoice :=
      { _id := Str.gen r.fresh
        description := invoice.description
        date := invoice.date
        wsName := invoice.wsName
        fileName := invoice.fileName }
    (Except.ok doc, { r with fresh := r.fresh + 1, invoiceDb := r.invoiceDb ++ [doc] })

/-- Models `deleteAllInvoices()`: `remove({}, { multi: true })`. -/
def deleteAllInvoices (r : Repository) : Repository :=
  { r with invoiceDb := [] }

/-- Models `getSettings()`: `findOne({})`. -/
def getSettings (r : Repository) : Option Settings :=
  r.settingDb.head?

/-! ## Main process: state -/

/-- The artifact of a fetched document (a playwright download or a buffer). -/
structure Download where
  handle : Nat
  buffer : Option String
deriving DecidableEq, Repr

/-- One element of the list a site script returns. -/
structure Document where
  description : String
  date : Option String
  wsName : String
  fileName : String
  download : Download
deriving DecidableEq, Repr

/-- A message passed to `this.win.webContents.send(channel, payload)`. -/
inductive Event where
  | onFetchWsChange (msg : String) (wsName : String) (percent : Option Nat)
  | onNotification (msg : String) (wsName : Option String) (type : String)
  | on2FA (name : String) (id : Str) (question : Option String)
deriving DecidableEq, Repr

/-- State of `MainProcess`.  A promise created by `get2FAInput` is named by a
number; `twoFAWaitingList` maps an account id to the promise its stored
`resolve` function belongs to, and `settled` records the promises that have been
resolved, with their values.  `sent` and `logged` record the calls of
`webContents.send` and `logger.info`, oldest first. -/
structure MainProcess where
  repo : Repository
  availableDownloads : List (Download × Str)
  twoFAWaitingList : List (Str × Nat)
  settled : List (Nat × String)
  nextPromise : Nat
  sent : List Event
  logged : List (String × String)
deriving DecidableEq, Repr

/-- The state of a process that has just been constructed on repository `r`. -/
def MainProcess.init (r : Repository) : MainProcess :=
  { repo := r, availableDownloads := [], twoFAWaitingList := [], settled := [],
    nextPromise := 0, sent := [], logged := [] }

/-- The call `this.win.webContents.send(...)`. -/
def send (e : Event) (st : MainProcess) : MainProcess :=
  { st with sent := st.sent ++ [e] }

/-- The call `this.logger.info(providerName, text)`. -/
def logInfo (providerName text : String) (st : MainProcess) : MainProcess :=
  { st with logged := st.logged ++ [(providerName, text)] }

/-- The value a promise has been resolved with, if it has been resolved. -/
def settledValue (st : MainProcess) (promise : Nat) : Option String :=
  (st.settled.find? (fun e => decide (e.1 = promise))).map Prod.snd

/-- Calling the `resolve` function of a promise: the first call settles it,
later calls have no effect. -/
def resolvePromise (promise : Nat) (value : String) (st : MainProcess) : MainProcess :=
  match settledValue st promise with
  | some _ => st
  | none => { st with settled := st.settled ++ [(promise, value)] }

/-! ## Main process: code relay -/

/-- Models `get2FAInput(name, id, question = false)`: the request is sent to the
window, a new promise is created and its `resolve` function is stored under
`id`; the promise is returned. -/
def get2FAInput (name : String) (id : Str) (question : Option String) (st : MainProcess) :
    Nat × MainProcess :=
  let st1 := send (Event.on2FA name id question) st
  let promise := st1.nextPromise
  (promise,
    { st1 with
      nextPromise := promise + 1
      twoFAWaitingList := assocSet st1.twoFAWaitingList id promise })

/-- Models `resolve2FAInput({ id, code })`. -/
def resolve2FAInput (id : Str) (code : String) (st : MainProcess) : MainProcess :=
  match assocGet st.twoFAWaitingList id with
  | some resolve =>
    let st1 := resolvePromise resolve code st
    { st1 with twoFAWaitingList := assocDelete st1.twoFAWaitingList id }
  | none => st

/-- An inbound or outbound step of the code relay. -/
inductive RelayOp where
  | request (name : String) (id : Str) (question : Option String)
  | submit (id : Str) (code : String)
deriving DecidableEq, Repr

/-- The account id a relay step is about. -/
def RelayOp.id : RelayOp → Str
  | RelayOp.request _ id _ => id
  | RelayOp.submit id _ => id

/-- Performs one relay step. -/
def relayStep (st : MainProcess) : RelayOp → MainProcess
  | RelayOp.request name id question => (get2FAInput name id question st).2
  | RelayOp.submit id code => resolve2FAInput id code st

/-- Performs a sequence of relay steps, first to last. -/
def relayRun (ops : List RelayOp) (st : MainProcess) : MainProcess :=
  ops.foldl relayStep st

/-! ## Main process: failure flags -/

/-- Models `handleFetchSuccess(ws)`. -/
def handleFetchSuccess (ws : Account) (st : MainProcess) : MainProcess :=
  { st with repo := unsetWebsiteFetchFailed ws._id (unsetWebsiteAuthFailed ws._id st.repo) }

/-- Models `handleFetchError(ws, err)`, the error being given by its message. -/
def handleFetchError (ws : Account) (message : String) (st : MainProcess) : MainProcess :=
  let repo :=
    if message = "authenticationFailed" then setWebsiteAuthFailed ws._id st.repo
    else setWebsiteFetchFailed ws._id st.repo
  send (Event.onNotification message (some ws.name) "error") { st with repo := repo }

/-! ## Main process: site scripts and the environment -/

/-- The date-range filter of a fetch session, `{ from, to }`. -/
structure Filters where
  from_ : String
  to_ : String
deriving DecidableEq, Repr

/-- The part of the context object `ctx` a provider is constructed with that is
data: the account, the settings and the filters (the page, the window and the
logger are handles). -/
structure Ctx where
  ws : Account
  settings : Option Settings
  filters : Filters

/-- What the orchestrator observes of a constructed provider.  A call that
raises is an `Except.error` carrying the `message` of the error.
`authenticate` returns the continuation `continuation`; `authDone`,
`requiresSecurityQuestion` and `securityQuestion` are the values of these
properties once `authenticate` has returned. -/
structure Script where
  name : String
  requires2FA : Bool
  fetch : Except String (List Document)
  authenticate : Except String Unit
  authDone : Bool
  requiresSecurityQuestion : Bool
  securityQuestion : String
  continuation : String → Except String (List Document)

/-- The collaborators of the orchestrator.  `providers` is the registry
`this.providers` (url to provider class, a class being its constructor, which
may raise); `getPage` is `this.browser.getPage()`, giving the message of the
error it raises, if any; `operator` gives the code the human operator submits
through `resolve2FA` when asked for the account with the given id, `none` when
the operator never answers; `insertFault` tells for which rows the invoice
datastore reports an error on insert. -/
structure Env where
  providers : String → Option (Ctx → Except String Script)
  getPage : Account → Option String
  operator : Str → Option String
  insertFault : InvoiceInput → Bool

/-- Outcome of an `async` function: it returned a value, or it is still awaiting
a promise that is never resolved. -/
inductive Run (α : Type) where
  | returned (value : α) (st : MainProcess)
  | suspended (st : MainProcess)

/-- Models `runSequentially(functions)`. -/
def runSequentially {α : Type} : List (MainProcess → Run α) → MainProcess → Run (List α)
  | [], st => Run.returned [] st
  | first :: rest, st =>
    match first st with
    | Run.suspended st1 => Run.suspended st1
    | Run.returned value st1 =>
      match runSequentially rest st1 with
      | Run.suspended st2 => Run.suspended st2
      | Run.returned values st2 => Run.returned (value :: values) st2

/-- The expression `await this.get2FAInput(ws.name, ws._id, question)`: the
request is registered; the operator's submission, when there is one, arrives
as a `resolve2FAInput` call, after which the awaited promise yields the value
it was resolved with. -/
def awaitCode (env : Env) (name : String) (id : Str) (question : Option String)
    (st : MainProcess) : Run String :=
  let (promise, st1) := get2FAInput name id question st
  match env.operator id with
  | none => Run.suspended st1
  | some code =>
    let st2 := resolve2FAInput id code st1
    match settledValue st2 promise with
    | some value => Run.returned value st2
    | none => Run.suspended st2

/-- The statements of `fetchInvoicesForWs` from `if (provider.requires2FA)` to
`return result`, for a constructed provider.  An `Except.error` is an exception
leaving the `try` block. -/
def driveProvider (env : Env) (ws : Account) (provider : Script) (st : MainProcess) :
    Run (Except String (List Document)) :=
  if provider.requires2FA then
    match provider.authenticate with
    | Except.error message => Run.returned (Except.error message) st
    | Except.ok _ =>
      if provider.authDone then
        Run.returned (provider.continuation "") (handleFetchSuccess ws st)
      else if provider.requiresSecurityQuestion then
        match awaitCode env ws.name ws._id (some provider.securityQuestion) st with
        | Run.suspended st1 => Run.suspended st1
        | Run.returned code st1 => Run.returned (provider.continuation code) st1
      else
        match awaitCode env ws.name ws._id none st with
        | Run.suspended st1 => Run.suspended st1
        | Run.returned code st1 => Run.returned (provider.continuation code) st1
  else
    match provider.fetch with
    | Except.error message => Run.returned (Except.error message) st
    | Except.ok result => Run.returned (Except.ok result) (handleFetchSuccess ws st)

/-- The `catch` and `finally` blocks of `fetchInvoicesForWs`. -/
def settle (ws : Account) (providerName : String) (outcome : Except String (List Document))
    (st : MainProcess) : Run (List Document) :=
  match outcome with
  | Except.ok result => Run.returned result (logInfo providerName "Finished..." st)
  | Except.error message =>
    Run.returned [] (logInfo providerName "Finished..." (handleFetchError ws message st))

/-- Models `fetchInvoicesForWs(ws, filters)`. -/
def fetchInvoicesForWs (env : Env) (ws : Account) (filters : Filters) (st : MainProcess) :
    Run (List Document) :=
  match env.providers ws.url with
  | none =>
    settle ws "" (Except.ok [])
      (send (Event.onNotification "websiteIsNotSupported" none "error") st)
  | some Provider =>
    let settings := getSettings st.repo
    match env.getPage ws with
    | some message => settle ws "" (Except.error message) st
    | none =>
      match Provider { ws := ws, settings := settings, filters := filters } with
      | Except.error message => settle ws "" (Except.error message) st
      | Except.ok provider =>
        let providerName := provider.name ++ " - " ++ ws.name
        match driveProvider env ws provider (logInfo providerName "Starting..." st) with
        | Run.suspended st1 => Run.suspended st1
        | Run.returned outcome st1 => settle ws providerName outcome st1

/-- The object `handleFetchResults` passes to `createInvoice` for one item, the
date being `item.date || null`. -/
def invoiceOf (item : Document) : InvoiceInput :=
  { description := item.description
    date := if truthyText item.date then item.date else none
    wsName := item.wsName
    fileName := item.fileName }

/-- The callback of `handleFetchResults` for one item: the row is persisted and
the artifact is registered under the id of the row. -/
def handleFetchResult (env : Env) (item : Document) (st : MainProcess) :
    Except String Invoice × MainProcess :=
  match createInvoice (env.insertFault (invoiceOf item)) (invoiceOf item) st.repo with
  | (Except.error e, repo) => (Except.error e, { st with repo := repo })
  | (Except.ok invoice, repo) =>
    (Except.ok invoice,
      { st with repo := repo,
                availableDownloads := st.availableDownloads ++ [(item.download, invoice._id)] })

/-- Models `handleFetchResults(wsResult)`.  The inserts are queued in list order
and the datastore runs them in that order, so the items are handled first to
last. -/
def handleFetchResults (env : Env) :
    List Document → MainProcess → List (Except String Invoice) × MainProcess
  | [], st => ([], st)
  | item :: rest, st =>
    let (invoice, st1) := handleFetchResult env item st
    let (invoices, st2) := handleFetchResults env rest st1
    (invoice :: invoices, st2)

/-- The final `Promise.all(result.map(...))` of `fetchInvoices`: every account
result is an array, which has no `error` property, and is handed to
`handleFetchResults`. -/
def handleAllResults (env : Env) :
    List (List Document) → MainProcess → List (List (Except String Invoice)) × MainProcess
  | [], st => ([], st)
  | wsResult :: rest, st =>
    let (invoices, st1) := handleFetchResults env wsResult st
    let (others, st2) := handleAllResults env rest st1
    (invoices :: others, st2)

/-- The function built for one account by `websites.map(...)` in `fetchInvoices`. -/
def fetchTask (env : Env) (filters : Filters) (ws : Account) (st : MainProcess) :
    Run (List Document) :=
  match fetchInvoicesForWs env ws filters
      (send (Event.onFetchWsChange "loadingWebsite" ws.name none) st) with
  | Run.suspended st1 => Run.suspended st1
  | Run.returned invoices st1 =>
    Run.returned invoices
      (send (Event.onNotification "fetchingInvoicesFromWebsiteCompleted" (some ws.name) "success")
        st1)

/-- Models `fetchInvoices(filters, websiteIdsToFetchFor)`.  The branch
`if (websites.error)` answers a datastore error of the lookup and is not
taken. -/
def fetchInvoices (env : Env) (filters : Filters) (websiteIdsToFetchFor : List Str)
    (st : MainProcess) : Run (List (List (Except String Invoice))) :=
  let st0 := { st with repo := deleteAllInvoices st.repo }
  let websites := getWebsitesByIds st0.repo websiteIdsToFetchFor
  match runSequentially (websites.map (fetchTask env filters)) st0 with
  | Run.suspended st1 => Run.suspended st1
  | Run.returned result st1 =>
    let (results, st2) := handleAllResults env result st1
    Run.returned results st2

/-! ## Notions used in the statements -/

/-- The string-valued fields of an account record. -/
def Website.fields (d : Website) : List Str :=
  [d._id, Str.text d.name, Str.text d.url, d.username, d.password, d.accountId, d.businessId]

/-- The credential fields of an account record. -/
def Website.credentials (d : Website) : List Str :=
  [d.username, d.password, d.accountId, d.businessId]

/-- The keychain writes `createWebsite` and `updateWebsite` perform for an
input: one per credential that is present, under the reference stored in the
record `doc`, in source order. -/
def writtenSecrets (website : WebsiteInput) (doc : Website) : List (Str × String) :=
  [(website.username, doc.username), (website.password, doc.password),
    (website.accountId, doc.accountId), (website.businessId, doc.businessId)].filterMap
    (fun e => if truthyText e.1 then e.1.map (fun secret => (e.2, secret)) else none)

/-- How `createWebsite` stores one credential: a present credential becomes an
identifier drawn during the call, under which the keychain then holds the
plaintext; an absent or empty one becomes the empty string. -/
def StoredAsSecret (before after : Repository) (input : Option String) (stored : Str) : Prop :=
  if truthyText input then
    ∃ n, stored = Str.gen n ∧ before.fresh ≤ n ∧ n < after.fresh ∧ getSecret after stored = input
  else stored = Str.text ""

/-- A call of the account store. -/
inductive RepoOp where
  | create (website : WebsiteInput)
  | update (website : WebsiteInput)
  | delete (id : Str)
deriving DecidableEq, Repr

/-- Performs one call of the account store. -/
def repoStep (r : Repository) : RepoOp → Repository
  | RepoOp.create website => (createWebsite website r).2
  | RepoOp.update website => (updateWebsite website r).2
  | RepoOp.delete id => deleteWebsite id r

/-- Performs a sequence of calls of the account store, first to last. -/
def repoRun (ops : List RepoOp) (r : Repository) : Repository :=
  ops.foldl repoStep r

/-- Every keychain entry is referenced by a credential field of a stored
account record. -/
def NoOrphans (r : Repository) : Prop :=
  ∀ e ∈ r.vault, ∃ d ∈ r.websiteDb, e.1 ∈ d.credentials

instance (r : Repository) : Decidable (NoOrphans r) := by
  unfold NoOrphans; infer_instance

/-! ## Example data -/

/-- An input without credentials. -/
def exInput (name url : String) : WebsiteInput :=
  { _id := none, name := name, url := url, username := none, password := none,
    accountId := none, businessId := none }

/-- An account named like its password. -/
def exInputP1 : WebsiteInput :=
  { exInput "p1" "https://moneybird.com" with password := some "p1" }

/-- An account with a user name and a password. -/
def exInputUser : WebsiteInput :=
  { exInput "Books" "https://moneybird.com" with username := some "ann", password := some "p1" }

/-- A store holding the account of `exInputUser`. -/
def exRepoUser : Repository := (createWebsite exInputUser Repository.empty).2

/-- Creating an account with password `p1`, changing the password to `p2`, then
deleting the account. -/
def exLeakOps : List RepoOp :=
  [RepoOp.create { exInput "Books" "https://moneybird.com" with password := some "p1" },
    RepoOp.update
      { exInput "" "" with _id := some (Str.gen 1), password := some "p2" },
    RepoOp.delete (Str.gen 1)]

/-- Well-formedness of the relay state: the waiting list has one entry per key,
and every promise it mentions, like every settled promise, has been created. -/
def RelayWF (st : MainProcess) : Prop :=
  (∀ e ∈ st.twoFAWaitingList, e.2 < st.nextPromise) ∧
  (∀ e ∈ st.settled, e.1 < st.nextPromise) ∧
  (st.twoFAWaitingList.map Prod.fst).Nodup

instance (st : MainProcess) : Decidable (RelayWF st) := by
  unfold RelayWF; infer_instance

/-- Promise `p` is the waiter registered for account `id` and for no other
account, and it has not been resolved. -/
def Pending (st : MainProcess) (id : Str) (p : Nat) : Prop :=
  assocGet st.twoFAWaitingList id = some p ∧ settledValue st p = none ∧
  (∀ e ∈ st.twoFAWaitingList, e.2 = p → e.1 = id) ∧ RelayWF st

/-- Promise `p` has been created, is not resolved and is no longer in the
waiting list. -/
def Abandoned (st : MainProcess) (p : Nat) : Prop :=
  (∀ e ∈ st.twoFAWaitingList, e.2 ≠ p) ∧ settledValue st p = none ∧
  p < st.nextPromise ∧ RelayWF st

/-- A relay state with a waiter registered for another account. -/
def exRelay : MainProcess :=
  (get2FAInput "Canva" (Str.gen 7) none (MainProcess.init Repository.empty)).2

/-- The value an `async` function returned, if it returned. -/
def Run.value? {α : Type} : Run α → Option α
  | Run.returned value _ => some value
  | Run.suspended _ => none

/-- The state in which an `async` function returned or is suspended. -/
def Run.state {α : Type} : Run α → MainProcess
  | Run.returned _ st => st
  | Run.suspended st => st

/-- What the calls made on a constructed provider end with when the operator's
answer to a code request is `answer`: the returned documents, the message of the
exception raised, or nothing when a requested code never arrives. -/
def Script.outcome (s : Script) (answer : Option String) :
    Option (Except String (List Document)) :=
  if s.requires2FA then
    match s.authenticate with
    | Except.error message => some (Except.error message)
    | Except.ok _ => if s.authDone then some (s.continuation "") else answer.map s.continuation
  else some s.fetch

/-- What the `try` block of `fetchInvoicesForWs` ends with for an account: the
early `return []` for an unregistered url, the exception of page creation or of
the constructor, or the outcome of the provider. -/
def attemptOutcome (env : Env) (ctx : Ctx) : Option (Except String (List Document)) :=
  match env.providers ctx.ws.url with
  | none => some (Except.ok [])
  | some Provider =>
    match env.getPage ctx.ws with
    | some message => some (Except.error message)
    | none =>
      match Provider ctx with
      | Except.error message => some (Except.error message)
      | Except.ok provider => provider.outcome (env.operator ctx.ws._id)

/-- The list `fetchInvoicesForWs` returns for an outcome of its `try` block. -/
def returnedDocs : Except String (List Document) → List Document
  | Except.ok result => result
  | Except.error _ => []

/-- The context object built for an account in state `st`. -/
def ctxOf (st : MainProcess) (filters : Filters) (ws : Account) : Ctx :=
  { ws := ws, settings := getSettings st.repo, filters := filters }

/-- The rows among the results of `handleFetchResults`. -/
def rowsOf (results : List (Except String Invoice)) : List Invoice :=
  results.filterMap (fun r => match r with
    | Except.ok row => some row
    | Except.error _ => none)

/-- The parts of the state an account run leaves alone: the invoice rows, the
settings, the keychain, the identifier generator and the registered artifacts. -/
def Frame (a b : MainProcess) : Prop :=
  b.repo.invoiceDb = a.repo.invoiceDb ∧ b.repo.settingDb = a.repo.settingDb ∧
  b.repo.vault = a.repo.vault ∧ b.repo.fresh = a.repo.fresh ∧
  b.availableDownloads = a.availableDownloads

/-- The account with id `id` has a failure flag set. -/
def Flagged (r : Repository) (id : Str) : Prop :=
  ∃ d, getWebsiteById r id = some d ∧ (d.authFailed = true ∨ d.fetchFailed = true)

/-- No failure flag of the account with id `id` is set in `after` that was not
set in `before`. -/
def NoNewFlag (before after : Repository) (id : Str) : Prop :=
  ∀ d', getWebsiteById after id = some d' →
    ∃ d, getWebsiteById before id = some d ∧
      (d'.authFailed = true → d.authFailed = true) ∧
      (d'.fetchFailed = true → d.fetchFailed = true)

/-- The artifacts registered for the results of `handleFetchResults`: for each
document whose result is a row, its download under the `_id` of the row. -/
def artifactsOf : List Document → List (Except String Invoice) → List (Download × Str)
  | item :: items, Except.ok row :: results => (item.download, row._id) :: artifactsOf items results
  | _ :: items, Except.error _ :: results => artifactsOf items results
  | _, _ => []

/-- The result `handleFetchResults` gives for one document: the error object of
the datastore when the insert of its row fails, otherwise a row whose
description, wsName and fileName are those of the document and whose date is
the date of the document, `null` when the document has none or an empty one. -/
def ResultFor (env : Env) (item : Document) (r : Except String Invoice) : Prop :=
  if env.insertFault
      { description := item.description
        date := if item.date = some "" then none else item.date
        wsName := item.wsName
        fileName := item.fileName } = true then
    r = Except.error "Datastore error. Something went wrong"
  else
    ∃ row, r = Except.ok row ∧ row.description = item.description ∧
      row.date = (if item.date = some "" then none else item.date) ∧
      row.wsName = item.wsName ∧ row.fileName = item.fileName

/-- The `_id` of a row was drawn from the generator at a count in `[lo, hi)`. -/
def DrawnIn (lo hi : Nat) (row : Invoice) : Prop :=
  ∃ n, row._id = Str.gen n ∧ lo ≤ n ∧ n < hi

/-- Filters of the examples. -/
def exFilters : Filters := { from_ := "2024-01-01", to_ := "2024-12-31" }

/-- A fetched document. -/
def exDoc (name : String) (handle : Nat) : Document :=
  { description := "Invoice " ++ name, date := some "2024-03-01", wsName := name,
    fileName := name ++ ".pdf", download := { handle := handle, buffer := none } }

/-- A script without 2FA that returns one document. -/
def exScriptOk (ctx : Ctx) : Except String Script :=
  Except.ok
    { name := "Moneybird", requires2FA := false, fetch := Except.ok [exDoc ctx.ws.name 1],
      authenticate := Except.ok (), authDone := false, requiresSecurityQuestion := false,
      securityQuestion := "", continuation := fun _ => Except.ok [] }

/-- A script without 2FA that returns no document. -/
def exScriptEmpty (_ : Ctx) : Except String Script :=
  Except.ok
    { name := "Later", requires2FA := false, fetch := Except.ok [],
      authenticate := Except.ok (), authDone := false, requiresSecurityQuestion := false,
      securityQuestion := "", continuation := fun _ => Except.ok [] }

/-- A script without 2FA whose `fetch` raises `failedToFetchInvoicesFromWebsite`
before authentication has completed. -/
def exScriptThrows (_ : Ctx) : Except String Script :=
  Except.ok
    { name := "Canva", requires2FA := false,
      fetch := Except.error "failedToFetchInvoicesFromWebsite",
      authenticate := Except.ok (), authDone := false, requiresSecurityQuestion := false,
      securityQuestion := "", continuation := fun _ => Except.ok [] }

/-- A 2FA script that is not authenticated after `authenticate` and returns one
document when resumed with the code `123`, raising `authenticationFailed` for
any other code. -/
def exScript2FA (ctx : Ctx) : Except String Script :=
  Except.ok
    { name := "DigitalOcean", requires2FA := true, fetch := Except.ok [],
      authenticate := Except.ok (), authDone := false, requiresSecurityQuestion := false,
      securityQuestion := "",
      continuation := fun code =>
        if code = "123" then Except.ok [exDoc ctx.ws.name 2]
        else Except.error "authenticationFailed" }

/-- A 2FA script that is authenticated once `authenticate` has returned and
whose continuation then raises `authenticationFailed`. -/
def exScriptLate (_ : Ctx) : Except String Script :=
  Except.ok
    { name := "Mailchimp", requires2FA := true, fetch := Except.ok [],
      authenticate := Except.ok (), authDone := true, requiresSecurityQuestion := false,
      securityQuestion := "", continuation := fun _ => Except.error "authenticationFailed" }

/-- An environment with five registered urls, an operator who answers `123`
and a datastore without faults. -/
def exEnv : Env :=
  { providers := fun url =>
      if url = "ok" then some exScriptOk
      else if url = "empty" then some exScriptEmpty
      else if url = "throws" then some exScriptThrows
      else if url = "2fa" then some exScript2FA
      else if url = "late" then some exScriptLate
      else none
    getPage := fun _ => none
    operator := fun _ => some "123"
    insertFault := fun _ => false }

/-- A stored account without credentials. -/
def exSite (n : Nat) (name url : String) (authFailed : Bool) : Website :=
  { _id := Str.gen n, name := name, url := url, username := Str.text "", password := Str.text "",
    accountId := Str.text "", businessId := Str.text "", secured := true,
    authFailed := authFailed, fetchFailed := false }

/-- The account `exSite n name url authFailed` as `getWebsitesByIds` returns it. -/
def exAccount (n : Nat) (name url : String) (authFailed : Bool) : Account :=
  derefWebsite Repository.empty (exSite n name url authFailed)

/-- A process whose store holds the given accounts. -/
def exProcess (sites : List Website) : MainProcess :=
  MainProcess.init { Repository.empty with websiteDb := sites, fresh := 100 }

/-- A process with one stored account whose script returns one document. -/
def exOne : MainProcess := exProcess [exSite 1 "A" "ok" false]

/-- The state after a first fetch session on `exOne`. -/
def exAfterFirst : MainProcess := (fetchInvoices exEnv exFilters [Str.gen 1] exOne).state

/-- The results of the first fetch session on `exOne`. -/
def exResultsFirst : List (List (Except String Invoice)) :=
  ((fetchInvoices exEnv exFilters [Str.gen 1] exOne).value?).getD []

/-- The state after a second fetch session. -/
def exAfterSecond : MainProcess :=
  (fetchInvoices exEnv exFilters [Str.gen 1] exAfterFirst).state

/-- The results of the second fetch session. -/
def exResultsSecond : List (List (Except String Invoice)) :=
  ((fetchInvoices exEnv exFilters [Str.gen 1] exAfterFirst).value?).getD []

/-- The `try` block of `fetchInvoicesForWs` raises an error with message `m` for
the account of `ctx`: page creation raises it, or the constructor of the
provider, or `fetch` of a provider without 2FA, or `authenticate` of a provider
with 2FA, or the continuation, called with the empty code when the provider is
authenticated and with the operator's code otherwise. -/
def RaisesAt (env : Env) (ctx : Ctx) (m : String) : Prop :=
  ∃ Provider, env.providers ctx.ws.url = some Provider ∧
    (env.getPage ctx.ws = some m ∨
      (env.getPage ctx.ws = none ∧
        (Provider ctx = Except.error m ∨
          ∃ s, Provider ctx = Except.ok s ∧
            ((s.requires2FA = false ∧ s.fetch = Except.error m) ∨
              (s.requires2FA = true ∧
                (s.authenticate = Except.error m ∨
                  (s.authenticate = Except.ok () ∧
                    ((s.authDone = true ∧ s.continuation "" = Except.error m) ∨
                      (s.authDone = false ∧
                        ∃ code, env.operator ctx.ws._id = some code ∧
                          s.continuation code = Except.error m)))))))))

/-- The events a run of the `try` block may have sent: none, or one code
request for the account. -/
def SentAtMostRequest (ws : Account) (before after : MainProcess) : Prop :=
  after.sent = before.sent ∨
    ∃ question, after.sent = before.sent ++ [Event.on2FA ws.name ws._id question]

/-- The change `handleFetchError` makes to the record of the account: the flag
chosen by the message is set. -/
def markFailed (message : String) (d : Website) : Website :=
  if message = "authenticationFailed" then { d with authFailed := true }
  else { d with fetchFailed := true }

/-- The change `handleFetchSuccess` makes to the record of the account. -/
def clearFlags (d : Website) : Website :=
  { d with authFailed := false, fetchFailed := false }

/-- A process storing an account flagged `authFailed` whose script asks for a
code. -/
def exFlagged2FA : MainProcess := exProcess [exSite 1 "A" "2fa" true]

/-- A process storing an account flagged `authFailed` whose script needs no
code. -/
def exFlaggedOk : MainProcess := exProcess [exSite 1 "A" "ok" true]

/-- A process storing an account whose script raises and one whose script
returns no document. -/
def exTwo : MainProcess :=
  exProcess [exSite 1 "A" "throws" false, exSite 2 "B" "empty" false]

/-- The run of the account ends with success: its `try` block returns a list. -/
def Succeeds (env : Env) (ctx : Ctx) : Prop :=
  ∃ docs, attemptOutcome env ctx = some (Except.ok docs)

/-- The argument of `insertEmailedInvoice` and `insertDownloadedInvoice`: a
string, or a value of another type. -/
inductive JsValue where
  | str (s : String)
  | other
deriving DecidableEq, Repr

/-- A document of `emailedInvoicesDb` or `downloadedInvoicesDb`; `stamp` is the
`emailedOn` or `downloadedOn` date. -/
structure DeliveryRecord where
  _id : Str
  combination : String
  stamp : Nat
deriving DecidableEq, Repr

/-- The two delivery datastores, each with a unique index on `combination`, and
their identifier generator. -/
structure DeliveryStores where
  emailedInvoicesDb : List DeliveryRecord
  downloadedInvoicesDb : List DeliveryRecord
  fresh : Nat
deriving DecidableEq, Repr

/-- NeDB `insert` into a datastore with a unique index on `combination`: the
insert is refused when a document with the same `combination` is stored. -/
def insertUnique (doc : DeliveryRecord) (rows : List DeliveryRecord) :
    Option (List DeliveryRecord) :=
  if rows.any (fun r => decide (r.combination = doc.combination)) then none
  else some (rows ++ [doc])

/-- Models `insertEmailedInvoice(combination)`, `now` being `new Date()`. -/
def insertEmailedInvoice (now : Nat) (combination : JsValue) (s : DeliveryStores) :
    Except String DeliveryRecord × DeliveryStores :=
  match combination with
  | JsValue.other => (Except.error "Datastore error. Invalid entries", s)
  | JsValue.str c =>
    let doc : DeliveryRecord := { _id := Str.gen s.fresh, combination := c, stamp := now }
    match insertUnique doc s.emailedInvoicesDb with
    | none => (Except.error "Datastore error. Something went wrong", s)
    | some rows => (Except.ok doc, { s with emailedInvoicesDb := rows, fresh := s.fresh + 1 })

/-- Models `insertDownloadedInvoice(combination)`, `now` being `new Date()`. -/
def insertDownloadedInvoice (now : Nat) (combination : JsValue) (s : DeliveryStores) :
    Except String DeliveryRecord × DeliveryStores :=
  match combination with
  | JsValue.other => (Except.error "Datastore error. Invalid entries", s)
  | JsValue.str c =>
    let doc : DeliveryRecord := { _id := Str.gen s.fresh, combination := c, stamp := now }
    match insertUnique doc s.downloadedInvoicesDb with
    | none => (Except.error "Datastore error. Something went wrong", s)
    | some rows => (Except.ok doc, { s with downloadedInvoicesDb := rows, fresh := s.fresh + 1 })

/-- The number of stored rows with a given combination. -/
def countCombination (rows : List DeliveryRecord) (c : String) : Nat :=
  (rows.filter (fun r => decide (r.combination = c))).length

/-- Delivery stores holding one emailed record. -/
def exDelivery : DeliveryStores :=
  { emailedInvoicesDb := [{ _id := Str.gen 0, combination := "A - jan.pdf", stamp := 5 }],
    downloadedInvoicesDb := [], fresh := 1 }

/-- How `updateWebsite` stores one credential: a present credential becomes an
identifier drawn during the call, under which the keychain then holds the
plaintext; for an absent or empty one the stored value is kept. -/
def UpdatedField (before after : Repository) (input : Option String) (existing stored : Str) :
    Prop :=
  if truthyText input then
    ∃ n, stored = Str.gen n ∧ before.fresh ≤ n ∧ n < after.fresh ∧ getSecret after stored = input
  else stored = existing

/-- The value `getWebsitesByIds` returns for a credential given as `input` to
`createWebsite`: the plaintext, or the empty string for an absent one. -/
def readBack (input : Option String) : Option Str :=
  if truthyText input then input.map Str.text else some (Str.text "")

/-- Every non-empty credential field of the record is a key of the keychain. -/
def Resolves (r : Repository) (d : Website) : Prop :=
  ∀ f ∈ d.credentials, f.truthy = true → (getSecret r f).isSome = true

instance (r : Repository) (d : Website) : Decidable (Resolves r d) := by
  unfold Resolves; infer_instance

/-- Every non-empty credential field of the stored record is supplied by the
input. -/
def SuppliesAll (website : WebsiteInput) (existing : Website) : Prop :=
  (existing.username.truthy = true → truthyText website.username = true) ∧
  (existing.password.truthy = true → truthyText website.password = true) ∧
  (existing.accountId.truthy = true → truthyText website.accountId = true) ∧
  (existing.businessId.truthy = true → truthyText website.businessId = true)

/-- A store holding one record written before credentials were secured: raw
user name and password, `secured` not set. -/
def exRepoRaw : Repository :=
  { Repository.empty with
    websiteDb :=
      [{ _id := Str.gen 1, name := "Books", url := "https://moneybird.com",
         username := Str.text "ann", password := Str.text "p1", accountId := Str.text "",
         businessId := Str.text "", secured := false, authFailed := false,
         fetchFailed := false }]
    fresh := 100 }

/-- An update of that record that supplies a new password only. -/
def exUpdatePassword : WebsiteInput :=
  { exInput "" "" with _id := some (Str.gen 1), password := some "p2" }

/-- A document for which the script could not expose a date. -/
def exDocNoDate : Document :=
  { description := "Invoice", date := none, wsName := "A", fileName := "a.pdf",
    download := { handle := 3, buffer := none } }

/-! ## Main process: saving and mailing a document -/

/-- The index search of `String.prototype.replace` for a string pattern: the
text before and the text after the first occurrence of `pattern`, if there is
one. -/
def splitFirst (pattern : List Char) : List Char → Option (List Char × List Char)
  | [] => if pattern = [] then some ([], []) else none
  | c :: rest =>
    if pattern.isPrefixOf (c :: rest) then some ([], (c :: rest).drop pattern.length)
    else (splitFirst pattern rest).map (fun found => (c :: found.1, found.2))

/-- The abstract operation `GetSubstitution` of ECMAScript for a string pattern
(no captures): in the replacement text `$$` stands for a dollar sign, `$&` for
the matched text, a dollar sign followed by a backtick (code 96) for the text
before the match, a dollar sign followed by an apostrophe (code 39) for the
text after it; every other character stands for itself. -/
def getSubstitution (matched before after : List Char) : List Char → List Char
  | [] => []
  | [c] => [c]
  | c :: d :: rest =>
    if c = '$' then
      if d = '$' then '$' :: getSubstitution matched before after rest
      else if d = '&' then matched ++ getSubstitution matched before after rest
      else if d = Char.ofNat 96 then before ++ getSubstitution matched before after rest
      else if d = Char.ofNat 39 then after ++ getSubstitution matched before after rest
      else c :: getSubstitution matched before after (d :: rest)
    else c :: getSubstitution matched before after (d :: rest)

/-- Models `s.replace(pattern, replacement)` for a string `pattern`: the first
occurrence of the pattern, if any, is replaced by the substitution computed
from `replacement`.  The patterns of the program are ASCII, for which the
search in UTF-16 code units and the search in characters agree. -/
def jsReplace (s pattern replacement : String) : String :=
  match splitFirst pattern.data s.data with
  | none => s
  | some (before, after) =>
    String.mk (before ++ getSubstitution pattern.data before after replacement.data ++ after)

/-- Models `s.endsWith(suffix)`. -/
def jsEndsWith (s suffix : String) : Bool :=
  suffix.data.isSuffixOf s.data

/-- What the main process takes from its host: the path of the documents folder
(`electron.app.getPath` for `documents`) and the method `normalizeDate(lang,
date)` of `Normalizer`, which is taken as a parameter. -/
structure Host where
  documents : String
  normalizeDate : String → String → String

/-- The message of the `TypeError` raised when a property of `null` or of
`undefined` is read. -/
def typeError : String := "TypeError: Cannot read properties of null or undefined"

/-- Models `getInvoiceById(_id)`: `findOne({ _id })`, `none` for `null`. -/
def getInvoiceById (r : Repository) (id : Str) : Option Invoice :=
  r.invoiceDb.find? (fun d => decide (d._id = id))

/-- Models `getDownloadPath(invoice, lang)`.  An `Except.error` is the message of
the exception raised: `settings.format` is read from the stored settings, which
are `null` when none are stored, and `replace` is called on the format, which
is `undefined` when the settings lack it. -/
def getDownloadPath (host : Host) (r : Repository) (invoice : Invoice) (lang : String) :
    Except String String :=
  let settings := getSettings r
  let date := if truthyText invoice.date then host.normalizeDate lang (invoice.date.getD "") else ""
  match settings with
  | none => Except.error typeError
  | some settings =>
    match settings.format with
    | none => Except.error typeError
    | some format =>
      let fileName :=
        jsReplace
          (jsReplace
            (jsReplace
              (jsReplace format "[suggested-filename]" (jsReplace invoice.fileName ".pdf" ""))
              "[description]" invoice.description)
            "[date]" date)
          "[website-name]" invoice.wsName
      Except.ok (host.documents ++ "/VerzamelSysteem/" ++ fileName ++ ".pdf")

/-- What an IPC handler resolves with: a result, or the object `{ error }`. -/
inductive Reply (α : Type) where
  | ok (value : α)
  | error (error : String)
deriving DecidableEq, Repr

/-- The call `download.saveAs(downloadPath)` after which `downloadInvoice`
resolves with `{ success: true }`. -/
structure Saved where
  download : Download
  downloadPath : String
deriving DecidableEq, Repr

/-- The object `getInvoicePathForMail` resolves with: the file name and either
the buffer of the artifact (`content`) or the path of the temporary file of the
download (`path`, named by the download it belongs to). -/
structure Attachment where
  filename : String
  content : Option String
  path : Option Download
deriving DecidableEq, Repr

/-- Models `downloadInvoice({ id, lang })`.  An `Except.error` is an exception:
`invoice.error` is read on the result of `getInvoiceById`, which is `null` when
no row has the id.  A stored row has no `error` property. -/
def downloadInvoice (host : Host) (st : MainProcess) (id : Str) (lang : String) :
    Except String (Reply Saved) :=
  let downloadObj := st.availableDownloads.find? (fun item => decide (item.2 = id))
  match getInvoiceById st.repo id with
  | none => Except.error typeError
  | some invoice =>
    match downloadObj with
    | none => Except.ok (Reply.error "downloadIsNotAvailable")
    | some item =>
      match getDownloadPath host st.repo invoice lang with
      | Except.error message => Except.error message
      | Except.ok downloadPath =>
        Except.ok (Reply.ok { download := item.1, downloadPath := downloadPath })

/-- The `filename` of the attachment built by `getInvoicePathForMail`. -/
def mailFilename (invoice : Invoice) : String :=
  if jsEndsWith invoice.fileName ".pdf" then invoice.wsName ++ " - " ++ invoice.fileName
  else invoice.wsName ++ " - " ++ invoice.fileName ++ ".pdf"

/-- Models `getInvoicePathForMail(id)`; a buffer, when the artifact has one, is
an object and so truthy. -/
def getInvoicePathForMail (st : MainProcess) (id : Str) : Except String (Reply Attachment) :=
  let downloadObj := st.availableDownloads.find? (fun item => decide (item.2 = id))
  match getInvoiceById st.repo id with
  | none => Except.error typeError
  | some invoice =>
    match downloadObj with
    | none => Except.ok (Reply.error "downloadIsNotAvailable")
    | some item =>
      match item.1.buffer with
      | some buffer =>
        Except.ok (Reply.ok { filename := mailFilename invoice, content := some buffer, path := none })
      | none =>
        Except.ok (Reply.ok { filename := mailFilename invoice, content := none, path := some item.1 })

/-- Literal replacement of the first occurrence of `pattern` in `s` by `value`:
the text before the occurrence, then `value` as it is, then the text after. -/
def replaceFirst (s pattern value : String) : String :=
  match splitFirst pattern.data s.data with
  | none => s
  | some (before, after) => String.mk (before ++ value.data ++ after)

/-- The text holds no dollar sign. -/
def NoDollar (s : String) : Prop := '$' ∉ s.data

instance (s : String) : Decidable (NoDollar s) := by
  unfold NoDollar; infer_instance

/-- The date `getDownloadPath` inserts: the normalised date of the invoice, the
empty string when the invoice has none. -/
def dateText (host : Host) (invoice : Invoice) (lang : String) : String :=
  if truthyText invoice.date then host.normalizeDate lang (invoice.date.getD "") else ""

/-- The file name without its trailing `.pdf` extension. -/
def withoutTrailingPdf (fileName : String) : String :=
  if jsEndsWith fileName ".pdf" then String.mk (fileName.data.take (fileName.data.length - 4))
  else fileName

/-- The path with every placeholder of the format replaced literally: by the
file name without its trailing `.pdf` extension, the description, the date and
the account name. -/
def literalPath (host : Host) (format : String) (invoice : Invoice) (lang : String) : String :=
  host.documents ++ "/VerzamelSysteem/" ++
    replaceFirst
      (replaceFirst
        (replaceFirst
          (replaceFirst format "[suggested-filename]" (withoutTrailingPdf invoice.fileName))
          "[description]" invoice.description)
        "[date]" (dateText host invoice lang))
      "[website-name]" invoice.wsName ++ ".pdf"

/-- A host whose documents folder is `/home/ann/Documents` and whose normaliser
leaves dates as they are. -/
def exHost : Host :=
  { documents := "/home/ann/Documents", normalizeDate := fun _ date => date }

/-- A store whose settings hold the given format. -/
def exRepoFormat (format : String) : Repository :=
  { Repository.empty with
    settingDb :=
      [{ format := some format, dateFormat := some "d-M-yyyy", debugMode := some false,
         licenseKey := some "" }] }

/-- An invoice row of account `Books`. -/
def exInvoice (description fileName : String) : Invoice :=
  { _id := Str.gen 100, description := description, date := some "2024-03-01",
    wsName := "Books", fileName := fileName }

/-- The loop `for (const f of functions) results.push(await f())` started with
the results `results`: the functions are called left to right, each after the
one before it has returned, and the list of results is returned at the end. -/
def runLoopFrom {α : Type} : List (MainProcess → Run α) → List α → MainProcess → Run (List α)
  | [], results, st => Run.returned results st
  | f :: rest, results, st =>
    match f st with
    | Run.suspended st1 => Run.suspended st1
    | Run.returned value st1 => runLoopFrom rest (results ++ [value]) st1

/-- A left-to-right loop over the functions, started with no results. -/
def runLoop {α : Type} (functions : List (MainProcess → Run α)) (st : MainProcess) :
    Run (List α) :=
  runLoopFrom functions [] st

/-- The function returns from every state. -/
def Completes {α : Type} (f : MainProcess → Run α) : Prop :=
  ∀ s, ∃ value s1, f s = Run.returned value s1

/-- Two functions that each send an event and return the number of events sent
before. -/
def exThunks : List (MainProcess → Run Nat) :=
  [fun s => Run.returned s.sent.length (send (Event.onFetchWsChange "first" "A" none) s),
    fun s => Run.returned s.sent.length (send (Event.onFetchWsChange "second" "B" none) s)]

/-- The progress event `fetchInvoices` sends before the run of an account. -/
def loadingEvent (ws : Account) : Event :=
  Event.onFetchWsChange "loadingWebsite" ws.name none

/-- The completion notification `fetchInvoices` sends after the run of an
account. -/
def completedEvent (ws : Account) : Event :=
  Event.onNotification "fetchingInvoicesFromWebsiteCompleted" (some ws.name) "success"

/-- An event `fetchInvoicesForWs` may send for an account: a code request for
it, the notification of an error raised for it, or the notification that its
url is not supported. -/
def RunEvent (ws : Account) (e : Event) : Prop :=
  (∃ question, e = Event.on2FA ws.name ws._id question) ∨
  (∃ message, e = Event.onNotification message (some ws.name) "error") ∨
  e = Event.onNotification "websiteIsNotSupported" none "error"

/-- The events of accounts handled one at a time, `mids` giving the events sent
during the run of each: for each account in turn its progress event, the
events of its run and its completion notification. -/
def inTurn : List Account → List (List Event) → List Event
  | ws :: rest, mid :: mids => loadingEvent ws :: (mid ++ completedEvent ws :: inTurn rest mids)
  | _, _ => []

/-- A provider object: a site script together with its mutable state, of type
`σ`.  A method takes the state of the object and gives its result (an
`Except.error` is the message of the exception raised) and the state it leaves.
`fetch` is the call `provider.fetch()`, `continuation` the function that
`authenticate` returns; `authDone`, `requiresSecurityQuestion` and
`securityQuestion` are properties, read from the state. -/
structure ProviderObject (σ : Type) where
  name : String
  requires2FA : Bool
  fetch : σ → Except String (List Document) × σ
  authenticate : σ → Except String Unit × σ
  authDone : σ → Bool
  requiresSecurityQuestion : σ → Bool
  securityQuestion : σ → String
  continuation : String → σ → Except String (List Document) × σ

/-- The statements of `fetchInvoicesForWs` from `if (provider.requires2FA)` to
`return result`, with the state of the provider object made explicit: the
result of `driveProvider` and the state in which the calls leave the object. -/
def driveObject {σ : Type} (env : Env) (ws : Account) (provider : ProviderObject σ) (s : σ)
    (st : MainProcess) : Run (Except String (List Document)) × σ :=
  if provider.requires2FA then
    match provider.authenticate s with
    | (Except.error message, s1) => (Run.returned (Except.error message) st, s1)
    | (Except.ok _, s1) =>
      if provider.authDone s1 then
        let st1 := handleFetchSuccess ws st
        let (result, s2) := provider.continuation "" s1
        (Run.returned result st1, s2)
      else if provider.requiresSecurityQuestion s1 then
        match awaitCode env ws.name ws._id (some (provider.securityQuestion s1)) st with
        | Run.suspended st1 => (Run.suspended st1, s1)
        | Run.returned code st1 =>
          let (result, s2) := provider.continuation code s1
          (Run.returned result st1, s2)
      else
        match awaitCode env ws.name ws._id none st with
        | Run.suspended st1 => (Run.suspended st1, s1)
        | Run.returned code st1 =>
          let (result, s2) := provider.continuation code s1
          (Run.returned result st1, s2)
  else
    match provider.fetch s with
    | (Except.error message, s1) => (Run.returned (Except.error message) st, s1)
    | (Except.ok result, s1) => (Run.returned (Except.ok result) (handleFetchSuccess ws st), s1)

/-- What the orchestrator observes of a provider object that is in state `s`
when it is constructed. -/
def ProviderObject.observe {σ : Type} (p : ProviderObject σ) (s : σ) : Script :=
  { name := p.name
    requires2FA := p.requires2FA
    fetch := (p.fetch s).1
    authenticate := (p.authenticate s).1
    authDone := p.authDone (p.authenticate s).2
    requiresSecurityQuestion := p.requiresSecurityQuestion (p.authenticate s).2
    securityQuestion := p.securityQuestion (p.authenticate s).2
    continuation := fun code => (p.continuation code (p.authenticate s).2).1 }

/-- The `catch` and `finally` blocks applied to a run of the `try` block. -/
def thenSettle (ws : Account) (providerName : String) :
    Run (Except String (List Document)) → Run (List Document)
  | Run.suspended st => Run.suspended st
  | Run.returned outcome st => settle ws providerName outcome st

/-- A call received by a provider object. -/
inductive ScriptCall where
  | fetch
  | authenticate
  | continuation (code : String)
deriving DecidableEq, Repr

/-- A provider object that records the calls it receives, oldest first; its
other features are those of the description `script`. -/
def recording (script : Script) : ProviderObject (List ScriptCall) :=
  { name := script.name
    requires2FA := script.requires2FA
    fetch := fun calls => (script.fetch, calls ++ [ScriptCall.fetch])
    authenticate := fun calls => (script.authenticate, calls ++ [ScriptCall.authenticate])
    authDone := fun _ => script.authDone
    requiresSecurityQuestion := fun _ => script.requiresSecurityQuestion
    securityQuestion := fun _ => script.securityQuestion
    continuation := fun code calls => (script.continuation code, calls ++ [ScriptCall.continuation code]) }

/-- The description the script registered under `ok` gives for account `A`. -/
def exPlain : Script :=
  { name := "Moneybird", requires2FA := false, fetch := Except.ok [exDoc "A" 1],
    authenticate := Except.ok (), authDone := false, requiresSecurityQuestion := false,
    securityQuestion := "", continuation := fun _ => Except.ok [] }

/-- The description the script registered under `late` gives. -/
def exLate : Script :=
  { name := "Mailchimp", requires2FA := true, fetch := Except.ok [],
    authenticate := Except.ok (), authDone := true, requiresSecurityQuestion := false,
    securityQuestion := "", continuation := fun _ => Except.error "authenticationFailed" }

/-- The description the script registered under `2fa` gives for account `A`. -/
def exCode : Script :=
  { name := "DigitalOcean", requires2FA := true, fetch := Except.ok [],
    authenticate := Except.ok (), authDone := false, requiresSecurityQuestion := false,
    securityQuestion := "",
    continuation := fun code =>
      if code = "123" then Except.ok [exDoc "A" 2] else Except.error "authenticationFailed" }

/-- The question of a code request: the text of the security question when
the provider asks one, otherwise none (the `false` of the default parameter). -/
def questionOf {σ : Type} (p : ProviderObject σ) (s : σ) : Option String :=
  if p.requiresSecurityQuestion s then some (p.securityQuestion s) else none

/-- The environment of the examples with an operator who never answers. -/
def exEnvSilent : Env := { exEnv with operator := fun _ => none }

/-! ## Settings -/

/-- Models `createSettings(settings)`: the document is inserted and returned
(its `_id` is not modelled). -/
def createSettings (settings : Settings) (r : Repository) : Settings × Repository :=
  (settings, { r with settingDb := r.settingDb ++ [settings] })

/-- Models `updateSettings(settings)`: `update({}, settings)` has no modifier
and no `multi`, so the first document is replaced by `settings`. -/
def updateSettings (settings : Settings) (r : Repository) : Repository :=
  { r with settingDb := updateFirst (fun _ => true) (fun _ => settings) r.settingDb }

/-- The constant `defaultSettings` of `initSettings`. -/
def defaultSettings : Settings :=
  { format := some "[suggested-filename]", dateFormat := some "d-M-yyyy",
    debugMode := some false, licenseKey := some "" }

/-- Models `initSettings()`.  `settings` is the document read (or created) at
the start; each of the four tests is made on it, and each update writes a copy
of it with one field set. -/
def initSettings (r : Repository) : Repository :=
  let (settings, r0) :=
    match getSettings r with
    | some settings => (settings, r)
    | none => createSettings defaultSettings r
  let r1 :=
    if settings.format.isNone then
      updateSettings { settings with format := defaultSettings.format } r0
    else r0
  let r2 :=
    if settings.dateFormat.isNone then
      updateSettings { settings with dateFormat := defaultSettings.dateFormat } r1
    else r1
  let r3 :=
    if settings.debugMode.isNone then
      updateSettings { settings with debugMode := defaultSettings.debugMode } r2
    else r2
  if settings.licenseKey.isNone then
    updateSettings { settings with licenseKey := defaultSettings.licenseKey } r3
  else r3

/-- The record `initSettings` leaves for a stored record `settings`: the
record with the last of its missing fields set to the default. -/
def lastDefault (settings : Settings) : Settings :=
  if settings.licenseKey.isNone then { settings with licenseKey := defaultSettings.licenseKey }
  else if settings.debugMode.isNone then { settings with debugMode := defaultSettings.debugMode }
  else if settings.dateFormat.isNone then
    { settings with dateFormat := defaultSettings.dateFormat }
  else if settings.format.isNone then { settings with format := defaultSettings.format }
  else settings

/-- A store whose settings record lacks `format` and `dateFormat`. -/
def exRepoOldSettings : Repository :=
  { Repository.empty with
    settingDb :=
      [{ format := none, dateFormat := none, debugMode := some true, licenseKey := some "K" }] }

/-- A process storing an account whose script returns one document and an
account whose script asks for a code. -/
def exOkThen2FA : MainProcess :=
  exProcess [exSite 1 "A" "ok" false, exSite 2 "B" "2fa" false]

/-! ## The provider catalog and the provider registry -/

/-- An entry of the provider catalog `src/providers/index.js`, which the
handler `getProviders` returns: the label, the value (the url stored in an
account created from the entry), the credential fields with their labels, and
the `dateless` mark. -/
structure ProviderEntry where
  label : String
  value : String
  credentials : List (String × String)
  dateless : Bool
deriving DecidableEq, Repr

/-- The array exported by `src/providers/index.js`; entries that are commented
out in the source are left out. -/
def providerCatalog : List ProviderEntry :=
  [ { label := "123inkt.nl"
      value := "https://www.123inkt.nl/customer/invoices.html"
      credentials := [("username", "username"), ("password", "password")]
      dateless := false },
    { label := "ActiveCampaign - Partner"
      value := "https://www.activecampaign.com/partner/invoices.php"
      credentials := [("username", "username"), ("password", "password")]
      dateless := false },
    { label := "Amazon NL"
      value := "https://www.amazon.nl/gp/css/order-history"
      credentials := [("username", "username"), ("password", "password")]
      dateless := false },
    { label := "Ben"
      value := "https://www.ben.nl/ikben/facturen"
      credentials := [("username", "username"), ("password", "password")]
      dateless := false },
    { label := "Bol.com - Particulier"
      value := "https://www.bol.com/nl/rnwy/account/facturen/betaald"
      credentials := [("username", "email"), ("password", "password")]
      dateless := false },
    { label := "Bol.com - Retailer"
      value := "https://api.bol.com/retailer/invoices"
      credentials := [("username", "clientId"), ("password", "clientSecret")]
      dateless := false },
    { label := "Bol.com - Zakelijk"
      value := "https://www.bol.com/nl/rnwy/account/facturen/openstaand"
      credentials := [("username", "email"), ("password", "password")]
      dateless := false },
    { label := "Calendly"
      value := "https://calendly.com/app/admin/billing"
      credentials := [("username", "username"), ("password", "password")]
      dateless := false },
    { label := "Canva"
      value := "https://www.canva.com/settings/purchase-history"
      credentials := [("username", "email"), ("password", "password")]
      dateless := false },
    { label := "Channable"
      value := "https://app.channable.com/companies/STORE_ID/pricing"
      credentials := [("username", "email"), ("password", "password"), ("accountId", "storeId")]
      dateless := false },
    { label := "CheapConnect"
      value := "https://account.cheapconnect.net/invoices.php"
      credentials := [("username", "email"), ("password", "password")]
      dateless := false },
    { label := "Cloudways"
      value := "https://platform.cloudways.com/account/invoice"
      credentials := [("username", "email"), ("password", "password")]
      dateless := false },
    { label := "Coolblue"
      value := "https://www.coolblue.nl/mijn-coolblue-account/orderoverzicht"
      credentials := [("username", "email"), ("password", "password")]
      dateless := false },
    { label := "De Kweker"
      value := "https://www.dekweker.nl/mijn-account/facturen-pakbonnen.html"
      credentials := [("username", "email"), ("password", "password")]
      dateless := false },
    { label := "DigitalOcean"
      value := "https://cloud.digitalocean.com/account/billing"
      credentials := [("username", "email"), ("password", "password")]
      dateless := false },
    { label := "Dropbox"
      value := "https://www.dropbox.com/manage/billing"
      credentials := [("username", "email"), ("password", "password")]
      dateless := false },
    { label := "e-Boekhouden.nl"
      value := "https://secure20.e-boekhouden.nl/beheer/uwgegevens"
      credentials := [("username", "username"), ("password", "password")]
      dateless := false },
    { label := "Facebook ads - Transactions"
      value := "https://business.facebook.com/billing_hub/payment_activity"
      credentials := [("username", "email"), ("password", "password"), ("accountId", "accountId"), ("businessId", "businessId")]
      dateless := false },
    { label := "FedEx"
      value := "https://www.fedex.com/fedexbillingonline/pages/accountsummary/accountSummaryFBO.xhtml"
      credentials := [("username", "username"), ("password", "password")]
      dateless := false },
    { label := "Gamma"
      value := "https://mijn.gamma.nl/mijn-aankopen/"
      credentials := [("username", "email"), ("password", "password")]
      dateless := false },
    { label := "Hollandsnieuwe"
      value := "https://www.hollandsnieuwe.nl/mijn-hollandsnieuwe/ACCOUNT_ID/facturen"
      credentials := [("username", "username"), ("password", "password"), ("accountId", "accountId")]
      dateless := false },
    { label := "Klaviyo"
      value := "https://www.klaviyo.com/settings/billing/payment-history"
      credentials := [("username", "username"), ("password", "password")]
      dateless := false },
    { label := "Later"
      value := "https://app.later.com/account/subscription/billing"
      credentials := [("username", "username"), ("password", "password")]
      dateless := false },
    { label := "Lebara"
      value := "https://www.lebara.nl/nl/mylebara/postpaid-bills.html"
      credentials := [("username", "email"), ("password", "password")]
      dateless := true },
    { label := "Mailchimp"
      value := "https://us10.admin.mailchimp.com/account/billing-history/"
      credentials := [("username", "username"), ("password", "password")]
      dateless := false },
    { label := "Mailchimp - Multi Account"
      value := "https://us7.admin.mailchimp.com/account/billing-history/"
      credentials := [("username", "username"), ("password", "password"), ("accountId", "Account Name")]
      dateless := false },
    { label := "Make"
      value := "https://eu2.make.com/organization/ORGANIZATION_ID/payments"
      credentials := [("username", "email"), ("password", "password")]
      dateless := false },
    { label := "Makro"
      value := "https://docs.makro.nl/"
      credentials := [("username", "email"), ("password", "password")]
      dateless := false },
    { label := "Microsoft 365 - Personal"
      value := "https://account.microsoft.com/billing/orders"
      credentials := [("username", "email"), ("password", "password")]
      dateless := false },
    { label := "Mijndomein"
      value := "https://mijnaccount.mijndomein.nl/facturen"
      credentials := [("username", "email"), ("password", "password")]
      dateless := false },
    { label := "MKB Brandstof"
      value := "https://mijn.mkb-brandstof.nl"
      credentials := [("username", "email"), ("password", "password")]
      dateless := false },
    { label := "Mollie"
      value := "https://api.mollie.com/v2/invoices"
      credentials := [("password", "accessToken")]
      dateless := false },
    { label := "Moneybird"
      value := "https://moneybird.com"
      credentials := [("username", "email"), ("password", "password"), ("accountId", "accountId")]
      dateless := false },
    { label := "Moneybird - Portal"
      value := "https://moneybird.com/"
      credentials := [("username", "link"), ("password", "accessCode")]
      dateless := false },
    { label := "MyParcel"
      value := "https://backoffice.myparcel.nl/invoices"
      credentials := [("username", "email"), ("password", "password")]
      dateless := false },
    { label := "NS Zakelijk"
      value := "https://www.ns.nl/mijnnszakelijk/facturen"
      credentials := [("username", "username"), ("password", "password")]
      dateless := false },
    { label := "Odido Zakelijk"
      value := "https://www.odido.nl/zakelijk/my/facturen"
      credentials := [("username", "email"), ("password", "password")]
      dateless := true },
    { label := "Odido Zakelijk - Verzamelfacturen"
      value := "https://www.odido.nl/zakelijk/my/verzamelfacturen"
      credentials := [("username", "email"), ("password", "password")]
      dateless := true },
    { label := "OpenAI - Platform"
      value := "https://platform.openai.com/account/billing/history"
      credentials := [("username", "email"), ("password", "password")]
      dateless := false },
    { label := "Orderchamp - Seller"
      value := "https://www.orderchamp.com/nl/supplier_invoices"
      credentials := [("username", "email"), ("password", "password")]
      dateless := false },
    { label := "Park-line"
      value := "https://mijn.park-line.nl/Epms/ClientPages/client/client_invoices.aspx"
      credentials := [("username", "email"), ("password", "password")]
      dateless := false },
    { label := "Parkmobile"
      value := "https://account.parkmobile.com/invoices/all"
      credentials := [("username", "email"), ("password", "password")]
      dateless := false },
    { label := "Phoenix"
      value := "https://app.phoenixsite.nl/sitemanager#/account/invoices"
      credentials := [("username", "email"), ("password", "password")]
      dateless := false },
    { label := "Pinterest - Business"
      value := "https://ads.pinterest.com/login/"
      credentials := [("username", "username"), ("password", "password"), ("accountId", "accountId")]
      dateless := false },
    { label := "Pixlr"
      value := "https://pixlr.com/nl/myaccount/"
      credentials := [("username", "username"), ("password", "password")]
      dateless := false },
    { label := "Plug&Pay - Store"
      value := "https://v2.plugandpay.nl/settings/license/invoices"
      credentials := [("username", "email"), ("password", "password")]
      dateless := false },
    { label := "Q-Park"
      value := "https://www.q-park.nl/nl-nl/myqpark/myaccount/myinvoices/"
      credentials := [("username", "email"), ("password", "password")]
      dateless := false },
    { label := "Rinkel"
      value := "https://my.rinkel.com/account/billing"
      credentials := [("username", "email"), ("password", "password")]
      dateless := false },
    { label := "Sendcloud"
      value := "https://app.sendcloud.com/v2/settings/financial/invoices/list"
      credentials := [("username", "email"), ("password", "password")]
      dateless := false },
    { label := "Special Lease"
      value := "https://uwfactuuronline.speciallease.nl/#/documents"
      credentials := [("username", "username"), ("password", "password")]
      dateless := false },
    { label := "Shopify"
      value := "https://admin.shopify.com/store"
      credentials := [("username", "email"), ("password", "password"), ("accountId", "storeId")]
      dateless := false },
    { label := "Simpel"
      value := "https://mijn.simpel.nl/facturen?sid=SUBSCRIPTION_ID"
      credentials := [("username", "username"), ("password", "password"), ("accountId", "subscriptionId")]
      dateless := true },
    { label := "Simyo"
      value := "https://mijn.simyo.nl/facturen"
      credentials := [("username", "username"), ("password", "password")]
      dateless := true },
    { label := "Spotify"
      value := "https://www.spotify.com/nl/account/order-history/subscription/"
      credentials := [("username", "email"), ("password", "password")]
      dateless := false },
    { label := "TradeTracker - Publisher"
      value := "https://affiliate.tradetracker.com/financial/invoice"
      credentials := [("username", "username"), ("password", "password")]
      dateless := false },
    { label := "TransactieSysteem"
      value := "https://transactiesysteem.nl/mijn-account/orders"
      credentials := [("username", "email"), ("password", "password")]
      dateless := false },
    { label := "TransIP"
      value := "https://api.transip.nl/v6/invoices"
      credentials := [("username", "username"), ("password", "accessToken")]
      dateless := false },
    { label := "Upwork - Client"
      value := "https://www.upwork.com/nx/payments/reports/transaction-history"
      credentials := [("username", "username"), ("password", "password")]
      dateless := false },
    { label := "Upwork - Freelancer"
      value := "https://www.upwork.com/nx/payments/reports/transaction-history#"
      credentials := [("username", "username"), ("password", "password")]
      dateless := false },
    { label := "Versio - Oud portaal"
      value := "https://www.versio.nl/customer/financial/invoices"
      credentials := [("username", "email"), ("password", "password")]
      dateless := false },
    { label := "VerzamelSysteem"
      value := "https://verzamelsysteem.nl/mijn-account/orders"
      credentials := [("username", "email"), ("password", "password")]
      dateless := false },
    { label := "Vimexx"
      value := "https://my.vimexx.nl/order"
      credentials := [("username", "email"), ("password", "password")]
      dateless := false },
    { label := "Vodafone Zakelijk"
      value := "https://www.vodafone.nl/my/rekeningen"
      credentials := [("username", "email"), ("password", "password")]
      dateless := false },
    { label := "Voys"
      value := "https://freedom.voys.nl/client/CLIENT_ID/twinfield/invoices/"
      credentials := [("username", "email"), ("password", "password")]
      dateless := false },
    { label := "WHMCS"
      value := "https://www.whmcs.com/members/clientarea.php?action=invoices"
      credentials := [("username", "email"), ("password", "password")]
      dateless := false },
    { label := "WPML"
      value := "https://wpml.org/account/view_order/"
      credentials := [("username", "username"), ("password", "password")]
      dateless := false },
    { label := "Yellowbrick"
      value := "https://my.yellowbrick.nl/#/profile/payment"
      credentials := [("username", "email"), ("password", "password")]
      dateless := false },
    { label := "Youfone - Sim Only"
      value := "https://my.youfone.nl/facturen"
      credentials := [("username", "email"), ("password", "password"), ("accountId", "subscriptionId")]
      dateless := false },
    { label := "Zapier"
      value := "https://zapier.com/app/settings/billing"
      credentials := [("username", "email"), ("password", "password")]
      dateless := false },
    { label := "Ziggo"
      value := "https://www.ziggo.nl/mijn-ziggo/facturen/overzicht"
      credentials := [("username", "email"), ("password", "password")]
      dateless := false } ]

/-- The pairs the map `providers` of `MainProcess` is built from: a url and
the name of the provider class registered under it. -/
def providerRegistry : List (String × String) :=
  [ ("https://www.activecampaign.com/partner/invoices.php", "ActiveCampaignPartnerProvider"),
    ("https://www.amazon.nl/gp/css/order-history", "AmazonNlProvider"),
    ("https://www.ben.nl/ikben/facturen", "BenProvider"),
    ("https://www.bol.com/nl/rnwy/account/facturen/betaald", "BolParticulierProvider"),
    ("https://api.bol.com/retailer/invoices", "BolRetailProvider"),
    ("https://www.bol.com/nl/rnwy/account/facturen/openstaand", "BolZakelijkProvider"),
    ("https://calendly.com/app/admin/billing", "CalendlyProvider"),
    ("https://www.canva.com/settings/purchase-history", "CanvaProvider"),
    ("https://app.channable.com/companies/STORE_ID/pricing", "ChannableProvider"),
    ("https://account.cheapconnect.net/invoices.php", "CheapConnectProvider"),
    ("https://platform.cloudways.com/account/invoice", "CloudwaysProvider"),
    ("https://www.coolblue.nl/mijn-coolblue-account/orderoverzicht", "CoolblueProvider"),
    ("https://www.dekweker.nl/mijn-account/facturen-pakbonnen.html", "DeKwekerProvider"),
    ("https://cloud.digitalocean.com/account/billing", "DigitalOceanProvider"),
    ("https://www.dropbox.com/manage/billing", "DropboxProvider"),
    ("https://secure20.e-boekhouden.nl/beheer/uwgegevens", "EBoekhoudenNLProvider"),
    ("https://business.facebook.com/billing_hub/payment_activity", "FacebookAdsTransactionsProvider"),
    ("https://www.fedex.com/fedexbillingonline/pages/accountsummary/accountSummaryFBO.xhtml", "FedExProvider"),
    ("https://mijn.gamma.nl/mijn-aankopen/", "GammaProvider"),
    ("https://ads.google.com/aw/billing/documents", "GoogleAdsProvider"),
    ("https://www.hollandsnieuwe.nl/mijn-hollandsnieuwe/ACCOUNT_ID/facturen", "HollandsnieuweProvider"),
    ("https://www.123inkt.nl/customer/invoices.html", "InktNl123Provider"),
    ("https://www.klaviyo.com/settings/billing/payment-history", "KlaviyoProvider"),
    ("https://app.later.com/account/subscription/billing", "LaterProvider"),
    ("https://www.lebara.nl/nl/mylebara/postpaid-bills.html", "LebaraProvider"),
    ("https://us10.admin.mailchimp.com/account/billing-history/", "MailchimpProvider"),
    ("https://us7.admin.mailchimp.com/account/billing-history/", "MailchimpMultiProvider"),
    ("https://eu2.make.com/organization/ORGANIZATION_ID/payments", "MakeProvider"),
    ("https://docs.makro.nl/", "MakroProvider"),
    ("https://account.microsoft.com/billing/orders", "Microsoft365PersonalProvider"),
    ("https://mijnaccount.mijndomein.nl/facturen", "MijndomeinProvider"),
    ("https://mijn.mkb-brandstof.nl", "MKBBrandstofProvider"),
    ("https://api.mollie.com/v2/invoices", "MollieProvider"),
    ("https://www.mondkapjeswinkel.nl/mijn-account/orders/", "MondkapjeswinkerProvider"),
    ("https://moneybird.com", "MoneybirdProvider"),
    ("https://moneybird.com/", "MoneybirdPortalProvider"),
    ("https://backoffice.myparcel.nl/invoices", "MyParcelProvider"),
    ("https://www.ns.nl/mijnnszakelijk/facturen", "NSZakelijkProvider"),
    ("https://www.odido.nl/zakelijk/my/facturen", "OdidoZakelijkProvider"),
    ("https://www.odido.nl/zakelijk/my/verzamelfacturen", "OdidoZakelijkVerzamelfacturenProvider"),
    ("https://platform.openai.com/account/billing/history", "OpenAIPlatformProvider"),
    ("https://www.orderchamp.com/nl/supplier_invoices", "OrderchampProvider"),
    ("https://mijn.park-line.nl/Epms/ClientPages/client/client_invoices.aspx", "ParkLineProvider"),
    ("https://account.parkmobile.com/invoices/all", "ParkmobileProvider"),
    ("https://app.phoenixsite.nl/sitemanager#/account/invoices", "PhoenixProvider"),
    ("https://ads.pinterest.com/login/", "PinterestBusinessProvider"),
    ("https://pixlr.com/nl/myaccount/", "PixlrProvider"),
    ("https://v2.plugandpay.nl/settings/license/invoices", "PlugAndPayStoreProvider"),
    ("https://www.q-park.nl/nl-nl/myqpark/myaccount/myinvoices/", "QParkProvider"),
    ("https://my.rinkel.com/account/billing", "RinkelProvider"),
    ("https://app.sendcloud.com/v2/settings/financial/invoices/list", "SendcloudProvider"),
    ("https://uwfactuuronline.speciallease.nl/#/documents", "SpecialLeaseProvider"),
    ("https://admin.shopify.com/store", "ShopifyProvider"),
    ("https://mijn.simpel.nl/facturen?sid=SUBSCRIPTION_ID", "SimpelProvider"),
    ("https://mijn.simyo.nl/facturen", "SimyoProvider"),
    ("https://www.spotify.com/nl/account/order-history/subscription/", "SpotifyProvider"),
    ("https://affiliate.tradetracker.com/financial/invoice", "TradetrackerPublisherProvider"),
    ("https://transactiesysteem.nl/mijn-account/orders", "TransactieSysteemProvider"),
    ("https://api.transip.nl/v6/invoices", "TransIpProvider"),
    ("https://www.upwork.com/nx/payments/reports/transaction-history", "UpworkClientProvider"),
    ("https://www.upwork.com/nx/payments/reports/transaction-history#", "UpworkFreelancerProvider"),
    ("https://mijn.vandebron.nl/thuis/financieel", "VandebronProvider"),
    ("https://www.versio.nl/customer/financial/invoices", "VersioOudPortaalProvider"),
    ("https://verzamelsysteem.nl/mijn-account/orders", "VerzamelSysteemProvider"),
    ("https://my.vimexx.nl/order", "VimexxProvider"),
    ("https://www.vodafone.nl/my/rekeningen", "VodafoneZakelijkProvider"),
    ("https://freedom.voys.nl/client/CLIENT_ID/twinfield/invoices/", "VoysProvider"),
    ("https://www.whmcs.com/members/clientarea.php?action=invoices", "WHMCSProvider"),
    ("https://wpml.org/account/view_order/", "WPMLProvider"),
    ("https://my.yellowbrick.nl/#/profile/payment", "YellowbrickProvider"),
    ("https://my.youfone.nl/facturen", "YoufoneSimOnlyProvider"),
    ("https://zapier.com/app/settings/billing", "ZapierProvider"),
    ("https://www.ziggo.nl/mijn-ziggo/facturen/overzicht", "ZiggoProvider") ]

/-- The keys of the map `providers`. -/
def registryKeys : List String := providerRegistry.map Prod.fst

/-- The registry of the environment has the keys of the map `providers` of
the source: `this.providers.get(url)` gives a class exactly for them. -/
def Registered (env : Env) : Prop :=
  ∀ url, (env.providers url).isSome = true ↔ url ∈ registryKeys

/-- An environment whose registry has the keys of the source, every one of them
with the script that returns one document. -/
def exEnvRegistry : Env :=
  { exEnv with providers := fun url => if url ∈ registryKeys then some exScriptOk else none }

/-- The first entry of the catalog. -/
def exEntry : ProviderEntry :=
  { label := "123inkt.nl"
    value := "https://www.123inkt.nl/customer/invoices.html"
    credentials := [("username", "username"), ("password", "password")]
    dateless := false }

/-- In the file name, `.pdf` occurs for the first time, if at all, at the end. -/
def TrailingOnly (fileName : String) : Prop :=
  ∀ found ∈ splitFirst ".pdf".data fileName.data, found.2 = []

instance (fileName : String) : Decidable (TrailingOnly fileName) := by
  unfold TrailingOnly; infer_instance

/-- A process storing two accounts whose `_id`s are the typed texts `1` and
`2`: the script of the first returns one document, the script of the second
none. -/
def exTyped : MainProcess :=
  exProcess
    [{ exSite 0 "A" "ok" false with _id := Str.text "1" },
      { exSite 0 "B" "empty" false with _id := Str.text "2" }]

/-- The `_id` of the document is a generated identifier drawn at count `n` or
later. -/
def drawnFrom (n : Nat) (d : Website) : Bool :=
  match d._id with
  | Str.gen m => decide (n ≤ m)
  | Str.text _ => false

/-- The input of `exInputUser` carrying the `_id` of the account stored in
`exRepoUser`. -/
def exInputAgain : WebsiteInput := { exInputUser with _id := some (Str.gen 2) }

/-- The state after a fetch session on both accounts of `exOkThen2FA`, the
operator answering. -/
def exAfterBoth : MainProcess :=
  (fetchInvoices exEnv exFilters [Str.gen 1, Str.gen 2] exOkThen2FA).state

/-! ## Properties of the credential store -/

theorem assocGet_assocSet_same {α : Type} (m : List (Str × α)) (k : Str) (v : α) :
    assocGet (assocSet m k v) k = some v := by
  induction m with
  | nil => simp [assocSet, assocGet]
  | cons e rest ih =>
    obtain ⟨k', v'⟩ := e
    by_cases h : k' = k
    · simp [assocSet, assocGet, h]
    · simp [assocSet, assocGet, h, ih]

theorem assocGet_assocSet_other {α : Type} (m : List (Str × α)) (k k' : Str) (v : α)
    (h : k' ≠ k) : assocGet (assocSet m k v) k' = assocGet m k' := by
  induction m with
  | nil => simp [assocSet, assocGet, Ne.symm h]
  | cons e rest ih =>
    obtain ⟨k₀, v₀⟩ := e
    by_cases h₀ : k₀ = k
    · subst h₀
      simp [assocSet, assocGet, Ne.symm h]
    · by_cases h₁ : k₀ = k'
      · subst h₁
        simp [assocSet, assocGet, h₀]
      · simp [assocSet, assocGet, h₀, h₁, ih]

theorem assocGet_assocSet {α : Type} (m : List (Str × α)) (k k' : Str) (v : α) :
    assocGet (assocSet m k v) k' = if k = k' then some v else assocGet m k' := by
  by_cases h : k = k'
  · subst h; simp [assocGet_assocSet_same]
  · simp [h, assocGet_assocSet_other _ _ _ _ (Ne.symm h)]

theorem assocGet_assocDelete {α : Type} (m : List (Str × α)) (k k' : Str) :
    assocGet (assocDelete m k) k' = if k = k' then none else assocGet m k' := by
  induction m with
  | nil => simp [assocDelete, assocGet]
  | cons e rest ih =>
    obtain ⟨k₀, v₀⟩ := e
    simp only [assocDelete, List.filter_cons] at ih ⊢
    by_cases h₀ : k₀ = k <;> by_cases h : k = k' <;> by_cases h₁ : k₀ = k' <;>
      simp_all [assocGet]

theorem truthyText_cases (v : Option String) :
    (∃ p, v = some p ∧ p ≠ "") ∨ truthyText v = false := by
  cases v with
  | none => right; rfl
  | some p =>
    by_cases hp : p = ""
    · right; simp [truthyText, hp]
    · left; exact ⟨p, rfl, hp⟩

theorem truthyText_some (p : String) (h : p ≠ "") : truthyText (some p) = true := by
  simp [truthyText, h]

theorem secretOrEmpty_falsy (v : Option String) (r : Repository) (h : truthyText v = false) :
    secretOrEmpty v r = (Str.text "", r) := by
  cases v with
  | none => rfl
  | some p =>
    have hp : p = "" := by simpa [truthyText] using h
    simp [secretOrEmpty, hp]

theorem secretOrEmpty_some (p : String) (r : Repository) (h : p ≠ "") :
    secretOrEmpty (some p) r =
      (Str.gen r.fresh,
        { r with fresh := r.fresh + 1, vault := assocSet r.vault (Str.gen r.fresh) p }) := by
  simp [secretOrEmpty, h, createSecret]

theorem countP_lt_of_imp {α : Type} (p q : α → Bool) (l : List α)
    (himp : ∀ x ∈ l, p x = true → q x = true) (hex : ∃ x ∈ l, q x = true ∧ p x = false) :
    l.countP p < l.countP q := by
  induction l with
  | nil => obtain ⟨x, hx, -⟩ := hex; cases hx
  | cons a rest ih =>
    obtain ⟨x, hx, hq, hp⟩ := hex
    have hle : rest.countP p ≤ rest.countP q :=
      List.countP_mono_left (fun y hy => himp y (List.mem_cons_of_mem _ hy))
    rcases List.mem_cons.1 hx with rfl | hx'
    · simp only [List.countP_cons, hq, hp, if_true, Bool.false_eq_true, if_false]
      omega
    · have := ih (fun y hy => himp y (List.mem_cons_of_mem _ hy)) ⟨x, hx', hq, hp⟩
      simp only [List.countP_cons]
      by_cases hpa : p a = true
      · have hqa := himp a (List.mem_cons_self _ _) hpa
        simp only [hpa, hqa, if_true]
        omega
      · by_cases hqa : q a = true <;> simp only [hpa, hqa, if_true, if_false, Bool.false_eq_true] <;>
          omega

theorem createNewId_unused (docs : List Website) :
    ∀ (fuel n : Nat), docs.countP (drawnFrom n) ≤ fuel →
      n ≤ createNewId docs fuel n ∧
        docs.any (fun d => decide (d._id = Str.gen (createNewId docs fuel n))) = false := by
  intro fuel
  induction fuel with
  | zero =>
    intro n h
    refine ⟨Nat.le_refl _, ?_⟩
    simp only [createNewId]
    have h0 : docs.countP (drawnFrom n) = 0 := Nat.le_zero.1 h
    rw [List.countP_eq_zero] at h0
    rw [List.any_eq_false]
    intro d hd hid
    simp only [decide_eq_true_eq] at hid
    exact h0 d hd (by simp [drawnFrom, hid])
  | succ fuel ih =>
    intro n h
    simp only [createNewId]
    by_cases hany : docs.any (fun d => decide (d._id = Str.gen n)) = true
    · simp only [hany, if_true]
      have hlt : docs.countP (drawnFrom (n + 1)) < docs.countP (drawnFrom n) := by
        apply countP_lt_of_imp
        · intro x _ hx
          unfold drawnFrom at hx ⊢
          cases hid : x._id with
          | text t => simp [hid] at hx
          | gen m =>
            simp only [hid, decide_eq_true_eq] at hx ⊢
            omega
        · obtain ⟨d, hd, hid⟩ := List.any_eq_true.1 hany
          simp only [decide_eq_true_eq] at hid
          exact ⟨d, hd, by simp [drawnFrom, hid], by simp [drawnFrom, hid]⟩
      obtain ⟨h1, h2⟩ := ih (n + 1) (by omega)
      exact ⟨by omega, h2⟩
    · simp only [hany, Bool.false_eq_true, if_false]
      exact ⟨Nat.le_refl _, by simpa using hany⟩

theorem createNewId_spec (docs : List Website) (n : Nat) :
    n ≤ createNewId docs docs.length n ∧
      docs.any (fun d => decide (d._id = Str.gen (createNewId docs docs.length n))) = false :=
  createNewId_unused docs docs.length n (List.countP_le_length _)
theorem prepareWebsite_supplied (website : WebsiteInput) (id : Str) (r : Repository)
    (hid : website._id = some id) :
    (prepareWebsite website r).2.websiteDb = r.websiteDb ∧
    (prepareWebsite website r).1._id = id ∧
    (prepareWebsite website r).1.secured = true ∧
    (prepareWebsite website r).1.name = website.name ∧
    (prepareWebsite website r).1.url = website.url ∧
    (prepareWebsite website r).1.authFailed = website.authFailed ∧
    (prepareWebsite website r).1.fetchFailed = website.fetchFailed ∧
    StoredAsSecret r (prepareWebsite website r).2 website.username
      (prepareWebsite website r).1.username ∧
    StoredAsSecret r (prepareWebsite website r).2 website.password
      (prepareWebsite website r).1.password ∧
    StoredAsSecret r (prepareWebsite website r).2 website.accountId
      (prepareWebsite website r).1.accountId ∧
    StoredAsSecret r (prepareWebsite website r).2 website.businessId
      (prepareWebsite website r).1.businessId ∧
    ((prepareWebsite website r).1.credentials.filter Str.truthy).Nodup ∧
    (prepareWebsite website r).2.vault =
      (writtenSecrets website (prepareWebsite website r).1).foldl
        (fun v e => assocSet v e.1 e.2) r.vault ∧
    (∀ f ∈ (prepareWebsite website r).1.credentials, ∀ p : String, p ≠ "" → f ≠ Str.text p) := by
  obtain ⟨wid, name, url, u, p, a, b, af, ff⟩ := website
  simp only at hid
  subst hid
  rcases truthyText_cases u with ⟨pu, rfl, hpu⟩ | htu <;>
  rcases truthyText_cases p with ⟨pp, rfl, hpp⟩ | htp <;>
  rcases truthyText_cases a with ⟨pa, rfl, hpa⟩ | hta <;>
  rcases truthyText_cases b with ⟨pb, rfl, hpb⟩ | htb <;>
  simp +arith [prepareWebsite, StoredAsSecret, writtenSecrets,
    Website.credentials, Str.truthy, getSecret, *, assocGet_assocSet, secretOrEmpty_some,
    secretOrEmpty_falsy, truthyText_some] <;>
  (intro q hq; exact fun h => hq h.symm)
theorem prepareWebsite_generated (website : WebsiteInput) (r : Repository)
    (hid : website._id = none) :
    prepareWebsite website r =
      ({ (prepareWebsite { website with _id := some (Str.text "") } r).1 with
          _id := Str.gen (createNewId r.websiteDb r.websiteDb.length
            (prepareWebsite { website with _id := some (Str.text "") } r).2.fresh) },
        { (prepareWebsite { website with _id := some (Str.text "") } r).2 with
          fresh := createNewId r.websiteDb r.websiteDb.length
            (prepareWebsite { website with _id := some (Str.text "") } r).2.fresh + 1 }) := by
  have hdb := (prepareWebsite_supplied { website with _id := some (Str.text "") }
    (Str.text "") r rfl).1
  have h : prepareWebsite website r =
      ({ (prepareWebsite { website with _id := some (Str.text "") } r).1 with
          _id := Str.gen (createNewId
            (prepareWebsite { website with _id := some (Str.text "") } r).2.websiteDb
            (prepareWebsite { website with _id := some (Str.text "") } r).2.websiteDb.length
            (prepareWebsite { website with _id := some (Str.text "") } r).2.fresh) },
        { (prepareWebsite { website with _id := some (Str.text "") } r).2 with
          fresh := createNewId
            (prepareWebsite { website with _id := some (Str.text "") } r).2.websiteDb
            (prepareWebsite { website with _id := some (Str.text "") } r).2.websiteDb.length
            (prepareWebsite { website with _id := some (Str.text "") } r).2.fresh + 1 }) := by
    obtain ⟨wid, name, url, u, p, a, b, af, ff⟩ := website
    simp only at hid
    subst hid
    rfl
  rw [h, hdb]

theorem storedAsSecret_later (before after after' : Repository) (input : Option String)
    (stored : Str) (hv : after'.vault = after.vault) (hf : after.fresh ≤ after'.fresh)
    (h : StoredAsSecret before after input stored) : StoredAsSecret before after' input stored := by
  unfold StoredAsSecret at h ⊢
  split
  · rename_i ht
    simp only [ht, if_true] at h
    obtain ⟨n, e, h1, h2, h3⟩ := h
    exact ⟨n, e, h1, by omega, by simpa [getSecret, hv] using h3⟩
  · rename_i ht
    simpa [ht] using h
theorem prepareWebsite_spec (website : WebsiteInput) (r : Repository) :
    (prepareWebsite website r).2.websiteDb = r.websiteDb ∧
    (prepareWebsite website r).1.secured = true ∧
    (prepareWebsite website r).1.name = website.name ∧
    (prepareWebsite website r).1.url = website.url ∧
    (prepareWebsite website r).1.authFailed = website.authFailed ∧
    (prepareWebsite website r).1.fetchFailed = website.fetchFailed ∧
    StoredAsSecret r (prepareWebsite website r).2 website.username
      (prepareWebsite website r).1.username ∧
    StoredAsSecret r (prepareWebsite website r).2 website.password
      (prepareWebsite website r).1.password ∧
    StoredAsSecret r (prepareWebsite website r).2 website.accountId
      (prepareWebsite website r).1.accountId ∧
    StoredAsSecret r (prepareWebsite website r).2 website.businessId
      (prepareWebsite website r).1.businessId ∧
    ((prepareWebsite website r).1.credentials.filter Str.truthy).Nodup ∧
    (prepareWebsite website r).2.vault =
      (writtenSecrets website (prepareWebsite website r).1).foldl
        (fun v e => assocSet v e.1 e.2) r.vault ∧
    (∀ f ∈ (prepareWebsite website r).1.credentials, ∀ p : String, p ≠ "" → f ≠ Str.text p) ∧
    (∀ id, website._id = some id → (prepareWebsite website r).1._id = id) ∧
    (website._id = none → ∃ n, (prepareWebsite website r).1._id = Str.gen n ∧
      ∀ d ∈ r.websiteDb, d._id ≠ Str.gen n) := by
  cases hid : website._id with
  | some id =>
    obtain ⟨h1, h2, h3, h4, h5, h6, h7, h8, h9, h10, h11, h12, h13, h14⟩ :=
      prepareWebsite_supplied website id r hid
    exact ⟨h1, h3, h4, h5, h6, h7, h8, h9, h10, h11, h12, h13, h14,
      fun id' e => by cases e; exact h2, fun e => by cases e⟩
  | none =>
    obtain ⟨h1, -, h3, h4, h5, h6, h7, h8, h9, h10, h11, h12, h13, h14⟩ :=
      prepareWebsite_supplied { website with _id := some (Str.text "") } (Str.text "") r rfl
    have hnew := createNewId_spec r.websiteDb
      (prepareWebsite { website with _id := some (Str.text "") } r).2.fresh
    have hun : ∀ d ∈ r.websiteDb, d._id ≠ Str.gen (createNewId r.websiteDb r.websiteDb.length
        (prepareWebsite { website with _id := some (Str.text "") } r).2.fresh) := by
      intro d hd
      have := hnew.2
      rw [List.any_eq_false] at this
      simpa using this d hd
    rw [prepareWebsite_generated website r hid]
    dsimp only
    refine ⟨h1, h3, h4, h5, h6, h7, ?_, ?_, ?_, ?_, h12, h13, h14, ?_, ?_⟩
    · refine storedAsSecret_later r _ _ _ _ ?_ ?_ h8
      · rfl
      · exact Nat.le_succ_of_le hnew.1
    · refine storedAsSecret_later r _ _ _ _ ?_ ?_ h9
      · rfl
      · exact Nat.le_succ_of_le hnew.1
    · refine storedAsSecret_later r _ _ _ _ ?_ ?_ h10
      · rfl
      · exact Nat.le_succ_of_le hnew.1
    · refine storedAsSecret_later r _ _ _ _ ?_ ?_ h11
      · rfl
      · exact Nat.le_succ_of_le hnew.1
    · intro id' e
      cases e
    · intro _
      exact ⟨_, rfl, hun⟩

theorem createWebsite_unfold (website : WebsiteInput) (r : Repository) :
    createWebsite website r =
      if r.websiteDb.any (fun d => decide (d._id = (prepareWebsite website r).1._id)) then
        (Except.error "Datastore error. Something went wrong", (prepareWebsite website r).2)
      else
        (Except.ok (prepareWebsite website r).1,
          { (prepareWebsite website r).2 with
            websiteDb := r.websiteDb ++ [(prepareWebsite website r).1] }) := by
  have hdb := (prepareWebsite_spec website r).1
  unfold createWebsite
  simp only [hdb]

theorem createWebsite_ok (website : WebsiteInput) (r : Repository) (doc : Website)
    (h : (createWebsite website r).1 = Except.ok doc) :
    doc = (prepareWebsite website r).1 ∧ (∀ d ∈ r.websiteDb, d._id ≠ doc._id) ∧
      (createWebsite website r).2 =
        { (prepareWebsite website r).2 with websiteDb := r.websiteDb ++ [doc] } := by
  have hun := createWebsite_unfold website r
  by_cases hany : r.websiteDb.any
      (fun d => decide (d._id = (prepareWebsite website r).1._id)) = true
  · rw [hun, if_pos hany] at h
    cases h
  · rw [hun, if_neg hany] at h ⊢
    simp only [Except.ok.injEq] at h
    subst h
    refine ⟨rfl, ?_, rfl⟩
    intro d hd
    simp only [Bool.not_eq_true, List.any_eq_false, decide_eq_true_eq] at hany
    exact hany d hd

theorem createWebsite_refused (website : WebsiteInput) (r : Repository)
    (h : ∃ d ∈ r.websiteDb, d._id = (prepareWebsite website r).1._id) :
    createWebsite website r =
      (Except.error "Datastore error. Something went wrong", (prepareWebsite website r).2) := by
  have hany : r.websiteDb.any
      (fun d => decide (d._id = (prepareWebsite website r).1._id)) = true := by
    obtain ⟨d, hd, e⟩ := h
    exact List.any_eq_true.2 ⟨d, hd, by simpa using e⟩
  rw [createWebsite_unfold, if_pos hany]

theorem createWebsite_accepted (website : WebsiteInput) (r : Repository)
    (h : ∀ d ∈ r.websiteDb, d._id ≠ (prepareWebsite website r).1._id) :
    createWebsite website r =
      (Except.ok (prepareWebsite website r).1,
        { (prepareWebsite website r).2 with
          websiteDb := r.websiteDb ++ [(prepareWebsite website r).1] }) := by
  have hany : ¬ r.websiteDb.any
      (fun d => decide (d._id = (prepareWebsite website r).1._id)) = true := by
    simp only [Bool.not_eq_true, List.any_eq_false, decide_eq_true_eq]
    exact h
  rw [createWebsite_unfold, if_neg hany]
theorem createWebsite_returned (website : WebsiteInput) (r : Repository) (doc : Website)
    (hok : (createWebsite website r).1 = Except.ok doc) :
    (createWebsite website r).2.websiteDb = r.websiteDb ++ [doc] ∧
    (∀ d ∈ r.websiteDb, d._id ≠ doc._id) ∧
    doc.secured = true ∧ doc.name = website.name ∧ doc.url = website.url ∧
    StoredAsSecret r (createWebsite website r).2 website.username doc.username ∧
    StoredAsSecret r (createWebsite website r).2 website.password doc.password ∧
    StoredAsSecret r (createWebsite website r).2 website.accountId doc.accountId ∧
    StoredAsSecret r (createWebsite website r).2 website.businessId doc.businessId ∧
    (doc.credentials.filter Str.truthy).Nodup ∧
    (createWebsite website r).2.vault =
      (writtenSecrets website doc).foldl (fun v e => assocSet v e.1 e.2) r.vault ∧
    (∀ p : String, p ≠ "" → Str.text p ∈ doc.fields →
      p = website.name ∨ p = website.url ∨ website._id = some (Str.text p)) := by
  obtain ⟨hdb, hsec, hname, hurl, -, -, hu, hp, ha, hb, hnd, hv, hraw, hsup, hgen⟩ :=
    prepareWebsite_spec website r
  obtain ⟨hdoc, hfresh, hstate⟩ := createWebsite_ok website r doc hok
  subst hdoc
  rw [hstate]
  refine ⟨rfl, hfresh, hsec, hname, hurl,
    storedAsSecret_later r _ _ _ _ rfl (Nat.le_refl _) hu,
    storedAsSecret_later r _ _ _ _ rfl (Nat.le_refl _) hp,
    storedAsSecret_later r _ _ _ _ rfl (Nat.le_refl _) ha,
    storedAsSecret_later r _ _ _ _ rfl (Nat.le_refl _) hb, hnd, hv, ?_⟩
  intro p hp0 hmem
  simp only [Website.fields, List.mem_cons, Str.text.injEq, List.mem_singleton,
    List.not_mem_nil, or_false] at hmem
  rcases hmem with h | h | h | h | h | h | h
  · right; right
    cases hid : website._id with
    | none =>
      obtain ⟨n, hn, -⟩ := hgen hid
      rw [hn] at h
      cases h
    | some id => rw [← hsup id hid, ← h]
  · exact Or.inl (h.trans hname)
  · exact Or.inr (Or.inl (h.trans hurl))
  · exact absurd h.symm (hraw _ (by simp [Website.credentials]) p hp0)
  · exact absurd h.symm (hraw _ (by simp [Website.credentials]) p hp0)
  · exact absurd h.symm (hraw _ (by simp [Website.credentials]) p hp0)
  · exact absurd h.symm (hraw _ (by simp [Website.credentials]) p hp0)

/-- C4, as stated, fails.  An account created with name `p1` and password `p1`
is stored with a field equal to `p1`, its name.  And for an input that carries
the `_id` of a stored account, the secrets are written but the insert is
refused: the error object is returned and no record is stored. -/
theorem createWebsite_name_equals_password :
    exInputP1.password = some "p1" ∧
    (∃ doc, (createWebsite exInputP1 Repository.empty).1 = Except.ok doc ∧
      doc ∈ (createWebsite exInputP1 Repository.empty).2.websiteDb ∧
      Str.text "p1" ∈ doc.fields) ∧
    (∃ d ∈ exRepoUser.websiteDb, some d._id = exInputAgain._id) ∧
    (createWebsite exInputAgain exRepoUser).1 =
      Except.error "Datastore error. Something went wrong" ∧
    (createWebsite exInputAgain exRepoUser).2.websiteDb = exRepoUser.websiteDb ∧
    getSecret (createWebsite exInputAgain exRepoUser).2 (Str.gen 4) = some "p1" :=
  ⟨by decide, ⟨_, rfl, by decide, by decide⟩, by decide, rfl, by decide, by decide⟩

/-- C4, amended.  When `createWebsite` returns a record, that record has been
appended to the store under an `_id` no stored record had, it is marked secured
and its name and url are those of the input; each credential present in the
input is stored as an identifier drawn during the call under which the keychain
holds the plaintext, the identifiers of different fields being distinct; each
absent credential is stored as the empty string; the keychain is written once
per present credential and not otherwise; and a field of the record holds a
typed non-empty text only if that text is the name, the url or the `_id` of
the input, so no credential field holds a plaintext.  A record is returned when
the input has no `_id` or an `_id` that no stored record has; when a stored
record has the `_id` of the input, the error object is returned and the store
is unchanged. -/
theorem createWebsite_stores_references (website : WebsiteInput) (r : Repository) :
    (∀ doc, (createWebsite website r).1 = Except.ok doc →
      (createWebsite website r).2.websiteDb = r.websiteDb ++ [doc] ∧
      (∀ d ∈ r.websiteDb, d._id ≠ doc._id) ∧
      doc.secured = true ∧ doc.name = website.name ∧ doc.url = website.url ∧
      StoredAsSecret r (createWebsite website r).2 website.username doc.username ∧
      StoredAsSecret r (createWebsite website r).2 website.password doc.password ∧
      StoredAsSecret r (createWebsite website r).2 website.accountId doc.accountId ∧
      StoredAsSecret r (createWebsite website r).2 website.businessId doc.businessId ∧
      (doc.credentials.filter Str.truthy).Nodup ∧
      (createWebsite website r).2.vault =
        (writtenSecrets website doc).foldl (fun v e => assocSet v e.1 e.2) r.vault ∧
      (∀ p : String, p ≠ "" → Str.text p ∈ doc.fields →
        p = website.name ∨ p = website.url ∨ website._id = some (Str.text p))) ∧
    ((website._id = none ∨ ∃ id, website._id = some id ∧ ∀ d ∈ r.websiteDb, d._id ≠ id) →
      ∃ doc, (createWebsite website r).1 = Except.ok doc) ∧
    (∀ id, website._id = some id → (∃ d ∈ r.websiteDb, d._id = id) →
      (createWebsite website r).1 = Except.error "Datastore error. Something went wrong" ∧
      (createWebsite website r).2.websiteDb = r.websiteDb) := by
  obtain ⟨hdb, hsec, hname, hurl, -, -, hu, hp, ha, hb, hnd, hv, hraw, hsup, hgen⟩ :=
    prepareWebsite_spec website r
  refine ⟨createWebsite_returned website r, ?_, ?_⟩
  · intro h
    refine ⟨_, congrArg Prod.fst (createWebsite_accepted website r ?_)⟩
    rcases h with h | ⟨id, hid, hfree⟩
    · obtain ⟨n, hn, hun⟩ := hgen h
      rw [hn]
      exact hun
    · rw [hsup id hid]
      exact hfree
  · intro id hid hex
    have := createWebsite_refused website r (by rw [hsup id hid]; exact hex)
    rw [this]
    exact ⟨rfl, hdb⟩

/-- Instance of C4, amended: the account of `exInputUser`, which carries no
`_id`, is stored in the empty store, its password under the second identifier
drawn. -/
theorem createWebsite_stores_references_witness :
    exInputUser._id = none ∧
    ∃ doc, (createWebsite exInputUser Repository.empty).1 = Except.ok doc ∧
      doc.password = Str.gen 1 ∧
      getSecret (createWebsite exInputUser Repository.empty).2 (Str.gen 1) = some "p1" :=
  ⟨rfl,
    ((createWebsite_stores_references exInputUser Repository.empty).2.1 (Or.inl rfl)).elim
      fun doc h => ⟨doc, h, by cases h; decide, by decide⟩⟩

theorem releaseField_websiteDb (ws : Option Website) (field : Website → Str) (r : Repository) :
    (releaseField ws field r).websiteDb = r.websiteDb := by
  unfold releaseField
  cases ws with
  | none => rfl
  | some w => by_cases h : (w.secured && (field w).truthy) = true <;> simp [h, deleteSecret]

theorem releaseField_getSecret (w : Website) (field : Website → Str) (r : Repository)
    (k : Str) :
    getSecret (releaseField (some w) field r) k =
      if (w.secured && (field w).truthy) = true ∧ field w = k then none else getSecret r k := by
  unfold releaseField
  by_cases h : (w.secured && (field w).truthy) = true
  · simp [h, deleteSecret, getSecret, assocGet_assocDelete]
  · simp [h]

theorem removeFirst_id_absent (id : Str) (l : List Website)
    (h : (l.map Website._id).Nodup) :
    ∀ d ∈ removeFirst (fun d => decide (d._id = id)) l, d._id ≠ id := by
  induction l with
  | nil => simp [removeFirst]
  | cons x rest ih =>
    simp only [List.map_cons, List.nodup_cons] at h
    by_cases hx : x._id = id
    · simp only [removeFirst, hx, decide_True, if_true]
      intro d hd hid
      exact h.1 (by rw [hx, ← hid]; exact List.mem_map_of_mem _ hd)
    · simp only [removeFirst, hx, decide_False]
      intro d hd
      rcases List.mem_cons.1 hd with rfl | hd
      · exact hx
      · exact ih h.2 d hd

theorem find?_id_eq_none (id : Str) (l : List Website) (h : ∀ d ∈ l, d._id ≠ id) :
    l.find? (fun d => decide (d._id = id)) = none := by
  rw [List.find?_eq_none]
  intro d hd
  simpa using h d hd

/-- C5: for a secured stored account (the `_id` index being unique),
`deleteWebsite` first deletes from the keychain every non-empty reference held in
the username, password, accountId and businessId fields, the record still being
stored at that point, and then removes the record: afterwards `getSecret` finds
nothing under any of these references and no record with that `_id` is stored. -/
theorem deleteWebsite_releases_secrets (r : Repository) (id : Str) (ws : Website)
    (hget : getWebsiteById r id = some ws) (hsec : ws.secured = true)
    (huniq : (r.websiteDb.map Website._id).Nodup) :
    (∀ ref ∈ ws.credentials, ref.truthy = true →
      getSecret (releaseSecrets (some ws) r) ref = none) ∧
    ws ∈ (releaseSecrets (some ws) r).websiteDb ∧
    (deleteWebsite id r).vault = (releaseSecrets (some ws) r).vault ∧
    (∀ ref ∈ ws.credentials, ref.truthy = true → getSecret (deleteWebsite id r) ref = none) ∧
    getWebsiteById (deleteWebsite id r) id = none ∧
    (∀ d ∈ (deleteWebsite id r).websiteDb, d._id ≠ id) := by
  have hmem : ws ∈ r.websiteDb := List.mem_of_find?_eq_some hget
  have hdb : (releaseSecrets (some ws) r).websiteDb = r.websiteDb := by
    simp [releaseSecrets, releaseField_websiteDb]
  have hrel : ∀ ref ∈ ws.credentials, ref.truthy = true →
      getSecret (releaseSecrets (some ws) r) ref = none := by
    intro ref href ht
    simp only [Website.credentials, List.mem_cons, List.mem_singleton, List.not_mem_nil,
      or_false] at href
    simp only [releaseSecrets, releaseField_getSecret, hsec, Bool.true_and]
    rcases href with rfl | rfl | rfl | rfl <;> simp [ht]
  have hvault : (deleteWebsite id r).vault = (releaseSecrets (some ws) r).vault := by
    simp [deleteWebsite, hget]
  have habs : ∀ d ∈ (deleteWebsite id r).websiteDb, d._id ≠ id := by
    simp only [deleteWebsite, hget, hdb]
    exact removeFirst_id_absent id _ huniq
  refine ⟨hrel, by rw [hdb]; exact hmem, hvault, ?_, ?_, habs⟩
  · intro ref href ht
    have := hrel ref href ht
    simpa [getSecret, hvault] using this
  · exact find?_id_eq_none id _ habs

/-- Instance of C5 on the store holding one account with a user name and a
password. -/
theorem deleteWebsite_releases_secrets_witness :
    (∀ ref ∈ [Str.gen 0, Str.gen 1, Str.text "", Str.text ""], ref.truthy = true →
      getSecret (deleteWebsite (Str.gen 2) exRepoUser) ref = none) ∧
    getWebsiteById (deleteWebsite (Str.gen 2) exRepoUser) (Str.gen 2) = none :=
  have h := deleteWebsite_releases_secrets exRepoUser (Str.gen 2)
    (prepareWebsite exInputUser Repository.empty).1 (by decide) (by decide) (by decide)
  ⟨h.2.2.2.1, h.2.2.2.2.1⟩

/-- C6 fails on the code: after creating an account with password `p1`,
changing its password to `p2` and deleting it, the account store is empty while
the keychain still holds `p1` under the first reference; already after the
update that entry is referenced by no record. -/
theorem updateWebsite_orphans_replaced_secret :
    (repoRun exLeakOps Repository.empty).websiteDb = [] ∧
    getSecret (repoRun exLeakOps Repository.empty) (Str.gen 0) = some "p1" ∧
    ¬ NoOrphans (repoRun exLeakOps Repository.empty) ∧
    ¬ NoOrphans (repoRun (exLeakOps.take 2) Repository.empty) := by
  decide

/-! ## Properties of the code relay -/

theorem mem_assocSet {α : Type} (m : List (Str × α)) (k : Str) (v : α) (e : Str × α)
    (h : e ∈ assocSet m k v) : e ∈ m ∨ e = (k, v) := by
  induction m with
  | nil => simpa [assocSet] using h
  | cons x rest ih =>
    obtain ⟨k₀, v₀⟩ := x
    by_cases h₀ : k₀ = k
    · simp only [assocSet, h₀, if_true] at h
      rcases List.mem_cons.1 h with h | h
      · exact Or.inr h
      · exact Or.inl (List.mem_cons_of_mem _ h)
    · simp only [assocSet, h₀, if_false] at h
      rcases List.mem_cons.1 h with h | h
      · exact Or.inl (by rw [h]; exact List.mem_cons_self _ _)
      · rcases ih h with h | h
        · exact Or.inl (List.mem_cons_of_mem _ h)
        · exact Or.inr h

theorem assocSet_keys {α : Type} (m : List (Str × α)) (k : Str) (v : α) :
    (assocSet m k v).map Prod.fst =
      if k ∈ m.map Prod.fst then m.map Prod.fst else m.map Prod.fst ++ [k] := by
  induction m with
  | nil => simp [assocSet]
  | cons x rest ih =>
    obtain ⟨k₀, v₀⟩ := x
    by_cases h₀ : k₀ = k
    · simp [assocSet, h₀]
    · have h₁ : ¬ k = k₀ := fun h => h₀ h.symm
      by_cases hm : k ∈ rest.map Prod.fst
      · simp only [assocSet, h₀, if_false, List.map_cons, ih, hm, if_true, List.mem_cons,
          or_true]
      · simp only [assocSet, h₀, if_false, List.map_cons, ih, hm, List.mem_cons, h₁,
          or_self, List.cons_append]

theorem assocSet_nodup {α : Type} (m : List (Str × α)) (k : Str) (v : α)
    (h : (m.map Prod.fst).Nodup) : ((assocSet m k v).map Prod.fst).Nodup := by
  rw [assocSet_keys]
  by_cases hm : k ∈ m.map Prod.fst
  · simpa [hm] using h
  · simp only [hm, if_false]
    exact List.Nodup.append h (List.nodup_singleton k) (by simpa using hm)

theorem mem_assocSet_key {α : Type} (m : List (Str × α)) (k : Str) (v : α) (e : Str × α)
    (hn : (m.map Prod.fst).Nodup) (h : e ∈ assocSet m k v) (hk : e.1 = k) : e = (k, v) := by
  induction m with
  | nil => simpa [assocSet] using h
  | cons x rest ih =>
    obtain ⟨k₀, v₀⟩ := x
    simp only [List.map_cons, List.nodup_cons] at hn
    by_cases h₀ : k₀ = k
    · simp only [assocSet, h₀, if_true] at h
      rcases List.mem_cons.1 h with h | h
      · exact h
      · exact absurd (by rw [h₀, ← hk]; exact List.mem_map_of_mem _ h) hn.1
    · simp only [assocSet, h₀, if_false] at h
      rcases List.mem_cons.1 h with h | h
      · rw [h] at hk; exact absurd hk h₀
      · exact ih hn.2 h

theorem assocGet_mem {α : Type} (m : List (Str × α)) (k : Str) (v : α)
    (h : assocGet m k = some v) : (k, v) ∈ m := by
  induction m with
  | nil => simp [assocGet] at h
  | cons x rest ih =>
    obtain ⟨k₀, v₀⟩ := x
    by_cases h₀ : k₀ = k
    · simp only [assocGet, h₀, if_true, Option.some.injEq] at h
      rw [h₀, h]; exact List.mem_cons_self _ _
    · simp only [assocGet, h₀, if_false] at h
      exact List.mem_cons_of_mem _ (ih h)

theorem filter_key_of_assocGet {α : Type} (m : List (Str × α)) (k : Str) (v : α)
    (hn : (m.map Prod.fst).Nodup) (h : assocGet m k = some v) :
    m.filter (fun e => decide (e.1 = k)) = [(k, v)] := by
  induction m with
  | nil => simp [assocGet] at h
  | cons x rest ih =>
    obtain ⟨k₀, v₀⟩ := x
    simp only [List.map_cons, List.nodup_cons] at hn
    by_cases h₀ : k₀ = k
    · simp only [assocGet, h₀, if_true, Option.some.injEq] at h
      have hrest : rest.filter (fun e => decide (e.1 = k)) = [] := by
        rw [List.filter_eq_nil_iff]
        intro e he hk
        exact hn.1 (by rw [h₀, ← of_decide_eq_true hk]; exact List.mem_map_of_mem _ he)
      simp [List.filter_cons, h₀, h, hrest]
    · simp only [assocGet, h₀, if_false] at h
      simp [List.filter_cons, h₀, ih hn.2 h]

theorem settledValue_resolvePromise (st : MainProcess) (p q : Nat) (c : String) :
    settledValue (resolvePromise p c st) q =
      if q = p ∧ settledValue st p = none then some c else settledValue st q := by
  unfold resolvePromise
  cases hp : settledValue st p with
  | some v => simp
  | none =>
    by_cases hq : q = p
    · subst hq
      have hnone : st.settled.find? (fun e => decide (e.1 = q)) = none := by
        simpa [settledValue] using hp
      simp [settledValue, List.find?_append, hnone]
    · have hq' : ¬ p = q := fun h => hq h.symm
      simp only [hq, false_and, if_false]
      simp only [settledValue, List.find?_append]
      cases hf : st.settled.find? (fun e => decide (e.1 = q)) with
      | some w => simp
      | none => simp [hq']

theorem resolvePromise_settled_mem (st : MainProcess) (p : Nat) (c : String) (e : Nat × String)
    (h : e ∈ (resolvePromise p c st).settled) : e ∈ st.settled ∨ e = (p, c) := by
  unfold resolvePromise at h
  cases hp : settledValue st p with
  | some v => rw [hp] at h; exact Or.inl h
  | none =>
    rw [hp] at h
    simpa using h

theorem resolvePromise_fields (st : MainProcess) (p : Nat) (c : String) :
    (resolvePromise p c st).twoFAWaitingList = st.twoFAWaitingList ∧
    (resolvePromise p c st).nextPromise = st.nextPromise ∧
    (resolvePromise p c st).repo = st.repo ∧
    (resolvePromise p c st).availableDownloads = st.availableDownloads ∧
    (resolvePromise p c st).sent = st.sent ∧
    (resolvePromise p c st).logged = st.logged := by
  unfold resolvePromise
  cases settledValue st p <;> simp

theorem relayWF_get2FAInput (st : MainProcess) (name : String) (id : Str)
    (question : Option String) (h : RelayWF st) :
    RelayWF (get2FAInput name id question st).2 := by
  obtain ⟨h1, h2, h3⟩ := h
  refine ⟨?_, ?_, ?_⟩
  · intro e he
    simp only [get2FAInput, send] at he ⊢
    rcases mem_assocSet _ _ _ _ he with he | he
    · exact Nat.lt_succ_of_lt (h1 e he)
    · rw [he]; exact Nat.lt_succ_self _
  · intro e he
    simp only [get2FAInput, send] at he ⊢
    exact Nat.lt_succ_of_lt (h2 e he)
  · simp only [get2FAInput, send]
    exact assocSet_nodup _ _ _ h3

theorem relayWF_resolve2FAInput (st : MainProcess) (id : Str) (code : String)
    (h : RelayWF st) : RelayWF (resolve2FAInput id code st) := by
  obtain ⟨h1, h2, h3⟩ := h
  unfold resolve2FAInput
  cases hg : assocGet st.twoFAWaitingList id with
  | none => exact ⟨h1, h2, h3⟩
  | some p =>
    obtain ⟨f1, f2, -⟩ := resolvePromise_fields st p code
    refine ⟨?_, ?_, ?_⟩
    · intro e he
      simp only [assocDelete, f1, f2] at he ⊢
      exact h1 e (List.mem_of_mem_filter he)
    · intro e he
      simp only [f2] at he ⊢
      rcases resolvePromise_settled_mem st p code e he with he | he
      · exact h2 e he
      · rw [he]; exact h1 (id, p) (assocGet_mem _ _ _ hg)
    · simp only [assocDelete, f1]
      exact List.Nodup.sublist (List.Sublist.map _ (List.filter_sublist _)) h3

theorem relayWF_relayStep (st : MainProcess) (op : RelayOp) (h : RelayWF st) :
    RelayWF (relayStep st op) := by
  cases op with
  | request name id question => exact relayWF_get2FAInput st name id question h
  | submit id code => exact relayWF_resolve2FAInput st id code h

theorem pending_get2FAInput (st : MainProcess) (name : String) (id : Str)
    (question : Option String) (h : RelayWF st) :
    (get2FAInput name id question st).1 = st.nextPromise ∧
    Pending (get2FAInput name id question st).2 id st.nextPromise := by
  refine ⟨rfl, ?_, ?_, ?_, relayWF_get2FAInput st name id question h⟩
  · simp [get2FAInput, send, assocGet_assocSet_same]
  · have : st.settled.find? (fun e => decide (e.1 = st.nextPromise)) = none := by
      rw [List.find?_eq_none]
      intro e he
      have := h.2.1 e he
      simp only [decide_eq_true_eq]
      omega
    simp [settledValue, get2FAInput, send, this]
  · intro e he hp
    simp only [get2FAInput, send] at he
    rcases mem_assocSet _ _ _ _ he with he | he
    · have := h.1 e he
      omega
    · rw [he]

theorem pending_relayStep (st : MainProcess) (A : Str) (p : Nat) (op : RelayOp)
    (h : Pending st A p) (hop : op.id ≠ A) : Pending (relayStep st op) A p := by
  obtain ⟨hget, hnone, honly, hwf⟩ := h
  have hlt : p < st.nextPromise := hwf.1 (A, p) (assocGet_mem _ _ _ hget)
  cases op with
  | request name id question =>
    have hid : id ≠ A := hop
    refine ⟨?_, ?_, ?_, relayWF_get2FAInput st name id question hwf⟩
    · simp only [relayStep, get2FAInput, send]
      rw [assocGet_assocSet_other _ _ _ _ (Ne.symm hid)]
      exact hget
    · simpa [relayStep, get2FAInput, send, settledValue] using hnone
    · intro e he hp
      simp only [relayStep, get2FAInput, send] at he
      rcases mem_assocSet _ _ _ _ he with he | he
      · exact honly e he hp
      · rw [he] at hp
        simp only at hp
        omega
  | submit id code =>
    have hid : id ≠ A := hop
    refine ⟨?_, ?_, ?_, relayWF_resolve2FAInput st id code hwf⟩
    · simp only [relayStep, resolve2FAInput]
      cases hg : assocGet st.twoFAWaitingList id with
      | none => exact hget
      | some q =>
        simp only [(resolvePromise_fields st q code).1, assocGet_assocDelete, hid, if_false]
        exact hget
    · simp only [relayStep, resolve2FAInput]
      cases hg : assocGet st.twoFAWaitingList id with
      | none => exact hnone
      | some q =>
        have hq : p ≠ q := fun hpq =>
          hid (honly (id, q) (assocGet_mem _ _ _ hg) hpq.symm)
        have := settledValue_resolvePromise st q p code
        simp only [hq, false_and, if_false] at this
        simpa [settledValue] using this.trans hnone
    · intro e he hp
      simp only [relayStep, resolve2FAInput] at he
      cases hg : assocGet st.twoFAWaitingList id with
      | none => rw [hg] at he; exact honly e he hp
      | some q =>
        rw [hg] at he
        simp only [(resolvePromise_fields st q code).1, assocDelete] at he
        exact honly e (List.mem_of_mem_filter he) hp

theorem pending_relayRun (ops : List RelayOp) (st : MainProcess) (A : Str) (p : Nat)
    (h : Pending st A p) (hops : ∀ op ∈ ops, op.id ≠ A) : Pending (relayRun ops st) A p := by
  induction ops generalizing st with
  | nil => exact h
  | cons op rest ih =>
    simp only [relayRun, List.foldl_cons]
    exact ih _ (pending_relayStep st A p op h (hops op (List.mem_cons_self _ _)))
      (fun o ho => hops o (List.mem_cons_of_mem _ ho))

theorem pending_resolve2FAInput (st : MainProcess) (A : Str) (p : Nat) (c : String)
    (h : Pending st A p) :
    settledValue (resolve2FAInput A c st) p = some c ∧
    assocGet (resolve2FAInput A c st).twoFAWaitingList A = none ∧
    (∀ B, B ≠ A →
      assocGet (resolve2FAInput A c st).twoFAWaitingList B = assocGet st.twoFAWaitingList B) ∧
    (∀ q, q ≠ p → settledValue (resolve2FAInput A c st) q = settledValue st q) := by
  obtain ⟨hget, hnone, -, -⟩ := h
  simp only [resolve2FAInput, hget]
  refine ⟨?_, ?_, ?_, ?_⟩
  · have := settledValue_resolvePromise st p p c
    simp only [hnone, and_self, if_true] at this
    simpa [settledValue] using this
  · simp [(resolvePromise_fields st p c).1, assocGet_assocDelete]
  · intro B hB
    simp [(resolvePromise_fields st p c).1, assocGet_assocDelete, Ne.symm hB]
  · intro q hq
    have := settledValue_resolvePromise st p q c
    simp only [hq, false_and, if_false] at this
    simpa [settledValue] using this

theorem abandoned_relayStep (st : MainProcess) (p : Nat) (op : RelayOp)
    (h : Abandoned st p) : Abandoned (relayStep st op) p := by
  obtain ⟨hnot, hnone, hlt, hwf⟩ := h
  cases op with
  | request name id question =>
    refine ⟨?_, ?_, ?_, relayWF_get2FAInput st name id question hwf⟩
    · intro e he
      simp only [relayStep, get2FAInput, send] at he
      rcases mem_assocSet _ _ _ _ he with he | he
      · exact hnot e he
      · rw [he]; simp only; omega
    · simpa [relayStep, get2FAInput, send, settledValue] using hnone
    · simp only [relayStep, get2FAInput, send]; omega
  | submit id code =>
    refine ⟨?_, ?_, ?_, relayWF_resolve2FAInput st id code hwf⟩
    · intro e he
      simp only [relayStep, resolve2FAInput] at he
      cases hg : assocGet st.twoFAWaitingList id with
      | none => rw [hg] at he; exact hnot e he
      | some q =>
        rw [hg] at he
        simp only [(resolvePromise_fields st q code).1, assocDelete] at he
        exact hnot e (List.mem_of_mem_filter he)
    · simp only [relayStep, resolve2FAInput]
      cases hg : assocGet st.twoFAWaitingList id with
      | none => exact hnone
      | some q =>
        have hq : p ≠ q := fun hpq => hnot (id, q) (assocGet_mem _ _ _ hg) hpq.symm
        have := settledValue_resolvePromise st q p code
        simp only [hq, false_and, if_false] at this
        simpa [settledValue] using this.trans hnone
    · simp only [relayStep, resolve2FAInput]
      cases hg : assocGet st.twoFAWaitingList id with
      | none => exact hlt
      | some q => simpa [(resolvePromise_fields st q code).2.1] using hlt

theorem abandoned_relayRun (ops : List RelayOp) (st : MainProcess) (p : Nat)
    (h : Abandoned st p) : Abandoned (relayRun ops st) p := by
  induction ops generalizing st with
  | nil => exact h
  | cons op rest ih =>
    simp only [relayRun, List.foldl_cons]
    exact ih _ (abandoned_relayStep st p op h)

theorem abandoned_of_second_request (st : MainProcess) (A : Str) (p : Nat) (name : String)
    (question : Option String) (h : Pending st A p) :
    Abandoned (get2FAInput name A question st).2 p := by
  obtain ⟨hget, hnone, honly, hwf⟩ := h
  have hlt : p < st.nextPromise := hwf.1 (A, p) (assocGet_mem _ _ _ hget)
  refine ⟨?_, ?_, ?_, relayWF_get2FAInput st name A question hwf⟩
  · intro e he hp
    simp only [get2FAInput, send] at he
    rcases mem_assocSet _ _ _ _ he with he' | he'
    · have hk := honly e he' hp
      have := mem_assocSet_key _ _ _ e hwf.2.2 he hk
      rw [this] at hp
      simp only at hp
      omega
    · rw [he'] at hp
      simp only at hp
      omega
  · simpa [get2FAInput, send, settledValue] using hnone
  · simp only [get2FAInput, send]; omega

/-- C7: in a well-formed relay state, once `get2FAInput(name, A)` has registered
its waiter, and after any relay steps for other accounts, `resolve2FAInput` for
`A` with code `c` resolves the promise returned by that call, which was not
resolved before, with exactly `c`, removes the entry of `A` from
`twoFAWaitingList`, leaves the entry of every other account as it was and
resolves no other promise. -/
theorem resolve2FAInput_resumes_waiter (st : MainProcess) (name : String) (A : Str)
    (question : Option String) (mid : List RelayOp) (c : String)
    (hwf : RelayWF st) (hmid : ∀ op ∈ mid, op.id ≠ A) :
    settledValue (relayRun mid (get2FAInput name A question st).2)
      (get2FAInput name A question st).1 = none ∧
    settledValue (resolve2FAInput A c (relayRun mid (get2FAInput name A question st).2))
      (get2FAInput name A question st).1 = some c ∧
    assocGet (resolve2FAInput A c
      (relayRun mid (get2FAInput name A question st).2)).twoFAWaitingList A = none ∧
    (∀ B, B ≠ A →
      assocGet (resolve2FAInput A c
        (relayRun mid (get2FAInput name A question st).2)).twoFAWaitingList B =
      assocGet (relayRun mid (get2FAInput name A question st).2).twoFAWaitingList B) ∧
    (∀ q, q ≠ (get2FAInput name A question st).1 →
      settledValue (resolve2FAInput A c (relayRun mid (get2FAInput name A question st).2)) q =
      settledValue (relayRun mid (get2FAInput name A question st).2) q) := by
  obtain ⟨hp, hpend⟩ := pending_get2FAInput st name A question hwf
  have hrun := pending_relayRun mid _ A _ hpend hmid
  rw [hp]
  exact ⟨hrun.2.1, pending_resolve2FAInput _ A _ c hrun⟩

/-- Instance of C7: a waiter for account `gen 3` is registered while another
account waits, the other account asks again, then the code `123` is submitted. -/
theorem resolve2FAInput_resumes_waiter_witness :
    settledValue (resolve2FAInput (Str.gen 3) "123"
      (relayRun [RelayOp.request "Canva" (Str.gen 7) none]
        (get2FAInput "Later" (Str.gen 3) none exRelay).2))
      (get2FAInput "Later" (Str.gen 3) none exRelay).1 = some "123" :=
  (resolve2FAInput_resumes_waiter exRelay "Later" (Str.gen 3) none
    [RelayOp.request "Canva" (Str.gen 7) none] "123" (by decide) (by decide)).2.1

/-- C8: for an id without entry in `twoFAWaitingList`, `resolve2FAInput` returns
the state unchanged, so it resolves no promise and alters no entry; and a second
submission for an id directly after a first one changes nothing. -/
theorem resolve2FAInput_unknown_noop (st : MainProcess) (B : Str) (code code' : String) :
    (assocGet st.twoFAWaitingList B = none → resolve2FAInput B code st = st) ∧
    resolve2FAInput B code' (resolve2FAInput B code st) = resolve2FAInput B code st := by
  have h1 : ∀ s : MainProcess, assocGet s.twoFAWaitingList B = none →
      resolve2FAInput B code' s = s := by
    intro s hs
    simp [resolve2FAInput, hs]
  refine ⟨fun h => by simp [resolve2FAInput, h], h1 _ ?_⟩
  unfold resolve2FAInput
  cases hg : assocGet st.twoFAWaitingList B with
  | none => exact hg
  | some p => simp [assocGet_assocDelete]

/-- Instance of C8 on a state in which only account `gen 7` waits. -/
theorem resolve2FAInput_unknown_noop_witness :
    resolve2FAInput (Str.gen 3) "x" exRelay = exRelay :=
  (resolve2FAInput_unknown_noop exRelay (Str.gen 3) "x" "y").1 (by decide)

/-- C9: in a well-formed relay state, after two `get2FAInput` calls for `A` with
only steps for other accounts in between, `twoFAWaitingList` holds exactly one
entry for `A`, namely the promise of the second call; after further steps for
other accounts the next `resolve2FAInput` for `A` resolves the promise of the
second call; and the promise of the first call stays unresolved after every
later sequence of relay steps. -/
theorem second_request_overwrites_first (st : MainProcess) (A : Str) (name₁ name₂ : String)
    (q₁ q₂ : Option String) (mid : List RelayOp) (hwf : RelayWF st)
    (hmid : ∀ op ∈ mid, op.id ≠ A) :
    (get2FAInput name₂ A q₂ (relayRun mid (get2FAInput name₁ A q₁ st).2)).1 ≠
      (get2FAInput name₁ A q₁ st).1 ∧
    (get2FAInput name₂ A q₂ (relayRun mid (get2FAInput name₁ A q₁ st).2)).2.twoFAWaitingList.filter
      (fun e => decide (e.1 = A)) =
      [(A, (get2FAInput name₂ A q₂ (relayRun mid (get2FAInput name₁ A q₁ st).2)).1)] ∧
    (∀ (later : List RelayOp) (c : String), (∀ op ∈ later, op.id ≠ A) →
      settledValue (resolve2FAInput A c (relayRun later
        (get2FAInput name₂ A q₂ (relayRun mid (get2FAInput name₁ A q₁ st).2)).2))
        (get2FAInput name₂ A q₂ (relayRun mid (get2FAInput name₁ A q₁ st).2)).1 = some c) ∧
    (∀ later : List RelayOp,
      settledValue (relayRun later
        (get2FAInput name₂ A q₂ (relayRun mid (get2FAInput name₁ A q₁ st).2)).2)
        (get2FAInput name₁ A q₁ st).1 = none) := by
  obtain ⟨hp₁, hpend₁⟩ := pending_get2FAInput st name₁ A q₁ hwf
  have hrun₁ := pending_relayRun mid _ A _ hpend₁ hmid
  obtain ⟨hp₂, hpend₂⟩ := pending_get2FAInput (relayRun mid (get2FAInput name₁ A q₁ st).2)
    name₂ A q₂ hrun₁.2.2.2
  have hab := abandoned_of_second_request _ A _ name₂ q₂ hrun₁
  have hlt : st.nextPromise < (relayRun mid (get2FAInput name₁ A q₁ st).2).nextPromise :=
    hrun₁.2.2.2.1 (A, st.nextPromise) (assocGet_mem _ _ _ hrun₁.1)
  refine ⟨?_, ?_, ?_, ?_⟩
  · rw [hp₁, hp₂]; omega
  · rw [hp₂]
    exact filter_key_of_assocGet _ A _ hpend₂.2.2.2.2.2 hpend₂.1
  · intro later c hlater
    rw [hp₂]
    exact (pending_resolve2FAInput _ A _ c (pending_relayRun later _ A _ hpend₂ hlater)).1
  · intro later
    rw [hp₁]
    exact (abandoned_relayRun later _ _ hab).2.1

/-- Instance of C9: two requests for account `gen 3`, then a submission; the
first promise (number 1) stays unresolved. -/
theorem second_request_overwrites_first_witness :
    settledValue (relayRun [RelayOp.submit (Str.gen 3) "123", RelayOp.submit (Str.gen 3) "456"]
      (get2FAInput "Later" (Str.gen 3) none
        (relayRun [] (get2FAInput "Later" (Str.gen 3) none exRelay).2)).2)
      (get2FAInput "Later" (Str.gen 3) none exRelay).1 = none :=
  (second_request_overwrites_first exRelay (Str.gen 3) "Later" "Later" none none []
    (by decide) (by decide)).2.2.2 _

/-! ## Properties of the orchestrator -/

theorem find?_updateFirst (id id' : Str) (f : Website → Website)
    (hf : ∀ d, (f d)._id = d._id) (l : List Website) :
    (updateFirst (fun d => decide (d._id = id)) f l).find? (fun d => decide (d._id = id')) =
      (l.find? (fun d => decide (d._id = id'))).map (fun d => if id' = id then f d else d) := by
  induction l with
  | nil => simp [updateFirst]
  | cons x rest ih =>
    by_cases hx : x._id = id
    · by_cases hx' : x._id = id'
      · have : id' = id := hx'.symm.trans hx
        simp [updateFirst, hx, hx', hf, List.find?_cons, this]
      · have : ¬ id' = id := fun h => hx' (hx.trans h.symm)
        have hid : ¬ id = id' := fun h => this h.symm
        simp [updateFirst, hx, hx', hf, List.find?_cons, hid]
        cases rest.find? (fun d => decide (d._id = id')) <;> simp [this]
    · by_cases hx' : x._id = id'
      · have : ¬ id' = id := fun h => hx (hx'.trans h)
        simp [updateFirst, hx, hx', List.find?_cons, this]
      · simp [updateFirst, hx, hx', List.find?_cons, ih]

theorem frame_refl (a : MainProcess) : Frame a a := ⟨rfl, rfl, rfl, rfl, rfl⟩

theorem frame_trans {a b c : MainProcess} (h₁ : Frame a b) (h₂ : Frame b c) : Frame a c := by
  obtain ⟨a1, a2, a3, a4, a5⟩ := h₁
  obtain ⟨b1, b2, b3, b4, b5⟩ := h₂
  exact ⟨b1.trans a1, b2.trans a2, b3.trans a3, b4.trans a4, b5.trans a5⟩

theorem frame_handleFetchSuccess (ws : Account) (st : MainProcess) :
    Frame st (handleFetchSuccess ws st) := by
  simp [Frame, handleFetchSuccess, unsetWebsiteAuthFailed, unsetWebsiteFetchFailed]

theorem frame_handleFetchError (ws : Account) (m : String) (st : MainProcess) :
    Frame st (handleFetchError ws m st) := by
  by_cases h : m = "authenticationFailed" <;>
    simp [Frame, handleFetchError, send, h, setWebsiteAuthFailed, setWebsiteFetchFailed]

theorem frame_awaitCode (env : Env) (name : String) (id : Str) (q : Option String)
    (st : MainProcess) : Frame st (awaitCode env name id q st).state ∧
      (awaitCode env name id q st).state.repo = st.repo := by
  unfold awaitCode
  simp only [get2FAInput, send]
  cases env.operator id with
  | none => simp [Run.state, Frame]
  | some code =>
    simp only [resolve2FAInput, assocGet_assocSet_same]
    split <;> simp [Run.state, Frame, (resolvePromise_fields _ _ _).2.2.1,
      (resolvePromise_fields _ _ _).2.2.2.1]

theorem frame_driveProvider (env : Env) (ws : Account) (provider : Script)
    (st : MainProcess) : Frame st (driveProvider env ws provider st).state := by
  unfold driveProvider
  split
  · split
    · exact frame_refl st
    · split
      · exact frame_handleFetchSuccess ws st
      · split
        · have := (frame_awaitCode env ws.name ws._id (some provider.securityQuestion) st).1
          split <;> rename_i h <;> rw [h] at this <;> exact this
        · have := (frame_awaitCode env ws.name ws._id none st).1
          split <;> rename_i h <;> rw [h] at this <;> exact this
  · split
    · exact frame_refl st
    · exact frame_handleFetchSuccess ws st

theorem frame_settle (ws : Account) (pn : String) (o : Except String (List Document))
    (st : MainProcess) : Frame st (settle ws pn o st).state := by
  cases o with
  | ok r => simp [settle, Run.state, Frame, logInfo]
  | error m =>
    have := frame_handleFetchError ws m st
    simpa [settle, Run.state, Frame, logInfo] using this

theorem frame_fetchInvoicesForWs (env : Env) (ws : Account) (filters : Filters)
    (st : MainProcess) : Frame st (fetchInvoicesForWs env ws filters st).state := by
  unfold fetchInvoicesForWs
  split
  · exact frame_trans (by simp [Frame, send]) (frame_settle _ _ _ _)
  · split
    · exact frame_settle _ _ _ _
    · dsimp only
      split
      · exact frame_settle _ _ _ _
      · rename_i provider _
        have h1 := frame_driveProvider env ws provider
          (logInfo (provider.name ++ " - " ++ ws.name) "Starting..." st)
        have h0 : Frame st (logInfo (provider.name ++ " - " ++ ws.name) "Starting..." st) := by
          simp [Frame, logInfo]
        split
        · rename_i h; rw [h] at h1; exact frame_trans h0 h1
        · rename_i h; rw [h] at h1
          exact frame_trans h0 (frame_trans h1 (frame_settle _ _ _ _))

theorem frame_fetchTask (env : Env) (filters : Filters) (ws : Account) (st : MainProcess) :
    Frame st (fetchTask env filters ws st).state := by
  unfold fetchTask
  have h0 : Frame st (send (Event.onFetchWsChange "loadingWebsite" ws.name none) st) := by
    simp [Frame, send]
  have h1 := frame_fetchInvoicesForWs env ws filters
    (send (Event.onFetchWsChange "loadingWebsite" ws.name none) st)
  split
  · rename_i h; rw [h] at h1; exact frame_trans h0 h1
  · rename_i h; rw [h] at h1
    exact frame_trans h0 (frame_trans h1 (by simp [Frame, send, Run.state]))

theorem frame_runSequentially (env : Env) (filters : Filters) (wss : List Account)
    (st : MainProcess) :
    Frame st (runSequentially (wss.map (fetchTask env filters)) st).state := by
  induction wss generalizing st with
  | nil => exact frame_refl st
  | cons ws rest ih =>
    simp only [List.map_cons, runSequentially]
    have h1 := frame_fetchTask env filters ws st
    split
    · rename_i h; rw [h] at h1; exact h1
    · rename_i v st1 h
      rw [h] at h1
      have h2 := ih st1
      split
      · rename_i h'; rw [h'] at h2; exact frame_trans h1 h2
      · rename_i h'; rw [h'] at h2; exact frame_trans h1 h2

theorem invoiceOf_fields (item : Document) :
    invoiceOf item =
      { description := item.description
        date := if item.date = some "" then none else item.date
        wsName := item.wsName
        fileName := item.fileName } := by
  unfold invoiceOf
  cases hd : item.date with
  | none => simp [truthyText]
  | some d => by_cases he : d = "" <;> simp [truthyText, he]

theorem handleFetchResult_spec (env : Env) (item : Document) (st : MainProcess) :
    ResultFor env item (handleFetchResult env item st).1 ∧
    (handleFetchResult env item st).2.repo.invoiceDb =
      st.repo.invoiceDb ++ rowsOf [(handleFetchResult env item st).1] ∧
    (handleFetchResult env item st).2.availableDownloads =
      st.availableDownloads ++ artifactsOf [item] [(handleFetchResult env item st).1] ∧
    (∀ row ∈ rowsOf [(handleFetchResult env item st).1],
      DrawnIn st.repo.fresh (handleFetchResult env item st).2.repo.fresh row) ∧
    st.repo.fresh ≤ (handleFetchResult env item st).2.repo.fresh ∧
    (handleFetchResult env item st).2.repo.websiteDb = st.repo.websiteDb ∧
    (handleFetchResult env item st).2.twoFAWaitingList = st.twoFAWaitingList ∧
    (handleFetchResult env item st).2.sent = st.sent := by
  have hrow := invoiceOf_fields item
  by_cases h : env.insertFault (invoiceOf item) = true
  · simp [handleFetchResult, createInvoice, h, ResultFor, rowsOf, artifactsOf, ← hrow]
  · simp [handleFetchResult, createInvoice, h, ResultFor, rowsOf, artifactsOf, DrawnIn, ← hrow]
    simp [hrow]

theorem rowsOf_cons (r : Except String Invoice) (rs : List (Except String Invoice)) :
    rowsOf (r :: rs) = rowsOf [r] ++ rowsOf rs := by
  cases r <;> simp [rowsOf]

theorem artifactsOf_cons (item : Document) (items : List Document) (r : Except String Invoice)
    (rs : List (Except String Invoice)) :
    artifactsOf (item :: items) (r :: rs) = artifactsOf [item] [r] ++ artifactsOf items rs := by
  cases r <;> simp [artifactsOf]

theorem drawnIn_mono {lo hi lo' hi' : Nat} {row : Invoice} (h : DrawnIn lo hi row)
    (h₁ : lo' ≤ lo) (h₂ : hi ≤ hi') : DrawnIn lo' hi' row := by
  obtain ⟨n, hn, a, b⟩ := h
  exact ⟨n, hn, by omega, by omega⟩

theorem handleFetchResults_spec (env : Env) (items : List Document) (st : MainProcess) :
    List.Forall₂ (ResultFor env) items (handleFetchResults env items st).1 ∧
    (handleFetchResults env items st).2.repo.invoiceDb =
      st.repo.invoiceDb ++ rowsOf (handleFetchResults env items st).1 ∧
    (handleFetchResults env items st).2.availableDownloads =
      st.availableDownloads ++ artifactsOf items (handleFetchResults env items st).1 ∧
    (∀ row ∈ rowsOf (handleFetchResults env items st).1,
      DrawnIn st.repo.fresh (handleFetchResults env items st).2.repo.fresh row) ∧
    st.repo.fresh ≤ (handleFetchResults env items st).2.repo.fresh ∧
    (handleFetchResults env items st).2.repo.websiteDb = st.repo.websiteDb ∧
    (handleFetchResults env items st).2.twoFAWaitingList = st.twoFAWaitingList ∧
    (handleFetchResults env items st).2.sent = st.sent := by
  induction items generalizing st with
  | nil => simp [handleFetchResults, rowsOf, artifactsOf]
  | cons item rest ih =>
    obtain ⟨a1, a2, a3, a4, a5, a6, a7, a8⟩ := handleFetchResult_spec env item st
    obtain ⟨b1, b2, b3, b4, b5, b6, b7, b8⟩ := ih (handleFetchResult env item st).2
    simp only [handleFetchResults]
    refine ⟨List.Forall₂.cons a1 b1, ?_, ?_, ?_, ?_, ?_, ?_, ?_⟩
    · rw [b2, a2, List.append_assoc]
      exact congrArg _ (rowsOf_cons _ _).symm
    · rw [b3, a3, List.append_assoc]
      exact congrArg _ (artifactsOf_cons _ _ _ _).symm
    · intro row hrow
      rw [rowsOf_cons] at hrow
      rcases List.mem_append.1 hrow with h | h
      · exact drawnIn_mono (a4 row h) (le_refl _) b5
      · exact drawnIn_mono (b4 row h) a5 (le_refl _)
    · exact le_trans a5 b5
    · rw [b6, a6]
    · rw [b7, a7]
    · rw [b8, a8]

theorem artifactsOf_ids (env : Env) (items : List Document) (rs : List (Except String Invoice))
    (h : List.Forall₂ (ResultFor env) items rs) :
    (artifactsOf items rs).map Prod.snd = (rowsOf rs).map Invoice._id := by
  induction h with
  | nil => simp [artifactsOf, rowsOf]
  | @cons item r items rs hr _ ih =>
    rw [artifactsOf_cons item items r rs, rowsOf_cons r rs, List.map_append, List.map_append, ih]
    cases r <;> simp [artifactsOf, rowsOf]

theorem handleAllResults_spec (env : Env) (all : List (List Document)) (st : MainProcess) :
    List.Forall₂ (List.Forall₂ (ResultFor env)) all (handleAllResults env all st).1 ∧
    (handleAllResults env all st).2.repo.invoiceDb =
      st.repo.invoiceDb ++ ((handleAllResults env all st).1.map rowsOf).flatten ∧
    (handleAllResults env all st).2.availableDownloads.map Prod.snd =
      st.availableDownloads.map Prod.snd ++
        (((handleAllResults env all st).1.map rowsOf).flatten).map Invoice._id ∧
    (∀ row ∈ ((handleAllResults env all st).1.map rowsOf).flatten,
      DrawnIn st.repo.fresh (handleAllResults env all st).2.repo.fresh row) ∧
    st.repo.fresh ≤ (handleAllResults env all st).2.repo.fresh ∧
    (handleAllResults env all st).2.repo.websiteDb = st.repo.websiteDb ∧
    (handleAllResults env all st).2.twoFAWaitingList = st.twoFAWaitingList ∧
    (handleAllResults env all st).2.sent = st.sent := by
  induction all generalizing st with
  | nil => simp [handleAllResults]
  | cons items rest ih =>
    obtain ⟨a1, a2, a3, a4, a5, a6, a7, a8⟩ := handleFetchResults_spec env items st
    obtain ⟨b1, b2, b3, b4, b5, b6, b7, b8⟩ := ih (handleFetchResults env items st).2
    simp only [handleAllResults, List.map_cons, List.flatten_cons]
    refine ⟨List.Forall₂.cons a1 b1, ?_, ?_, ?_, ?_, ?_, ?_, ?_⟩
    · rw [b2, a2, List.append_assoc]
    · rw [b3, a3, List.map_append, List.map_append, artifactsOf_ids env items _ a1,
        List.append_assoc]
    · intro row hrow
      rcases List.mem_append.1 hrow with h | h
      · exact drawnIn_mono (a4 row h) (le_refl _) b5
      · exact drawnIn_mono (b4 row h) a5 (le_refl _)
    · exact le_trans a5 b5
    · rw [b6, a6]
    · rw [b7, a7]
    · rw [b8, a8]

theorem fetchInvoices_returned (env : Env) (filters : Filters) (ids : List Str)
    (st st' : MainProcess) (results : List (List (Except String Invoice)))
    (h : fetchInvoices env filters ids st = Run.returned results st') :
    ∃ docs s1,
      runSequentially ((getWebsitesByIds (deleteAllInvoices st.repo) ids).map
        (fetchTask env filters)) { st with repo := deleteAllInvoices st.repo } =
        Run.returned docs s1 ∧
      results = (handleAllResults env docs s1).1 ∧ st' = (handleAllResults env docs s1).2 := by
  unfold fetchInvoices at h
  dsimp only at h
  split at h
  · cases h
  · rename_i docs s1 hrun
    simp only [Run.returned.injEq] at h
    exact ⟨docs, s1, hrun, h.1.symm, h.2.symm⟩

theorem fetchInvoices_rows (env : Env) (filters : Filters) (ids : List Str)
    (st st' : MainProcess) (results : List (List (Except String Invoice)))
    (h : fetchInvoices env filters ids st = Run.returned results st') :
    st'.repo.invoiceDb = (results.map rowsOf).flatten ∧
    (∀ row ∈ (results.map rowsOf).flatten, DrawnIn st.repo.fresh st'.repo.fresh row) ∧
    st.repo.fresh ≤ st'.repo.fresh ∧
    st'.availableDownloads.map Prod.snd =
      st.availableDownloads.map Prod.snd ++ ((results.map rowsOf).flatten).map Invoice._id := by
  obtain ⟨docs, s1, hrun, rfl, rfl⟩ := fetchInvoices_returned env filters ids st st' results h
  have hf := frame_runSequentially env filters
    (getWebsitesByIds (deleteAllInvoices st.repo) ids) { st with repo := deleteAllInvoices st.repo }
  rw [hrun] at hf
  obtain ⟨f1, -, -, f4, f5⟩ := hf
  simp only [Run.state, deleteAllInvoices] at f1 f4 f5
  obtain ⟨-, b2, b3, b4, b5, -⟩ := handleAllResults_spec env docs s1
  rw [f1] at b2
  rw [f4] at b4 b5
  rw [f5] at b3
  exact ⟨by simpa using b2, b4, b5, b3⟩

theorem fetchInvoices_suspended (env : Env) (filters : Filters) (ids : List Str)
    (st s : MainProcess) (h : fetchInvoices env filters ids st = Run.suspended s) :
    s.repo.invoiceDb = [] ∧ s.availableDownloads = st.availableDownloads := by
  have hf := frame_runSequentially env filters
    (getWebsitesByIds (deleteAllInvoices st.repo) ids) { st with repo := deleteAllInvoices st.repo }
  unfold fetchInvoices at h
  dsimp only at h
  cases hrun : runSequentially ((getWebsitesByIds (deleteAllInvoices st.repo) ids).map
      (fetchTask env filters)) { st with repo := deleteAllInvoices st.repo } with
  | suspended s1 =>
    rw [hrun] at h hf
    simp only [Run.suspended.injEq] at h
    subst h
    exact ⟨hf.1, hf.2.2.2.2⟩
  | returned docs s1 =>
    rw [hrun] at h
    cases h

/-- C10: when two consecutive `fetchInvoices` calls have returned, the invoice
store holds exactly the rows created by the second call (its results that are
rows, in order), and no row created by the first call.  The store is emptied
before any account of the second call is resolved or run: the second call has
resolved its accounts in the emptied store, run them from that state to a state
in which the store is still empty, and only then created its rows; and whenever a call made after the
first one is waiting for a code, with whatever accounts and operator, the store
is already empty. -/
theorem fetchInvoices_keeps_only_current_rows (env₁ env₂ : Env) (f₁ f₂ : Filters)
    (ids₁ ids₂ : List Str) (st st₁ st₂ : MainProcess)
    (r₁ r₂ : List (List (Except String Invoice)))
    (h₁ : fetchInvoices env₁ f₁ ids₁ st = Run.returned r₁ st₁)
    (h₂ : fetchInvoices env₂ f₂ ids₂ st₁ = Run.returned r₂ st₂) :
    st₂.repo.invoiceDb = (r₂.map rowsOf).flatten ∧
    (∀ row ∈ (r₁.map rowsOf).flatten, row ∉ st₂.repo.invoiceDb) ∧
    (∃ docs s1,
      runSequentially
        ((getWebsitesByIds (deleteAllInvoices st₁.repo) ids₂).map (fetchTask env₂ f₂))
        { st₁ with repo := deleteAllInvoices st₁.repo } = Run.returned docs s1 ∧
      s1.repo.invoiceDb = [] ∧
      r₂ = (handleAllResults env₂ docs s1).1 ∧ st₂ = (handleAllResults env₂ docs s1).2) ∧
    (∀ env f ids s, fetchInvoices env f ids st₁ = Run.suspended s → s.repo.invoiceDb = []) := by
  obtain ⟨a1, a2, -, -⟩ := fetchInvoices_rows env₁ f₁ ids₁ st st₁ r₁ h₁
  obtain ⟨b1, b2, -, -⟩ := fetchInvoices_rows env₂ f₂ ids₂ st₁ st₂ r₂ h₂
  refine ⟨b1, ?_, ?_, fun env f ids s h => (fetchInvoices_suspended env f ids st₁ s h).1⟩
  · intro row hrow hmem
    rw [b1] at hmem
    obtain ⟨n, hn, -, hlt⟩ := a2 row hrow
    obtain ⟨m, hm, hle, -⟩ := b2 row hmem
    rw [hn] at hm
    injection hm with hnm
    omega
  · obtain ⟨docs, s1, hrun, hr, hs⟩ := fetchInvoices_returned env₂ f₂ ids₂ st₁ st₂ r₂ h₂
    have hf := frame_runSequentially env₂ f₂ (getWebsitesByIds (deleteAllInvoices st₁.repo) ids₂)
      { st₁ with repo := deleteAllInvoices st₁.repo }
    rw [hrun] at hf
    exact ⟨docs, s1, hrun, hf.1, hr, hs⟩

/-- Instance of C10: two sessions on one account; the store then holds the row
of the second session only.  And after a session that stored two rows, a
session that waits for a code has emptied the store. -/
theorem fetchInvoices_keeps_only_current_rows_witness :
    exAfterSecond.repo.invoiceDb = (exResultsSecond.map rowsOf).flatten ∧
    (∀ row ∈ (exResultsFirst.map rowsOf).flatten, row ∉ exAfterSecond.repo.invoiceDb) ∧
    exAfterBoth.repo.invoiceDb.length = 2 ∧
    ∃ s, fetchInvoices exEnvSilent exFilters [Str.gen 2] exAfterBoth = Run.suspended s ∧
      s.repo.invoiceDb = [] :=
  have h := fetchInvoices_keeps_only_current_rows exEnv exEnv exFilters exFilters [Str.gen 1]
    [Str.gen 1] exOne exAfterFirst exAfterSecond exResultsFirst exResultsSecond rfl rfl
  have h' := fetchInvoices_keeps_only_current_rows exEnv exEnv exFilters exFilters
    [Str.gen 1, Str.gen 2] [Str.gen 1] exOkThen2FA exAfterBoth _ _ _ rfl rfl
  ⟨h.1, h.2.1, by decide, _, rfl, h'.2.2.2 exEnvSilent exFilters [Str.gen 2] _ rfl⟩

/-- C19: `handleFetchResults` yields one result per document, in order: the
error object of the datastore when the insert fails, otherwise the inserted row,
whose description, date (`null` when the document carries none), wsName and
fileName are those of the document; the rows are appended to the invoice store,
and `availableDownloads` gains exactly one entry per inserted row, pairing the
download of its document with the `_id` of the row, and none for a failed
insert. -/
theorem handleFetchResults_persists_and_registers (env : Env) (items : List Document)
    (st : MainProcess) :
    List.Forall₂ (ResultFor env) items (handleFetchResults env items st).1 ∧
    (handleFetchResults env items st).2.repo.invoiceDb =
      st.repo.invoiceDb ++ rowsOf (handleFetchResults env items st).1 ∧
    (handleFetchResults env items st).2.availableDownloads =
      st.availableDownloads ++ artifactsOf items (handleFetchResults env items st).1 ∧
    (artifactsOf items (handleFetchResults env items st).1).map Prod.snd =
      (rowsOf (handleFetchResults env items st).1).map Invoice._id := by
  obtain ⟨a1, a2, a3, -⟩ := handleFetchResults_spec env items st
  exact ⟨a1, a2, a3, artifactsOf_ids env items _ a1⟩

/-- C20, as stated, fails: after a second `fetchInvoices` call `availableDownloads`
still holds the entry registered by the first call, for an id whose row was not
created by the second call and is no longer stored. -/
theorem availableDownloads_keeps_stale_entries :
    fetchInvoices exEnv exFilters [Str.gen 1] exOne = Run.returned exResultsFirst exAfterFirst ∧
    fetchInvoices exEnv exFilters [Str.gen 1] exAfterFirst =
      Run.returned exResultsSecond exAfterSecond ∧
    Str.gen 100 ∈ exAfterSecond.availableDownloads.map Prod.snd ∧
    Str.gen 100 ∈ ((exResultsFirst.map rowsOf).flatten).map Invoice._id ∧
    Str.gen 100 ∉ ((exResultsSecond.map rowsOf).flatten).map Invoice._id ∧
    Str.gen 100 ∉ exAfterSecond.repo.invoiceDb.map Invoice._id := by
  refine ⟨rfl, rfl, ?_, ?_, ?_, ?_⟩ <;> decide

/-- C20, amended: when a `fetchInvoices` call has returned, `availableDownloads`
holds the entries it held before the call followed by exactly one entry per
invoice row created during the call, under the `_id` of that row; so an id has an
entry if and only if it had one before the call or its row was created during
the call. -/
theorem availableDownloads_after_fetch (env : Env) (filters : Filters) (ids : List Str)
    (st st' : MainProcess) (results : List (List (Except String Invoice)))
    (h : fetchInvoices env filters ids st = Run.returned results st') :
    st'.availableDownloads.map Prod.snd =
      st.availableDownloads.map Prod.snd ++ st'.repo.invoiceDb.map Invoice._id ∧
    st'.repo.invoiceDb = (results.map rowsOf).flatten ∧
    (∀ id, id ∈ st'.availableDownloads.map Prod.snd ↔
      id ∈ st.availableDownloads.map Prod.snd ∨ id ∈ st'.repo.invoiceDb.map Invoice._id) := by
  obtain ⟨a1, -, -, a4⟩ := fetchInvoices_rows env filters ids st st' results h
  rw [← a1] at a4
  refine ⟨a4, a1, ?_⟩
  intro id
  rw [a4, List.mem_append]

/-- Instance of C20, amended, on the second of two sessions. -/
theorem availableDownloads_after_fetch_witness :
    exAfterSecond.availableDownloads.map Prod.snd =
      exAfterFirst.availableDownloads.map Prod.snd ++
        exAfterSecond.repo.invoiceDb.map Invoice._id :=
  (availableDownloads_after_fetch exEnv exFilters [Str.gen 1] exAfterFirst exAfterSecond
    exResultsSecond rfl).1

theorem awaitCode_answered (env : Env) (name : String) (id : Str) (q : Option String)
    (st : MainProcess) (code : String) (hwf : RelayWF st) (hop : env.operator id = some code) :
    ∃ s1, awaitCode env name id q st = Run.returned code s1 ∧ RelayWF s1 ∧
      s1.repo = st.repo ∧ s1.availableDownloads = st.availableDownloads ∧
      s1.sent = st.sent ++ [Event.on2FA name id q] ∧ s1.logged = st.logged := by
  obtain ⟨hp, hpend⟩ := pending_get2FAInput st name id q hwf
  have hres := pending_resolve2FAInput _ id _ code hpend
  refine ⟨resolve2FAInput id code (get2FAInput name id q st).2, ?_,
    relayWF_resolve2FAInput _ _ _ hpend.2.2.2, ?_, ?_, ?_, ?_⟩
  · unfold awaitCode
    simp only [hop]
    rw [hp, hres.1]
  all_goals
    simp only [resolve2FAInput, hpend.1]
    simp [(resolvePromise_fields _ _ _).2.2.1, (resolvePromise_fields _ _ _).2.2.2.1,
      (resolvePromise_fields _ _ _).2.2.2.2.1, (resolvePromise_fields _ _ _).2.2.2.2.2,
      get2FAInput, send]

theorem driveProvider_outcome (env : Env) (ws : Account) (s : Script) (st : MainProcess)
    (o : Except String (List Document)) (hwf : RelayWF st)
    (ho : s.outcome (env.operator ws._id) = some o) :
    ∃ s1, driveProvider env ws s st = Run.returned o s1 ∧ RelayWF s1 ∧
      (s1.repo = st.repo ∨ s1.repo = (handleFetchSuccess ws st).repo) ∧
      ((∃ docs, o = Except.ok docs) → s.requires2FA = false →
        s1.repo = (handleFetchSuccess ws st).repo) ∧
      SentAtMostRequest ws st s1 ∧ s1.logged = st.logged := by
  unfold Script.outcome at ho
  unfold driveProvider
  have hwfS : RelayWF (handleFetchSuccess ws st) := hwf
  by_cases h2 : s.requires2FA = true
  · simp only [h2, if_true] at ho ⊢
    cases ha : s.authenticate with
    | error m =>
      simp only [ha, Option.some.injEq] at ho
      subst ho
      exact ⟨st, rfl, hwf, Or.inl rfl, by simp [h2], Or.inl rfl, rfl⟩
    | ok u =>
      simp only [ha] at ho
      by_cases hd : s.authDone = true
      · simp only [hd, if_true, Option.some.injEq] at ho ⊢
        subst ho
        exact ⟨handleFetchSuccess ws st, rfl, hwfS, Or.inr rfl, by simp [h2], Or.inl rfl, rfl⟩
      · simp only [hd, Bool.false_eq_true, if_false] at ho ⊢
        cases hop : env.operator ws._id with
        | none => simp [hop] at ho
        | some code =>
          simp only [hop, Option.map_some', Option.some.injEq] at ho
          subst ho
          by_cases hq : s.requiresSecurityQuestion = true
          · obtain ⟨s1, e1, w1, r1, -, t1, l1⟩ :=
              awaitCode_answered env ws.name ws._id (some s.securityQuestion) st code hwf hop
            simp only [hq, if_true, e1]
            exact ⟨s1, rfl, w1, Or.inl r1, by simp [h2], Or.inr ⟨_, t1⟩, l1⟩
          · obtain ⟨s1, e1, w1, r1, -, t1, l1⟩ :=
              awaitCode_answered env ws.name ws._id none st code hwf hop
            simp only [hq, if_false, e1]
            exact ⟨s1, rfl, w1, Or.inl r1, by simp [h2], Or.inr ⟨_, t1⟩, l1⟩
  · simp only [h2, Bool.false_eq_true, if_false, Option.some.injEq] at ho ⊢
    subst ho
    cases hf : s.fetch with
    | error m => exact ⟨st, rfl, hwf, Or.inl rfl, by simp, Or.inl rfl, rfl⟩
    | ok docs =>
      exact ⟨handleFetchSuccess ws st, rfl, hwfS, Or.inr rfl, fun _ _ => rfl, Or.inl rfl, rfl⟩

theorem relayWF_of_fields {a b : MainProcess} (h : RelayWF a)
    (h1 : b.twoFAWaitingList = a.twoFAWaitingList) (h2 : b.settled = a.settled)
    (h3 : b.nextPromise = a.nextPromise) : RelayWF b := by
  unfold RelayWF at h ⊢
  rw [h1, h2, h3]; exact h

theorem fetchInvoicesForWs_outcome (env : Env) (ws : Account) (filters : Filters)
    (st : MainProcess) (o : Except String (List Document)) (hwf : RelayWF st)
    (ho : attemptOutcome env (ctxOf st filters ws) = some o) :
    (∃ pn s1, fetchInvoicesForWs env ws filters st = settle ws pn o s1 ∧ RelayWF s1 ∧
      (s1.repo = st.repo ∨ s1.repo = (handleFetchSuccess ws st).repo) ∧
      SentAtMostRequest ws st s1 ∧ env.providers ws.url ≠ none) ∨
    (env.providers ws.url = none ∧ o = Except.ok [] ∧
      fetchInvoicesForWs env ws filters st =
        settle ws "" (Except.ok [])
          (send (Event.onNotification "websiteIsNotSupported" none "error") st)) := by
  unfold attemptOutcome at ho
  unfold fetchInvoicesForWs
  simp only [ctxOf] at ho
  cases hP : env.providers ws.url with
  | none =>
    simp only [hP, Option.some.injEq] at ho
    right
    exact ⟨rfl, ho.symm, rfl⟩
  | some P =>
    left
    simp only [hP] at ho ⊢
    cases hg : env.getPage ws with
    | some m =>
      simp only [hg, Option.some.injEq] at ho
      subst ho
      exact ⟨"", st, rfl, hwf, Or.inl rfl, Or.inl rfl, by simp⟩
    | none =>
      simp only [hg] at ho ⊢
      cases hc : P { ws := ws, settings := getSettings st.repo, filters := filters } with
      | error m =>
        simp only [hc, Option.some.injEq] at ho
        subst ho
        exact ⟨"", st, rfl, hwf, Or.inl rfl, Or.inl rfl, by simp⟩
      | ok s =>
        simp only [hc] at ho ⊢
        have hwf' : RelayWF (logInfo (s.name ++ " - " ++ ws.name) "Starting..." st) := hwf
        obtain ⟨s1, e1, w1, r1, -, t1, -⟩ := driveProvider_outcome env ws s _ o hwf' ho
        rw [e1]
        exact ⟨_, s1, rfl, w1, r1, t1, by simp⟩

theorem getWebsiteById_handleFetchSuccess (ws : Account) (st : MainProcess) (id : Str) :
    getWebsiteById (handleFetchSuccess ws st).repo id =
      (getWebsiteById st.repo id).map (fun d => if id = ws._id then clearFlags d else d) := by
  simp only [getWebsiteById, handleFetchSuccess, unsetWebsiteFetchFailed, unsetWebsiteAuthFailed]
  rw [find?_updateFirst ws._id id (fun d : Website => { d with fetchFailed := false })
    (fun _ => rfl),
    find?_updateFirst ws._id id (fun d : Website => { d with authFailed := false })
    (fun _ => rfl)]
  cases st.repo.websiteDb.find? (fun d => decide (d._id = id)) with
  | none => rfl
  | some d => by_cases h : id = ws._id <;> simp [h, clearFlags]

theorem getWebsiteById_handleFetchError (ws : Account) (m : String) (st : MainProcess)
    (id : Str) :
    getWebsiteById (handleFetchError ws m st).repo id =
      (getWebsiteById st.repo id).map (fun d => if id = ws._id then markFailed m d else d) := by
  by_cases hm : m = "authenticationFailed"
  · simp only [getWebsiteById, handleFetchError, send, hm, if_true, setWebsiteAuthFailed]
    rw [find?_updateFirst ws._id id (fun d : Website => { d with authFailed := true })
      (fun _ => rfl)]
    simp [markFailed]
  · simp only [getWebsiteById, handleFetchError, send, hm, if_false, setWebsiteFetchFailed]
    rw [find?_updateFirst ws._id id (fun d : Website => { d with fetchFailed := true })
      (fun _ => rfl)]
    simp [markFailed, hm]

theorem forall₂_updateFirst (p : Website → Bool) (f : Website → Website) (l : List Website) :
    List.Forall₂ (fun b a => a = b ∨ (p b = true ∧ a = f b)) l (updateFirst p f l) := by
  induction l with
  | nil => exact List.Forall₂.nil
  | cons x rest ih =>
    by_cases hx : p x = true
    · simp only [updateFirst, hx, if_true]
      exact List.Forall₂.cons (Or.inr ⟨hx, rfl⟩)
        (List.forall₂_same.2 (fun _ _ => Or.inl rfl))
    · simp only [updateFirst, hx, if_false]
      exact List.Forall₂.cons (Or.inl rfl) ih

/-- C13: `handleFetchError(ws, err)` sets `authFailed` on the stored account
with id `ws._id` exactly when the message is `authenticationFailed` and sets
`fetchFailed` on it otherwise; position by position every stored record is
either unchanged or is the record with that id with the one flag set; the other
stores and the relay are unchanged; and exactly one notification is sent,
carrying the message, the name of the account and the type `error`. -/
theorem handleFetchError_sets_one_flag (ws : Account) (m : String) (st : MainProcess) :
    (∀ id, getWebsiteById (handleFetchError ws m st).repo id =
      (getWebsiteById st.repo id).map (fun d => if id = ws._id then markFailed m d else d)) ∧
    List.Forall₂ (fun b a => a = b ∨ (b._id = ws._id ∧ a = markFailed m b))
      st.repo.websiteDb (handleFetchError ws m st).repo.websiteDb ∧
    (∀ d, (m = "authenticationFailed" →
        markFailed m d = { d with authFailed := true }) ∧
      (m ≠ "authenticationFailed" → markFailed m d = { d with fetchFailed := true })) ∧
    (handleFetchError ws m st).sent =
      st.sent ++ [Event.onNotification m (some ws.name) "error"] ∧
    Frame st (handleFetchError ws m st) ∧
    (handleFetchError ws m st).twoFAWaitingList = st.twoFAWaitingList ∧
    (handleFetchError ws m st).settled = st.settled := by
  refine ⟨getWebsiteById_handleFetchError ws m st, ?_, ?_, ?_, frame_handleFetchError ws m st,
    ?_, ?_⟩
  · have h := forall₂_updateFirst (fun d => decide (d._id = ws._id)) (markFailed m)
      st.repo.websiteDb
    have e : (handleFetchError ws m st).repo.websiteDb =
        updateFirst (fun d => decide (d._id = ws._id)) (markFailed m) st.repo.websiteDb := by
      by_cases hm : m = "authenticationFailed"
      · subst hm
        have hf : markFailed "authenticationFailed" =
            fun d : Website => { d with authFailed := true } := by
          funext d; simp [markFailed]
        simp only [handleFetchError, send, setWebsiteAuthFailed, hf, ↓reduceIte]
      · have hf : markFailed m = fun d : Website => { d with fetchFailed := true } := by
          funext d; simp [markFailed, hm]
        simp only [handleFetchError, send, hm, if_false, setWebsiteFetchFailed, hf]
    rw [e]
    exact List.Forall₂.imp (fun b a hab => by simpa using hab) h
  · intro d
    exact ⟨fun h => by simp [markFailed, h], fun h => by simp [markFailed, h]⟩
  · by_cases hm : m = "authenticationFailed" <;> simp [handleFetchError, send, hm]
  · by_cases hm : m = "authenticationFailed" <;> simp [handleFetchError, send, hm]
  · by_cases hm : m = "authenticationFailed" <;> simp [handleFetchError, send, hm]

/-- C15: for an account whose url is not a key of the provider registry,
`fetchInvoicesForWs` returns the empty list, sends exactly the one notification
`websiteIsNotSupported` of type `error`, and leaves the repository, hence both
flags of every account, as it was. -/
theorem fetchInvoicesForWs_unsupported (env : Env) (ws : Account) (filters : Filters)
    (st : MainProcess) (h : env.providers ws.url = none) :
    (fetchInvoicesForWs env ws filters st).value? = some [] ∧
    (fetchInvoicesForWs env ws filters st).state.repo = st.repo ∧
    (fetchInvoicesForWs env ws filters st).state.sent =
      st.sent ++ [Event.onNotification "websiteIsNotSupported" none "error"] := by
  simp [fetchInvoicesForWs, h, settle, Run.value?, Run.state, logInfo, send]

/-- Instance of C15: an account with an unregistered url, flagged `authFailed`. -/
theorem fetchInvoicesForWs_unsupported_witness :
    (fetchInvoicesForWs exEnv (exAccount 1 "A" "https://example.org" true) exFilters
      (exProcess [exSite 1 "A" "https://example.org" true])).state.repo =
      (exProcess [exSite 1 "A" "https://example.org" true]).repo :=
  (fetchInvoicesForWs_unsupported exEnv (exAccount 1 "A" "https://example.org" true) exFilters
    (exProcess [exSite 1 "A" "https://example.org" true]) rfl).2.1

theorem attemptOutcome_of_raisesAt (env : Env) (ctx : Ctx) (m : String)
    (h : RaisesAt env ctx m) : attemptOutcome env ctx = some (Except.error m) := by
  obtain ⟨P, hP, h⟩ := h
  unfold attemptOutcome
  simp only [hP]
  rcases h with hg | ⟨hg, h⟩
  · simp [hg]
  · simp only [hg]
    rcases h with hc | ⟨s, hc, h⟩
    · simp [hc]
    · simp only [hc, Script.outcome]
      rcases h with ⟨h2, hf⟩ | ⟨h2, h⟩
      · simp [h2, hf]
      · simp only [h2, if_true]
        rcases h with ha | ⟨ha, h⟩
        · simp [ha]
        · simp only [ha]
          rcases h with ⟨hd, hk⟩ | ⟨hd, code, hop, hk⟩
          · simp [hd, hk]
          · simp [hd, hop, hk]

theorem raisesAt_registered (env : Env) (ctx : Ctx) (m : String) (h : RaisesAt env ctx m) :
    env.providers ctx.ws.url ≠ none := by
  obtain ⟨P, hP, -⟩ := h
  simp [hP]

/-- C14: in a well-formed relay state, when page creation, the constructor of
the provider, `authenticate`, `fetch` or the continuation raises an error with
message `m` for an account, `fetchInvoicesForWs` returns the empty list, its
final state being that of one `handleFetchError` call for the account, made in a
state `s1` reached by at most one code request, followed by the final log line;
the function built for the account in `fetchInvoices` then returns the empty
list too, so `runSequentially` goes on with the next account. -/
theorem fetchInvoicesForWs_catches (env : Env) (ws : Account) (filters : Filters)
    (st : MainProcess) (m : String) (hwf : RelayWF st)
    (h : RaisesAt env (ctxOf st filters ws) m) :
    (∃ pn s1,
      fetchInvoicesForWs env ws filters st =
        Run.returned [] (logInfo pn "Finished..." (handleFetchError ws m s1)) ∧
      SentAtMostRequest ws st s1 ∧
      (logInfo pn "Finished..." (handleFetchError ws m s1)).sent =
        s1.sent ++ [Event.onNotification m (some ws.name) "error"]) ∧
    (fetchTask env filters ws st).value? = some [] := by
  have hwf' : RelayWF (send (Event.onFetchWsChange "loadingWebsite" ws.name none) st) := hwf
  have key : ∀ s0 : MainProcess, RelayWF s0 → getSettings s0.repo = getSettings st.repo →
      ∃ pn s1, fetchInvoicesForWs env ws filters s0 =
        Run.returned [] (logInfo pn "Finished..." (handleFetchError ws m s1)) ∧
      SentAtMostRequest ws s0 s1 := by
    intro s0 hs0 hset
    have h0 : RaisesAt env (ctxOf s0 filters ws) m := by
      simpa [ctxOf, hset] using h
    have hreg := raisesAt_registered env _ m h0
    rcases fetchInvoicesForWs_outcome env ws filters s0 _ hs0
      (attemptOutcome_of_raisesAt env _ m h0) with ⟨pn, s1, e, -, -, t, -⟩ | ⟨hn, -, -⟩
    · exact ⟨pn, s1, by rw [e]; rfl, t⟩
    · exact absurd hn hreg
  obtain ⟨pn, s1, e, t⟩ := key st hwf rfl
  refine ⟨⟨pn, s1, e, t, ?_⟩, ?_⟩
  · by_cases hm : m = "authenticationFailed" <;> simp [logInfo, handleFetchError, send, hm]
  · obtain ⟨pn', s1', e', -⟩ := key _ hwf' rfl
    simp [fetchTask, e', Run.value?]

/-- Instance of C14: the account whose `fetch` raises. -/
theorem fetchInvoicesForWs_catches_witness :
    (fetchTask exEnv exFilters (exAccount 1 "A" "throws" false)
      (exProcess [exSite 1 "A" "throws" false])).value? = some [] :=
  (fetchInvoicesForWs_catches exEnv (exAccount 1 "A" "throws" false) exFilters
    (exProcess [exSite 1 "A" "throws" false]) "failedToFetchInvoicesFromWebsite" (by decide)
    ⟨exScriptThrows, rfl, Or.inr ⟨rfl, Or.inr ⟨_, rfl, Or.inl ⟨rfl, rfl⟩⟩⟩⟩).2

/-- C3 fails on the code: for an account flagged `authFailed` whose 2FA script is
resumed with the submitted code and returns its document, `fetchInvoicesForWs`
returns that document but the stored account keeps `authFailed`; the same
account with a script without 2FA has the flag cleared. -/
theorem fetch_resumed_with_code_keeps_authFailed :
    (fetchInvoicesForWs exEnv (exAccount 1 "A" "2fa" true) exFilters exFlagged2FA).value? =
      some [exDoc "A" 2] ∧
    (getWebsiteById (fetchInvoicesForWs exEnv (exAccount 1 "A" "2fa" true) exFilters
      exFlagged2FA).state.repo (Str.gen 1)).map Website.authFailed = some true ∧
    (fetchInvoicesForWs exEnv (exAccount 1 "A" "ok" true) exFilters exFlaggedOk).value? =
      some [exDoc "A" 1] ∧
    (getWebsiteById (fetchInvoicesForWs exEnv (exAccount 1 "A" "ok" true) exFilters
      exFlaggedOk).state.repo (Str.gen 1)).map Website.authFailed = some false := by
  decide

/-- C12, as stated, fails: a script whose `fetch` raises
`failedToFetchInvoicesFromWebsite` while `authDone` is still false gets
`fetchFailed`, not `authFailed`; and a script that is authenticated after
`authenticate` and whose continuation raises `authenticationFailed` gets
`authFailed`, not `fetchFailed`. -/
theorem flag_follows_message_not_authDone :
    (getWebsiteById (fetchInvoicesForWs exEnv (exAccount 1 "A" "throws" false) exFilters
      (exProcess [exSite 1 "A" "throws" false])).state.repo (Str.gen 1)).map
        (fun d => (d.authFailed, d.fetchFailed)) = some (false, true) ∧
    (getWebsiteById (fetchInvoicesForWs exEnv (exAccount 1 "A" "late" false) exFilters
      (exProcess [exSite 1 "A" "late" false])).state.repo (Str.gen 1)).map
        (fun d => (d.authFailed, d.fetchFailed)) = some (true, false) := by
  decide

/-- C12, amended: in a well-formed relay state, when the run of a stored account
raises an error, `fetchInvoicesForWs` returns the empty list and the stored
account has `authFailed` set if the message of the error is
`authenticationFailed` and `fetchFailed` set otherwise, whatever the value of
`authDone` when the error is raised. -/
theorem fetchInvoicesForWs_flag_by_message (env : Env) (ws : Account) (filters : Filters)
    (st : MainProcess) (m : String) (d : Website) (hwf : RelayWF st)
    (h : RaisesAt env (ctxOf st filters ws) m)
    (hd : getWebsiteById st.repo ws._id = some d) :
    (fetchInvoicesForWs env ws filters st).value? = some [] ∧
    ∃ d', getWebsiteById (fetchInvoicesForWs env ws filters st).state.repo ws._id = some d' ∧
      (m = "authenticationFailed" → d'.authFailed = true) ∧
      (m ≠ "authenticationFailed" → d'.fetchFailed = true) := by
  have hreg := raisesAt_registered env _ m h
  rcases fetchInvoicesForWs_outcome env ws filters st _ hwf
    (attemptOutcome_of_raisesAt env _ m h) with ⟨pn, s1, e, -, r, -, -⟩ | ⟨hn, -, -⟩
  · rw [e]
    simp only [settle, Run.value?, Run.state, logInfo, true_and]
    rw [getWebsiteById_handleFetchError]
    have h1 : ∃ d1, getWebsiteById s1.repo ws._id = some d1 := by
      rcases r with r | r
      · exact ⟨d, by rw [r]; exact hd⟩
      · rw [r, getWebsiteById_handleFetchSuccess, hd]
        exact ⟨_, rfl⟩
    obtain ⟨d1, hd1⟩ := h1
    rw [hd1]
    refine ⟨_, rfl, ?_, ?_⟩
    · intro hm; simp [markFailed, hm]
    · intro hm; simp [markFailed, hm]
  · exact absurd hn hreg

/-- Instance of C12, amended: the account whose `fetch` raises. -/
theorem fetchInvoicesForWs_flag_by_message_witness :
    (fetchInvoicesForWs exEnv (exAccount 1 "A" "throws" false) exFilters
      (exProcess [exSite 1 "A" "throws" false])).value? = some [] :=
  (fetchInvoicesForWs_flag_by_message exEnv (exAccount 1 "A" "throws" false) exFilters
    (exProcess [exSite 1 "A" "throws" false]) "failedToFetchInvoicesFromWebsite"
    (exSite 1 "A" "throws" false) (by decide)
    ⟨exScriptThrows, rfl, Or.inr ⟨rfl, Or.inr ⟨_, rfl, Or.inl ⟨rfl, rfl⟩⟩⟩⟩ rfl).1

theorem getMatching_inner (v : Str) (l : List Website) (acc : List (Str × Website))
    (hl : ∀ d ∈ l, d._id = v) :
    ((l.foldl (fun acc d => assocSet acc d._id d) acc).map Prod.fst =
      if l = [] then acc.map Prod.fst
      else if v ∈ acc.map Prod.fst then acc.map Prod.fst else acc.map Prod.fst ++ [v]) ∧
    (∀ e ∈ l.foldl (fun acc d => assocSet acc d._id d) acc, e ∈ acc ∨ (e.2 ∈ l ∧ e.2._id = e.1)) := by
  induction l generalizing acc with
  | nil => simp
  | cons x rest ih =>
    have hx : x._id = v := hl x (List.mem_cons_self _ _)
    obtain ⟨k1, k2⟩ := ih (assocSet acc x._id x) (fun d hd => hl d (List.mem_cons_of_mem _ hd))
    simp only [List.foldl_cons]
    refine ⟨?_, ?_⟩
    · rw [k1, assocSet_keys, hx]
      by_cases hv : v ∈ acc.map Prod.fst
      · simp [hv]
      · by_cases hr : rest = [] <;> simp [hv, hr]
    · intro e he
      rcases k2 e he with h | ⟨h1, h2⟩
      · rcases mem_assocSet _ _ _ _ h with h | h
        · exact Or.inl h
        · exact Or.inr ⟨by rw [h]; exact List.mem_cons_self _ _, by rw [h]⟩
      · exact Or.inr ⟨List.mem_cons_of_mem _ h1, h2⟩

theorem getMatching_outer (docs : List Website) (values : List Str) (acc : List (Str × Website))
    (hn : values.Nodup) (hdis : ∀ v ∈ values, v ∉ acc.map Prod.fst)
    (hst : ∀ v ∈ values, ∃ d ∈ docs, d._id = v) :
    ((values.foldl (fun acc v =>
        (docs.filter (fun d => decide (d._id = v))).foldl (fun acc d => assocSet acc d._id d) acc)
      acc).map Prod.fst = acc.map Prod.fst ++ values) ∧
    (∀ e ∈ values.foldl (fun acc v =>
        (docs.filter (fun d => decide (d._id = v))).foldl (fun acc d => assocSet acc d._id d) acc)
      acc, e ∈ acc ∨ (e.2 ∈ docs ∧ e.2._id = e.1)) := by
  induction values generalizing acc with
  | nil => exact ⟨by simp, fun e he => Or.inl he⟩
  | cons v rest ih =>
    simp only [List.nodup_cons] at hn
    have hfil : ∀ d ∈ docs.filter (fun d => decide (d._id = v)), d._id = v := by
      intro d hd
      simpa using (List.mem_filter.1 hd).2
    have hne : docs.filter (fun d => decide (d._id = v)) ≠ [] := by
      obtain ⟨d, hd, hdv⟩ := hst v (List.mem_cons_self _ _)
      exact List.ne_nil_of_mem (List.mem_filter.2 ⟨hd, by simpa using hdv⟩)
    obtain ⟨i1, i2⟩ := getMatching_inner v _ acc hfil
    have hv : v ∉ acc.map Prod.fst := hdis v (List.mem_cons_self _ _)
    simp only [hne, if_false, hv] at i1
    obtain ⟨k1, k2⟩ := ih ((docs.filter (fun d => decide (d._id = v))).foldl
        (fun acc d => assocSet acc d._id d) acc) hn.2
      (by
        intro w hw
        rw [i1]
        intro hmem
        rcases List.mem_append.1 hmem with h | h
        · exact hdis w (List.mem_cons_of_mem _ hw) h
        · have : w = v := by simpa using h
          exact hn.1 (this ▸ hw))
      (fun w hw => hst w (List.mem_cons_of_mem _ hw))
    simp only [List.foldl_cons]
    refine ⟨?_, ?_⟩
    · rw [k1, i1]; simp
    · intro e he
      rcases k2 e he with h | h
      · rcases i2 e h with h | ⟨h1, h2⟩
        · exact Or.inl h
        · exact Or.inr ⟨List.mem_of_mem_filter h1, h2⟩
      · exact Or.inr h

theorem ownPropertyOrder_perm {α : Type} (props : List (Str × α)) :
    (ownPropertyOrder props).Perm props := by
  unfold ownPropertyOrder
  exact ((List.perm_insertionSort _ _).append_right _).trans (List.filter_append_perm _ _)

theorem ownPropertyOrder_eq_self {α : Type} (props : List (Str × α))
    (h : ∀ e ∈ props, arrayIndex e.1 = none) : ownPropertyOrder props = props := by
  unfold ownPropertyOrder
  have h1 : props.filter (fun e => (arrayIndex e.1).isSome) = [] := by
    rw [List.filter_eq_nil_iff]
    intro e he
    simp [h e he]
  have h2 : props.filter (fun e => !(arrayIndex e.1).isSome) = props := by
    rw [List.filter_eq_self]
    intro e he
    simp [h e he]
  rw [h1, h2]
  rfl

theorem findByIds_entries (r : Repository) (ids : List Str) (hn : ids.Nodup)
    (hst : ∀ id ∈ ids, ∃ d ∈ r.websiteDb, d._id = id) :
    ∃ res : List (Str × Website),
      findByIds r ids = (ownPropertyOrder res).map Prod.snd ∧ res.map Prod.fst = ids ∧
      ∀ e ∈ res, e.2 ∈ r.websiteDb ∧ e.2._id = e.1 := by
  obtain ⟨k1, k2⟩ := getMatching_outer r.websiteDb ids [] hn (by simp) hst
  simp only [List.map_nil, List.nil_append] at k1
  have hent : ∀ e ∈ ids.foldl (fun acc v =>
        (r.websiteDb.filter (fun d => decide (d._id = v))).foldl
          (fun acc d => assocSet acc d._id d) acc) [], e.2 ∈ r.websiteDb ∧ e.2._id = e.1 := by
    intro e he
    rcases k2 e he with h | h
    · simp at h
    · exact h
  refine ⟨_, ?_, k1, hent⟩
  unfold findByIds
  simp only [getMatching]
  rw [List.filter_eq_self]
  intro d hd
  simp only [List.mem_map] at hd
  obtain ⟨e, he, rfl⟩ := hd
  have he' := (ownPropertyOrder_perm _).mem_iff.1 he
  have : e.1 ∈ ids := by
    rw [← k1]; exact List.mem_map_of_mem _ he'
  simpa [(hent e he').2] using this

theorem getWebsitesByIds_resolved (r : Repository) (ids : List Str) (hn : ids.Nodup)
    (hst : ∀ id ∈ ids, ∃ d ∈ r.websiteDb, d._id = id) :
    ((getWebsitesByIds r ids).map Account._id).Perm ids ∧
    ∀ ws ∈ getWebsitesByIds r ids, ∃ d ∈ r.websiteDb, d._id = ws._id ∧ ws = derefWebsite r d := by
  obtain ⟨res, hfind, hkeys, hent⟩ := findByIds_entries r ids hn hst
  unfold getWebsitesByIds
  rw [hfind]
  constructor
  · rw [List.map_map, List.map_map, ← hkeys]
    refine (List.Perm.map _ (ownPropertyOrder_perm res)).trans ?_
    have hmap : res.map ((Account._id ∘ derefWebsite r) ∘ Prod.snd) = res.map Prod.fst :=
      List.map_congr_left (fun e he => by simp [derefWebsite, (hent e he).2])
    rw [hmap]
  · intro ws hws
    simp only [List.mem_map] at hws
    obtain ⟨d, ⟨e, he, rfl⟩, rfl⟩ := hws
    have he' := (ownPropertyOrder_perm _).mem_iff.1 he
    exact ⟨e.2, (hent e he').1, rfl, rfl⟩

theorem getWebsitesByIds_in_order (r : Repository) (ids : List Str) (hn : ids.Nodup)
    (hst : ∀ id ∈ ids, ∃ d ∈ r.websiteDb, d._id = id)
    (hidx : ∀ id ∈ ids, arrayIndex id = none) :
    List.Forall₂ (fun id ws => ws._id = id ∧ ∃ d ∈ r.websiteDb, d._id = id ∧ ws = derefWebsite r d)
      ids (getWebsitesByIds r ids) := by
  obtain ⟨res, hfind, hkeys, hent⟩ := findByIds_entries r ids hn hst
  have hself : ownPropertyOrder res = res := by
    apply ownPropertyOrder_eq_self
    intro e he
    exact hidx e.1 (by rw [← hkeys]; exact List.mem_map_of_mem _ he)
  unfold getWebsitesByIds
  rw [hfind, hself]
  rw [List.forall₂_map_right_iff, List.forall₂_map_right_iff]
  have hall : List.Forall₂
      (fun (id : Str) (e : Str × Website) => e.1 = id ∧ e.2 ∈ r.websiteDb ∧ e.2._id = e.1)
      (res.map Prod.fst) res := by
    rw [List.forall₂_map_left_iff]
    exact List.forall₂_same.2 (fun e he => ⟨rfl, hent e he⟩)
  rw [hkeys] at hall
  refine List.Forall₂.imp ?_ hall
  intro id e ⟨h1, h2, h3⟩
  exact ⟨by simp [derefWebsite, h3, h1], e.2, h2, by rw [h3, h1], rfl⟩

theorem awaitCode_returns (env : Env) (name : String) (id : Str) (q : Option String)
    (st : MainProcess) (h : (env.operator id).isSome = true) :
    ∃ v s1, awaitCode env name id q st = Run.returned v s1 := by
  obtain ⟨code, hc⟩ := Option.isSome_iff_exists.1 h
  unfold awaitCode
  simp only [hc]
  have hs : settledValue (resolve2FAInput id code (get2FAInput name id q st).2)
      (get2FAInput name id q st).1 ≠ none := by
    have hget : assocGet (get2FAInput name id q st).2.twoFAWaitingList id =
        some (get2FAInput name id q st).1 := by
      simp [get2FAInput, send, assocGet_assocSet_same]
    simp only [resolve2FAInput, hget]
    have := settledValue_resolvePromise (get2FAInput name id q st).2
      (get2FAInput name id q st).1 (get2FAInput name id q st).1 code
    have e : settledValue (resolvePromise (get2FAInput name id q st).1 code
        (get2FAInput name id q st).2) (get2FAInput name id q st).1 ≠ none := by
      rw [this]
      by_cases hn : settledValue (get2FAInput name id q st).2 (get2FAInput name id q st).1 = none
      · simp [hn]
      · simp [hn]
    simpa [settledValue] using e
  cases hv : settledValue (resolve2FAInput id code (get2FAInput name id q st).2)
      (get2FAInput name id q st).1 with
  | none => exact absurd hv hs
  | some v => exact ⟨v, _, rfl⟩

theorem driveProvider_returns (env : Env) (ws : Account) (s : Script) (st : MainProcess)
    (h : (env.operator ws._id).isSome = true) :
    ∃ o s1, driveProvider env ws s st = Run.returned o s1 := by
  unfold driveProvider
  split
  · split
    · exact ⟨_, _, rfl⟩
    · split
      · exact ⟨_, _, rfl⟩
      · split
        · obtain ⟨v, s1, e⟩ := awaitCode_returns env ws.name ws._id (some s.securityQuestion) st h
          rw [e]; exact ⟨_, _, rfl⟩
        · obtain ⟨v, s1, e⟩ := awaitCode_returns env ws.name ws._id none st h
          rw [e]; exact ⟨_, _, rfl⟩
  · split <;> exact ⟨_, _, rfl⟩

theorem settle_returns (ws : Account) (pn : String) (o : Except String (List Document))
    (st : MainProcess) : ∃ docs s1, settle ws pn o st = Run.returned docs s1 := by
  cases o <;> exact ⟨_, _, rfl⟩

theorem fetchInvoicesForWs_returns (env : Env) (ws : Account) (filters : Filters)
    (st : MainProcess) (h : (env.operator ws._id).isSome = true) :
    ∃ docs s1, fetchInvoicesForWs env ws filters st = Run.returned docs s1 := by
  unfold fetchInvoicesForWs
  split
  · exact settle_returns _ _ _ _
  · split
    · exact settle_returns _ _ _ _
    · dsimp only
      split
      · exact settle_returns _ _ _ _
      · rename_i provider _
        obtain ⟨o, s1, e⟩ := driveProvider_returns env ws provider
          (logInfo (provider.name ++ " - " ++ ws.name) "Starting..." st) h
        rw [e]
        exact settle_returns _ _ _ _

theorem fetchTask_eq (env : Env) (filters : Filters) (ws : Account) (st s1 : MainProcess)
    (docs : List Document) (h : fetchTask env filters ws st = Run.returned docs s1) :
    ∃ s0, fetchInvoicesForWs env ws filters
      (send (Event.onFetchWsChange "loadingWebsite" ws.name none) st) = Run.returned docs s0 := by
  unfold fetchTask at h
  split at h
  · cases h
  · rename_i v s0 hv
    simp only [Run.returned.injEq] at h
    exact ⟨s0, by rw [hv, h.1]⟩

theorem fetchTask_returns (env : Env) (filters : Filters) (ws : Account) (st : MainProcess)
    (h : (env.operator ws._id).isSome = true) :
    ∃ docs s1, fetchTask env filters ws st = Run.returned docs s1 := by
  obtain ⟨docs, s1, e⟩ := fetchInvoicesForWs_returns env ws filters
    (send (Event.onFetchWsChange "loadingWebsite" ws.name none) st) h
  exact ⟨docs,
    send (Event.onNotification "fetchingInvoicesFromWebsiteCompleted" (some ws.name) "success")
      s1, by simp [fetchTask, e]⟩

theorem runSequentially_returns {α : Type} (task : Account → MainProcess → Run α)
    (wss : List Account) (st : MainProcess)
    (h : ∀ ws ∈ wss, ∀ s, ∃ v s1, task ws s = Run.returned v s1) :
    ∃ all s', runSequentially (wss.map task) st = Run.returned all s' ∧
      List.Forall₂ (fun ws v => ∃ sa sb, task ws sa = Run.returned v sb) wss all := by
  induction wss generalizing st with
  | nil => exact ⟨[], st, rfl, List.Forall₂.nil⟩
  | cons ws rest ih =>
    obtain ⟨v, s1, e⟩ := h ws (List.mem_cons_self _ _) st
    obtain ⟨all, s', e', hall⟩ := ih s1 (fun w hw => h w (List.mem_cons_of_mem _ hw))
    refine ⟨v :: all, s', ?_, List.Forall₂.cons ⟨st, s1, e⟩ hall⟩
    simp [runSequentially, e, e']

theorem forall₂_right_mem {α β : Type} {R : α → β → Prop} {l₁ : List α} {l₂ : List β}
    (h : List.Forall₂ R l₁ l₂) : ∀ b ∈ l₂, ∃ a ∈ l₁, R a b := by
  induction h with
  | nil => simp
  | cons hr _ ih =>
    intro b hb
    rcases List.mem_cons.1 hb with rfl | hb
    · exact ⟨_, List.mem_cons_self _ _, hr⟩
    · obtain ⟨a, ha, hab⟩ := ih b hb
      exact ⟨a, List.mem_cons_of_mem _ ha, hab⟩

theorem forall₂_comp {α β γ : Type} {R : α → β → Prop} {S : β → γ → Prop} {l₁ : List α}
    {l₂ : List β} {l₃ : List γ} (h₁ : List.Forall₂ R l₁ l₂) (h₂ : List.Forall₂ S l₂ l₃) :
    List.Forall₂ (fun a c => ∃ b, R a b ∧ S b c) l₁ l₃ := by
  induction h₁ generalizing l₃ with
  | nil => cases h₂; exact List.Forall₂.nil
  | cons hr _ ih =>
    cases h₂ with
    | cons hs hrest => exact List.Forall₂.cons ⟨_, hr, hs⟩ (ih hrest)

/-- C1, as stated, fails.  For the id list `[gen 1, gen 1]`, both ids naming the
one stored account, `fetchInvoices` returns an array with a single element, so
there is no second result for the second id.  For the stored accounts with the
`_id`s `1` and `2` and the id list `[2, 1]`, the accounts are resolved in the
order `1`, `2` (the lookup lists integer-like keys in ascending order), so the
first result, with one row, is the one of account `1`, not of account `2`,
whose script returns no document. -/
theorem fetchInvoices_collapses_duplicate_ids :
    (∃ d ∈ exOne.repo.websiteDb, d._id = Str.gen 1) ∧
    ((fetchInvoices exEnv exFilters [Str.gen 1, Str.gen 1] exOne).value?).map List.length =
      some 1 ∧
    (getWebsitesByIds exTyped.repo [Str.text "2", Str.text "1"]).map Account._id =
      [Str.text "1", Str.text "2"] ∧
    ((fetchInvoices exEnv exFilters [Str.text "2", Str.text "1"] exTyped).value?).map
      (List.map List.length) = some [1, 0] := by
  decide

/-- C1, amended: for a duplicate-free list of ids each naming a stored account,
none of the ids being an array index (a decimal numeral below `2^32 - 1`
without leading zero; generated identifiers are none), the operator answering
every code request, `fetchInvoices` returns one result per id, and position by
position the result is the one for the account with that id: it is the result
of `handleFetchResults` on the documents that `fetchInvoicesForWs` returned for
the account stored under that id. -/
theorem fetchInvoices_results_in_order (env : Env) (filters : Filters) (ids : List Str)
    (st : MainProcess) (hn : ids.Nodup)
    (hst : ∀ id ∈ ids, ∃ d ∈ st.repo.websiteDb, d._id = id)
    (hidx : ∀ id ∈ ids, arrayIndex id = none)
    (hop : ∀ id ∈ ids, (env.operator id).isSome = true) :
    ∃ results st', fetchInvoices env filters ids st = Run.returned results st' ∧
      results.length = ids.length ∧
      List.Forall₂ (fun id result =>
        ∃ d ∈ st.repo.websiteDb, d._id = id ∧
          ∃ docs sa sb,
            fetchInvoicesForWs env (derefWebsite (deleteAllInvoices st.repo) d) filters sa =
              Run.returned docs sb ∧
            List.Forall₂ (ResultFor env) docs result) ids results := by
  have hord := getWebsitesByIds_in_order (deleteAllInvoices st.repo) ids hn hst hidx
  have hret : ∀ ws ∈ getWebsitesByIds (deleteAllInvoices st.repo) ids, ∀ s,
      ∃ v s1, fetchTask env filters ws s = Run.returned v s1 := by
    intro ws hws s
    obtain ⟨id, hid, h1, -⟩ := forall₂_right_mem hord ws hws
    exact fetchTask_returns env filters ws s (by rw [h1]; exact hop id hid)
  obtain ⟨all, s1, erun, hall⟩ := runSequentially_returns (fetchTask env filters)
    (getWebsitesByIds (deleteAllInvoices st.repo) ids)
    { st with repo := deleteAllInvoices st.repo } hret
  obtain ⟨r1, -⟩ := handleAllResults_spec env all s1
  refine ⟨(handleAllResults env all s1).1, (handleAllResults env all s1).2, ?_, ?_, ?_⟩
  · simp [fetchInvoices, erun]
  · rw [← List.Forall₂.length_eq r1, ← List.Forall₂.length_eq hall,
      ← List.Forall₂.length_eq hord]
  · refine List.Forall₂.imp ?_ (forall₂_comp (forall₂_comp hord hall) r1)
    rintro id result ⟨docs, ⟨ws, ⟨-, d, hd, hdi, hws⟩, sa, sb, etask⟩, hres⟩
    obtain ⟨s0, e0⟩ := fetchTask_eq env filters ws sa sb docs etask
    exact ⟨d, hd, hdi, docs, _, s0, by rw [← hws]; exact e0, hres⟩

/-- Instance of C1, amended: two accounts fetched in the order second, first. -/
theorem fetchInvoices_results_in_order_witness :
    ∃ results st',
      fetchInvoices exEnv exFilters [Str.gen 2, Str.gen 1]
        (exProcess [exSite 1 "A" "ok" false, exSite 2 "B" "2fa" false]) =
        Run.returned results st' ∧
      results.length = 2 :=
  have h := fetchInvoices_results_in_order exEnv exFilters [Str.gen 2, Str.gen 1]
    (exProcess [exSite 1 "A" "ok" false, exSite 2 "B" "2fa" false]) (by decide) (by decide)
    (by decide) (by decide)
  ⟨h.choose, h.choose_spec.choose, h.choose_spec.choose_spec.1, h.choose_spec.choose_spec.2.1⟩

theorem fetchTask_effect (env : Env) (filters : Filters) (ws : Account) (st : MainProcess)
    (o : Except String (List Document)) (hwf : RelayWF st)
    (ho : attemptOutcome env (ctxOf st filters ws) = some o) :
    ∃ sb, fetchTask env filters ws st = Run.returned (returnedDocs o) sb ∧ RelayWF sb ∧
      Frame st sb ∧
      (∀ id, id ≠ ws._id → getWebsiteById sb.repo id = getWebsiteById st.repo id) ∧
      (∀ id, (getWebsiteById sb.repo id).isSome = (getWebsiteById st.repo id).isSome) ∧
      ((∃ docs, o = Except.ok docs) → NoNewFlag st.repo sb.repo ws._id) ∧
      ((∃ m, o = Except.error m) → (getWebsiteById st.repo ws._id).isSome = true →
        Flagged sb.repo ws._id) := by
  have hwf0 : RelayWF (send (Event.onFetchWsChange "loadingWebsite" ws.name none) st) := hwf
  have hfr := frame_fetchTask env filters ws st
  have hkey : ∃ pn s1, fetchInvoicesForWs env ws filters
      (send (Event.onFetchWsChange "loadingWebsite" ws.name none) st) = settle ws pn o s1 ∧
      RelayWF s1 ∧ (s1.repo = st.repo ∨ s1.repo = (handleFetchSuccess ws st).repo) := by
    rcases fetchInvoicesForWs_outcome env ws filters _ o hwf0 ho with
      ⟨pn, s1, e, w, r, -, -⟩ | ⟨-, ho', e⟩
    · exact ⟨pn, s1, e, w, r⟩
    · exact ⟨"", send (Event.onNotification "websiteIsNotSupported" none "error")
        (send (Event.onFetchWsChange "loadingWebsite" ws.name none) st), by rw [e, ho'], hwf,
        Or.inl rfl⟩
  obtain ⟨pn, s1, e, w1, r1⟩ := hkey
  have hlook1 : ∀ id, getWebsiteById s1.repo id = getWebsiteById st.repo id ∨
      getWebsiteById s1.repo id =
        (getWebsiteById st.repo id).map (fun d => if id = ws._id then clearFlags d else d) := by
    intro id
    rcases r1 with r | r
    · exact Or.inl (by rw [r])
    · exact Or.inr (by rw [r, getWebsiteById_handleFetchSuccess])
  cases o with
  | ok docs =>
    have efin : fetchTask env filters ws st = Run.returned docs
        (send (Event.onNotification "fetchingInvoicesFromWebsiteCompleted" (some ws.name)
          "success") (logInfo pn "Finished..." s1)) := by
      simp [fetchTask, e, settle]
    rw [efin] at hfr
    refine ⟨_, efin, w1, hfr, ?_, ?_, ?_, ?_⟩
    · intro id hid
      rcases hlook1 id with h | h
      · exact h
      · simp only [send, logInfo] at h ⊢
        rw [h]
        cases getWebsiteById st.repo id <;> simp [hid]
    · intro id
      rcases hlook1 id with h | h <;> simp only [send, logInfo] at h ⊢ <;> rw [h]
      cases getWebsiteById st.repo id <;> simp
    · intro _ d' hd'
      simp only [send, logInfo] at hd'
      rcases hlook1 ws._id with h | h
      · exact ⟨d', by rw [← h]; exact hd', id, id⟩
      · rw [h] at hd'
        cases hd : getWebsiteById st.repo ws._id with
        | none => simp [hd] at hd'
        | some d =>
          simp only [hd, Option.map_some', if_true, Option.some.injEq] at hd'
          subst hd'
          exact ⟨d, rfl, by simp [clearFlags], by simp [clearFlags]⟩
    · rintro ⟨m, hm⟩; cases hm
  | error m =>
    have efin : fetchTask env filters ws st = Run.returned []
        (send (Event.onNotification "fetchingInvoicesFromWebsiteCompleted" (some ws.name)
          "success") (logInfo pn "Finished..." (handleFetchError ws m s1))) := by
      simp [fetchTask, e, settle]
    have w2 : RelayWF (handleFetchError ws m s1) := by
      refine relayWF_of_fields w1 ?_ ?_ ?_ <;>
        by_cases hm : m = "authenticationFailed" <;> simp [handleFetchError, send, hm]
    rw [efin] at hfr
    have hlook2 : ∀ id, getWebsiteById (handleFetchError ws m s1).repo id =
        (getWebsiteById s1.repo id).map (fun d => if id = ws._id then markFailed m d else d) :=
      getWebsiteById_handleFetchError ws m s1
    refine ⟨_, efin, w2, hfr, ?_, ?_, ?_, ?_⟩
    · intro id hid
      simp only [send, logInfo]
      rw [hlook2]
      rcases hlook1 id with h | h <;> rw [h] <;>
        cases getWebsiteById st.repo id <;> simp [hid]
    · intro id
      simp only [send, logInfo]
      rw [hlook2]
      rcases hlook1 id with h | h <;> rw [h] <;> cases getWebsiteById st.repo id <;> simp
    · rintro ⟨docs, hd⟩; cases hd
    · intro _ hsome
      obtain ⟨d, hd⟩ := Option.isSome_iff_exists.1 hsome
      have h1 : ∃ d1, getWebsiteById s1.repo ws._id = some d1 := by
        rcases hlook1 ws._id with h | h <;> rw [h, hd] <;> exact ⟨_, rfl⟩
      obtain ⟨d1, hd1⟩ := h1
      refine ⟨markFailed m d1, ?_, ?_⟩
      · simp only [send, logInfo]
        rw [hlook2, hd1]; simp
      · by_cases hm : m = "authenticationFailed" <;> simp [markFailed, hm]

theorem noNewFlag_of_eq {a b : Repository} {id : Str}
    (h : getWebsiteById b id = getWebsiteById a id) : NoNewFlag a b id := by
  intro d' hd'
  exact ⟨d', by rw [← h]; exact hd', fun x => x, fun x => x⟩

theorem noNewFlag_trans {a b c : Repository} {id : Str} (h₁ : NoNewFlag a b id)
    (h₂ : NoNewFlag b c id) : NoNewFlag a c id := by
  intro d'' hd''
  obtain ⟨d', hd', f1, f2⟩ := h₂ d'' hd''
  obtain ⟨d, hd, g1, g2⟩ := h₁ d' hd'
  exact ⟨d, hd, fun h => g1 (f1 h), fun h => g2 (f2 h)⟩

theorem flagged_of_eq {a b : Repository} {id : Str}
    (h : getWebsiteById b id = getWebsiteById a id) (hf : Flagged a id) : Flagged b id := by
  obtain ⟨d, hd, hfl⟩ := hf
  exact ⟨d, by rw [h]; exact hd, hfl⟩

theorem run_effect (env : Env) (filters : Filters) (S : Option Settings) (wss : List Account)
    (sa : MainProcess) (hwf : RelayWF sa) (hS : getSettings sa.repo = S)
    (hn : (wss.map Account._id).Nodup)
    (hout : ∀ ws ∈ wss, ∃ o,
      attemptOutcome env { ws := ws, settings := S, filters := filters } = some o) :
    ∃ all sb, runSequentially (wss.map (fetchTask env filters)) sa = Run.returned all sb ∧
      RelayWF sb ∧ Frame sa sb ∧
      List.Forall₂ (fun ws docs => ∃ o,
        attemptOutcome env { ws := ws, settings := S, filters := filters } = some o ∧
        docs = returnedDocs o) wss all ∧
      (∀ id, (∀ ws ∈ wss, ws._id ≠ id) →
        getWebsiteById sb.repo id = getWebsiteById sa.repo id) ∧
      (∀ id, (getWebsiteById sb.repo id).isSome = (getWebsiteById sa.repo id).isSome) ∧
      (∀ id, (∀ ws ∈ wss, ws._id = id →
          Succeeds env { ws := ws, settings := S, filters := filters }) →
        NoNewFlag sa.repo sb.repo id) ∧
      (∀ ws ∈ wss, (∃ m, attemptOutcome env { ws := ws, settings := S, filters := filters } =
          some (Except.error m)) →
        (getWebsiteById sa.repo ws._id).isSome = true → Flagged sb.repo ws._id) := by
  induction wss generalizing sa with
  | nil =>
    exact ⟨[], sa, rfl, hwf, frame_refl sa, List.Forall₂.nil, fun _ _ => rfl, fun _ => rfl,
      fun _ _ => noNewFlag_of_eq rfl, fun ws hws => absurd hws (List.not_mem_nil ws)⟩
  | cons ws rest ih =>
    simp only [List.map_cons, List.nodup_cons] at hn
    obtain ⟨o, ho⟩ := hout ws (List.mem_cons_self _ _)
    have ho' : attemptOutcome env (ctxOf sa filters ws) = some o := by
      simpa [ctxOf, hS] using ho
    obtain ⟨s1, e1, w1, fr1, l1, i1, ok1, er1⟩ := fetchTask_effect env filters ws sa o hwf ho'
    have hS1 : getSettings s1.repo = S := by
      rw [← hS]; simp [getSettings, fr1.2.1]
    obtain ⟨all, sb, e2, w2, fr2, fa2, l2, i2, ok2, er2⟩ := ih s1 w1 hS1 hn.2
      (fun w hw => hout w (List.mem_cons_of_mem _ hw))
    have hnot : ∀ w ∈ rest, w._id ≠ ws._id := by
      intro w hw h
      exact hn.1 (by rw [← h]; exact List.mem_map_of_mem _ hw)
    refine ⟨returnedDocs o :: all, sb, ?_, w2, frame_trans fr1 fr2,
      List.Forall₂.cons ⟨o, ho, rfl⟩ fa2, ?_, ?_, ?_, ?_⟩
    · simp [runSequentially, e1, e2]
    · intro id hid
      rw [l2 id (fun w hw => hid w (List.mem_cons_of_mem _ hw)),
        l1 id (fun h => hid ws (List.mem_cons_self _ _) h.symm)]
    · intro id; rw [i2, i1]
    · intro id hid
      by_cases h : id = ws._id
      · subst h
        have hs : Succeeds env { ws := ws, settings := S, filters := filters } :=
          hid ws (List.mem_cons_self _ _) rfl
        obtain ⟨docs, hd⟩ := hs
        rw [ho] at hd
        have hn1 := ok1 ⟨docs, by simpa using hd⟩
        exact noNewFlag_trans hn1 (noNewFlag_of_eq (l2 _ hnot))
      · exact noNewFlag_trans (noNewFlag_of_eq (l1 id h))
          (ok2 id (fun w hw hw' => hid w (List.mem_cons_of_mem _ hw) hw'))
    · intro w hw hthrow hsome
      rcases List.mem_cons.1 hw with rfl | hw
      · obtain ⟨m, hm⟩ := hthrow
        rw [ho] at hm
        have hf := er1 ⟨m, by simpa using hm⟩ hsome
        exact flagged_of_eq (l2 _ hnot) hf
      · exact er2 w hw hthrow (by rw [i1]; exact hsome)

theorem forall₂_getElem? {α β : Type} {R : α → β → Prop} {l₁ : List α} {l₂ : List β}
    (h : List.Forall₂ R l₁ l₂) (i : Nat) (a : α) (ha : l₁[i]? = some a) :
    ∃ b, l₂[i]? = some b ∧ R a b := by
  induction h generalizing i with
  | nil => simp at ha
  | cons hr _ ih =>
    cases i with
    | zero =>
      simp only [List.getElem?_cons_zero, Option.some.injEq] at ha
      subst ha
      exact ⟨_, by simp, hr⟩
    | succ j =>
      simp only [List.getElem?_cons_succ] at ha ⊢
      exact ih j ha

theorem getWebsitesByIds_deleteAllInvoices (r : Repository) (ids : List Str) :
    getWebsitesByIds (deleteAllInvoices r) ids = getWebsitesByIds r ids := by
  have h : derefWebsite (deleteAllInvoices r) = derefWebsite r := by
    funext d; simp [derefWebsite, deref, getSecret, deleteAllInvoices]
  have h' : findByIds (deleteAllInvoices r) ids = findByIds r ids := rfl
  rw [getWebsitesByIds, getWebsitesByIds, h, h']

/-- C2, as stated, fails: the result of the account whose script raises is the
empty list, exactly like the result of the account whose script succeeds with no
document, so nothing in the returned array marks it as failed. -/
theorem failed_result_is_unmarked :
    (fetchInvoices exEnv exFilters [Str.gen 1, Str.gen 2] exTwo).value? = some [[], []] ∧
    (fetchInvoicesForWs exEnv (exAccount 1 "A" "throws" false) exFilters exTwo).value? =
      some [] ∧
    (fetchInvoicesForWs exEnv (exAccount 2 "B" "empty" false) exFilters exTwo).value? =
      some [] :=
  ⟨rfl, rfl, rfl⟩

theorem map_eq_of_forall₂ {α β : Type} (f : β → α) {l₁ : List α} {l₂ : List β}
    (h : List.Forall₂ (fun a b => f b = a) l₁ l₂) : l₂.map f = l₁ := by
  induction h with
  | nil => rfl
  | cons hr _ ih => simp [hr, ih]

/-- C2, amended: in a well-formed relay state, for a duplicate-free list of ids
of stored accounts where the run of the account at position `k` raises an error
and the run of every other account succeeds, `fetchInvoices` returns one result
per id; the result at position `k` is the empty list; the result at every other
position is the result of `handleFetchResults` on the documents of that account,
its rows being stored; the account at position `k` has a failure flag set
afterwards; and for no other stored account is a failure flag set that was not
set before. -/
theorem fetchInvoices_isolates_failure (env : Env) (filters : Filters) (ids : List Str)
    (st : MainProcess) (k : Nat) (m : String) (wk : Account)
    (hn : ids.Nodup) (hst : ∀ id ∈ ids, ∃ d ∈ st.repo.websiteDb, d._id = id)
    (hwf : RelayWF st)
    (hk : (getWebsitesByIds st.repo ids)[k]? = some wk)
    (hthrow : RaisesAt env (ctxOf st filters wk) m)
    (hok : ∀ j ws, j ≠ k → (getWebsitesByIds st.repo ids)[j]? = some ws →
      Succeeds env (ctxOf st filters ws)) :
    ∃ results st', fetchInvoices env filters ids st = Run.returned results st' ∧
      results.length = ids.length ∧
      results[k]? = some [] ∧
      (∀ j ws, j ≠ k → (getWebsitesByIds st.repo ids)[j]? = some ws →
        ∃ docs rs, attemptOutcome env (ctxOf st filters ws) = some (Except.ok docs) ∧
          results[j]? = some rs ∧ List.Forall₂ (ResultFor env) docs rs ∧
          ∀ row ∈ rowsOf rs, row ∈ st'.repo.invoiceDb) ∧
      Flagged st'.repo wk._id ∧
      (∀ id, id ≠ wk._id → NoNewFlag st.repo st'.repo id) := by
  obtain ⟨hperm, hres⟩ := getWebsitesByIds_resolved st.repo ids hn hst
  have hlen : (getWebsitesByIds st.repo ids).length = ids.length := by
    have := hperm.length_eq
    simpa using this
  have hnodup : ((getWebsitesByIds st.repo ids).map Account._id).Nodup :=
    hperm.nodup_iff.2 hn
  have hwkmem : wk ∈ getWebsitesByIds st.repo ids := List.getElem?_mem hk
  have hidx : ∀ j ws, (getWebsitesByIds st.repo ids)[j]? = some ws → ws._id = wk._id → j = k := by
    intro j ws hj hid
    have hj' : ((getWebsitesByIds st.repo ids).map Account._id)[j]? = some wk._id := by
      simp [List.getElem?_map, hj, hid]
    have hk' : ((getWebsitesByIds st.repo ids).map Account._id)[k]? = some wk._id := by
      simp [List.getElem?_map, hk]
    have hjl : j < ((getWebsitesByIds st.repo ids).map Account._id).length := by
      by_contra hc
      rw [List.getElem?_eq_none (Nat.le_of_not_lt hc)] at hj'
      cases hj'
    have hkl : k < ((getWebsitesByIds st.repo ids).map Account._id).length := by
      by_contra hc
      rw [List.getElem?_eq_none (Nat.le_of_not_lt hc)] at hk'
      cases hk'
    rw [List.getElem?_eq_getElem hjl] at hj'
    rw [List.getElem?_eq_getElem hkl] at hk'
    exact (List.Nodup.getElem_inj_iff hnodup).1
      ((Option.some.inj hj').trans (Option.some.inj hk').symm)
  have hsucc : ∀ ws ∈ getWebsitesByIds st.repo ids, ws._id ≠ wk._id →
      Succeeds env (ctxOf st filters ws) := by
    intro ws hws hne
    obtain ⟨j, hj⟩ := List.getElem?_of_mem hws
    exact hok j ws (fun h => hne (by
      rw [h] at hj
      rw [hk] at hj
      rw [Option.some.inj hj])) hj
  have hout : ∀ ws ∈ getWebsitesByIds st.repo ids, ∃ o,
      attemptOutcome env { ws := ws, settings := getSettings st.repo, filters := filters } =
        some o := by
    intro ws hws
    by_cases h : ws._id = wk._id
    · obtain ⟨j, hj⟩ := List.getElem?_of_mem hws
      have := hidx j ws hj h
      subst this
      rw [hk] at hj
      rw [← Option.some.inj hj]
      exact ⟨_, attemptOutcome_of_raisesAt env _ m hthrow⟩
    · obtain ⟨docs, hd⟩ := hsucc ws hws h
      exact ⟨_, hd⟩
  obtain ⟨all, s1, erun, -, fr, fa, -, isome, nonew, flagged⟩ :=
    run_effect env filters (getSettings st.repo) (getWebsitesByIds st.repo ids)
      { st with repo := deleteAllInvoices st.repo } hwf rfl hnodup hout
  obtain ⟨r1, r2, -, -, -, r6, -, -⟩ := handleAllResults_spec env all s1
  have hfetch : fetchInvoices env filters ids st =
      Run.returned (handleAllResults env all s1).1 (handleAllResults env all s1).2 := by
    simp [fetchInvoices, getWebsitesByIds_deleteAllInvoices, erun]
  have hlookup : ∀ id, getWebsiteById (handleAllResults env all s1).2.repo id =
      getWebsiteById s1.repo id := by
    intro id; simp [getWebsiteById, r6]
  refine ⟨_, _, hfetch, ?_, ?_, ?_, ?_, ?_⟩
  · rw [← List.Forall₂.length_eq r1, ← List.Forall₂.length_eq fa, hlen]
  · obtain ⟨docs, hd, o, ho, hdo⟩ := forall₂_getElem? fa k wk hk
    have ho2 : attemptOutcome env (ctxOf st filters wk) = some o := ho
    rw [attemptOutcome_of_raisesAt env _ m hthrow] at ho2
    have : docs = [] := by rw [hdo, ← Option.some.inj ho2]; rfl
    subst this
    obtain ⟨rs, hrs, hfor⟩ := forall₂_getElem? r1 k [] hd
    cases hfor
    exact hrs
  · intro j ws hjk hj
    obtain ⟨docs, hd, o, ho, hdo⟩ := forall₂_getElem? fa j ws hj
    obtain ⟨docs', hs⟩ := hok j ws hjk hj
    have ho2 : attemptOutcome env (ctxOf st filters ws) = some o := ho
    rw [hs] at ho2
    have hdocs : docs = docs' := by rw [hdo, ← Option.some.inj ho2]; rfl
    subst hdocs
    obtain ⟨rs, hrs, hfor⟩ := forall₂_getElem? r1 j docs hd
    refine ⟨docs, rs, hs, hrs, hfor, ?_⟩
    intro row hrow
    rw [r2]
    refine List.mem_append_right _ (List.mem_flatten.2 ⟨rowsOf rs, ?_, hrow⟩)
    exact List.mem_map_of_mem _ (List.getElem?_mem hrs)
  · have hstored : (getWebsiteById st.repo wk._id).isSome = true := by
      obtain ⟨d, hd, hdi, -⟩ := hres wk hwkmem
      rw [getWebsiteById, List.find?_isSome]
      exact ⟨d, hd, by simpa using hdi⟩
    have hf := flagged wk hwkmem ⟨m, attemptOutcome_of_raisesAt env _ m hthrow⟩ hstored
    exact flagged_of_eq (hlookup _) hf
  · intro id hid
    have h1 := nonew id (fun ws hws hws' => hsucc ws hws (by rw [hws']; exact hid))
    exact noNewFlag_trans h1 (noNewFlag_of_eq (hlookup id))

/-- Instance of C2, amended: the first of two accounts raises, the second
succeeds. -/
theorem fetchInvoices_isolates_failure_witness :
    ∃ results st',
      fetchInvoices exEnv exFilters [Str.gen 1, Str.gen 2] exTwo = Run.returned results st' ∧
      results[0]? = some [] ∧ Flagged st'.repo (Str.gen 1) :=
  have hok : ∀ j ws, j ≠ 0 →
      (getWebsitesByIds exTwo.repo [Str.gen 1, Str.gen 2])[j]? = some ws →
      Succeeds exEnv (ctxOf exTwo exFilters ws) := by
    intro j ws hj h
    have hacc : getWebsitesByIds exTwo.repo [Str.gen 1, Str.gen 2] =
        [exAccount 1 "A" "throws" false, exAccount 2 "B" "empty" false] := by decide
    rw [hacc] at h
    match j, hj, h with
    | 0, hj, _ => exact absurd rfl hj
    | 1, _, h =>
      simp only [List.getElem?_cons_succ, List.getElem?_cons_zero, Option.some.injEq] at h
      subst h
      exact ⟨[], rfl⟩
    | n + 2, _, h => simp at h
  have h := fetchInvoices_isolates_failure exEnv exFilters [Str.gen 1, Str.gen 2] exTwo 0
    "failedToFetchInvoicesFromWebsite" (exAccount 1 "A" "throws" false) (by decide) (by decide)
    (by decide) rfl ⟨exScriptThrows, rfl, Or.inr ⟨rfl, Or.inr ⟨_, rfl, Or.inl ⟨rfl, rfl⟩⟩⟩⟩ hok
  ⟨h.choose, h.choose_spec.choose, h.choose_spec.choose_spec.1,
    h.choose_spec.choose_spec.2.2.1, h.choose_spec.choose_spec.2.2.2.2.1⟩

/-! ## Properties of the delivery records and of account updates -/

theorem insertUnique_fresh (doc : DeliveryRecord) (rows : List DeliveryRecord)
    (h : ∀ r ∈ rows, r.combination ≠ doc.combination) :
    insertUnique doc rows = some (rows ++ [doc]) := by
  unfold insertUnique
  have : rows.any (fun r => decide (r.combination = doc.combination)) = false := by
    rw [List.any_eq_false]
    intro r hr
    simpa using h r hr
  simp [this]

theorem insertUnique_present (doc : DeliveryRecord) (rows : List DeliveryRecord)
    (r : DeliveryRecord) (hr : r ∈ rows) (h : r.combination = doc.combination) :
    insertUnique doc rows = none := by
  unfold insertUnique
  have : rows.any (fun r => decide (r.combination = doc.combination)) = true := by
    rw [List.any_eq_true]
    exact ⟨r, hr, by simpa using h⟩
  simp [this]

theorem countCombination_append_fresh (rows : List DeliveryRecord) (doc : DeliveryRecord)
    (h : ∀ r ∈ rows, r.combination ≠ doc.combination) :
    countCombination (rows ++ [doc]) doc.combination = 1 := by
  unfold countCombination
  have : rows.filter (fun r => decide (r.combination = doc.combination)) = [] := by
    rw [List.filter_eq_nil_iff]
    intro r hr
    simpa using h r hr
  simp [List.filter_append, this]

/-- C11: for a string combination not yet stored, the first
`insertEmailedInvoice` returns the inserted row, a second one returns an error
object and stores nothing, and the store then holds exactly one row with that
combination; the same holds for `insertDownloadedInvoice`; and a non-string
argument is answered by either function with an error object, the stores being
left as they were. -/
theorem insert_delivery_twice (now₁ now₂ : Nat) (c : String) (s : DeliveryStores) :
    ((∀ r ∈ s.emailedInvoicesDb, r.combination ≠ c) →
      (∃ row, (insertEmailedInvoice now₁ (JsValue.str c) s).1 = Except.ok row ∧
        row.combination = c ∧
        (insertEmailedInvoice now₁ (JsValue.str c) s).2.emailedInvoicesDb =
          s.emailedInvoicesDb ++ [row]) ∧
      (insertEmailedInvoice now₂ (JsValue.str c) (insertEmailedInvoice now₁ (JsValue.str c) s).2 =
        (Except.error "Datastore error. Something went wrong",
          (insertEmailedInvoice now₁ (JsValue.str c) s).2)) ∧
      countCombination (insertEmailedInvoice now₂ (JsValue.str c)
        (insertEmailedInvoice now₁ (JsValue.str c) s).2).2.emailedInvoicesDb c = 1) ∧
    ((∀ r ∈ s.downloadedInvoicesDb, r.combination ≠ c) →
      (∃ row, (insertDownloadedInvoice now₁ (JsValue.str c) s).1 = Except.ok row ∧
        row.combination = c ∧
        (insertDownloadedInvoice now₁ (JsValue.str c) s).2.downloadedInvoicesDb =
          s.downloadedInvoicesDb ++ [row]) ∧
      (insertDownloadedInvoice now₂ (JsValue.str c)
          (insertDownloadedInvoice now₁ (JsValue.str c) s).2 =
        (Except.error "Datastore error. Something went wrong",
          (insertDownloadedInvoice now₁ (JsValue.str c) s).2)) ∧
      countCombination (insertDownloadedInvoice now₂ (JsValue.str c)
        (insertDownloadedInvoice now₁ (JsValue.str c) s).2).2.downloadedInvoicesDb c = 1) ∧
    insertEmailedInvoice now₁ JsValue.other s =
      (Except.error "Datastore error. Invalid entries", s) ∧
    insertDownloadedInvoice now₁ JsValue.other s =
      (Except.error "Datastore error. Invalid entries", s) := by
  refine ⟨?_, ?_, rfl, rfl⟩
  · intro h
    obtain ⟨d, hd⟩ : ∃ d : DeliveryRecord,
        d = { _id := Str.gen s.fresh, combination := c, stamp := now₁ } := ⟨_, rfl⟩
    have hc : d.combination = c := by rw [hd]
    have h1 := insertUnique_fresh d s.emailedInvoicesDb (by rw [hc]; exact h)
    have e1 : insertEmailedInvoice now₁ (JsValue.str c) s =
        (Except.ok d, { s with emailedInvoicesDb := s.emailedInvoicesDb ++ [d], fresh := s.fresh + 1 }) := by
      simp [insertEmailedInvoice, ← hd, h1]
    have h2 := insertUnique_present
      { _id := Str.gen (s.fresh + 1), combination := c, stamp := now₂ }
      (s.emailedInvoicesDb ++ [d]) d (by simp) hc
    have e2 : insertEmailedInvoice now₂ (JsValue.str c)
        (insertEmailedInvoice now₁ (JsValue.str c) s).2 =
        (Except.error "Datastore error. Something went wrong",
          (insertEmailedInvoice now₁ (JsValue.str c) s).2) := by
      rw [e1]; simp [insertEmailedInvoice, h2]
    refine ⟨⟨d, by rw [e1], hc, by rw [e1]⟩, e2, ?_⟩
    rw [e2, e1, ← hc]
    exact countCombination_append_fresh s.emailedInvoicesDb d (by rw [hc]; exact h)
  · intro h
    obtain ⟨d, hd⟩ : ∃ d : DeliveryRecord,
        d = { _id := Str.gen s.fresh, combination := c, stamp := now₁ } := ⟨_, rfl⟩
    have hc : d.combination = c := by rw [hd]
    have h1 := insertUnique_fresh d s.downloadedInvoicesDb (by rw [hc]; exact h)
    have e1 : insertDownloadedInvoice now₁ (JsValue.str c) s =
        (Except.ok d, { s with downloadedInvoicesDb := s.downloadedInvoicesDb ++ [d], fresh := s.fresh + 1 }) := by
      simp [insertDownloadedInvoice, ← hd, h1]
    have h2 := insertUnique_present
      { _id := Str.gen (s.fresh + 1), combination := c, stamp := now₂ }
      (s.downloadedInvoicesDb ++ [d]) d (by simp) hc
    have e2 : insertDownloadedInvoice now₂ (JsValue.str c)
        (insertDownloadedInvoice now₁ (JsValue.str c) s).2 =
        (Except.error "Datastore error. Something went wrong",
          (insertDownloadedInvoice now₁ (JsValue.str c) s).2) := by
      rw [e1]; simp [insertDownloadedInvoice, h2]
    refine ⟨⟨d, by rw [e1], hc, by rw [e1]⟩, e2, ?_⟩
    rw [e2, e1, ← hc]
    exact countCombination_append_fresh s.downloadedInvoicesDb d (by rw [hc]; exact h)

/-- Instance of C11: a new combination is marked emailed twice. -/
theorem insert_delivery_twice_witness :
    countCombination (insertEmailedInvoice 8 (JsValue.str "A - feb.pdf")
      (insertEmailedInvoice 7 (JsValue.str "A - feb.pdf") exDelivery).2).2.emailedInvoicesDb
      "A - feb.pdf" = 1 :=
  ((insert_delivery_twice 7 8 "A - feb.pdf" exDelivery).1 (by decide)).2.2

theorem secretOrExisting_falsy (v : Option String) (existing : Str) (r : Repository)
    (h : truthyText v = false) : secretOrExisting v existing r = (existing, r) := by
  cases v with
  | none => rfl
  | some p =>
    have hp : p = "" := by simpa [truthyText] using h
    simp [secretOrExisting, hp]

theorem secretOrExisting_some (p : String) (existing : Str) (r : Repository) (h : p ≠ "") :
    secretOrExisting (some p) existing r =
      (Str.gen r.fresh,
        { r with fresh := r.fresh + 1, vault := assocSet r.vault (Str.gen r.fresh) p }) := by
  simp [secretOrExisting, h, createSecret]

theorem find?_updateFirst_const (id : Str) (u : Website) (l : List Website)
    (h : (l.find? (fun d => decide (d._id = id))).isSome = true) (hu : u._id = id) :
    (updateFirst (fun d => decide (d._id = id)) (fun _ => u) l).find?
      (fun d => decide (d._id = id)) = some u := by
  induction l with
  | nil => simp at h
  | cons x rest ih =>
    by_cases hx : x._id = id
    · simp [updateFirst, hx, hu]
    · simp only [List.find?_cons, hx, decide_False] at h
      simp [updateFirst, hx, ih h]

theorem updateWebsite_unfold (website : WebsiteInput) (r : Repository) (id : Str)
    (existing : Website) (hid : website._id = some id) (ht : id.truthy = true)
    (hget : getWebsiteById r id = some existing) :
    updateWebsite website r =
      (Except.ok
        { existing with
          name := orElse website.name existing.name
          url := orElse website.url existing.url
          username := (secretOrExisting website.username existing.username r).1
          password := (secretOrExisting website.password existing.password
            (secretOrExisting website.username existing.username r).2).1
          accountId := (secretOrExisting website.accountId existing.accountId
            (secretOrExisting website.password existing.password
              (secretOrExisting website.username existing.username r).2).2).1
          businessId := (secretOrExisting website.businessId existing.businessId
            (secretOrExisting website.accountId existing.accountId
              (secretOrExisting website.password existing.password
                (secretOrExisting website.username existing.username r).2).2).2).1
          secured := true },
        { (secretOrExisting website.businessId existing.businessId
            (secretOrExisting website.accountId existing.accountId
              (secretOrExisting website.password existing.password
                (secretOrExisting website.username existing.username r).2).2).2).2 with
          websiteDb := updateFirst (fun d => decide (d._id = id))
            (fun _ =>
              { existing with
                name := orElse website.name existing.name
                url := orElse website.url existing.url
                username := (secretOrExisting website.username existing.username r).1
                password := (secretOrExisting website.password existing.password
                  (secretOrExisting website.username existing.username r).2).1
                accountId := (secretOrExisting website.accountId existing.accountId
                  (secretOrExisting website.password existing.password
                    (secretOrExisting website.username existing.username r).2).2).1
                businessId := (secretOrExisting website.businessId existing.businessId
                  (secretOrExisting website.accountId existing.accountId
                    (secretOrExisting website.password existing.password
                      (secretOrExisting website.username existing.username r).2).2).2).1
                secured := true })
            (secretOrExisting website.businessId existing.businessId
              (secretOrExisting website.accountId existing.accountId
                (secretOrExisting website.password existing.password
                  (secretOrExisting website.username existing.username r).2).2).2).2.websiteDb }) := by
  simp only [updateWebsite, hid, ht, hget, not_true_eq_false, if_false]

theorem secretOrExisting_websiteDb (v : Option String) (existing : Str) (r : Repository) :
    (secretOrExisting v existing r).2.websiteDb = r.websiteDb := by
  rcases truthyText_cases v with ⟨p, rfl, hp⟩ | h
  · simp [secretOrExisting_some, hp]
  · simp [secretOrExisting_falsy, h]

theorem updateWebsite_spec (website : WebsiteInput) (r : Repository) (id : Str)
    (existing : Website) (hid : website._id = some id) (ht : id.truthy = true)
    (hget : getWebsiteById r id = some existing) :
    ∃ updated, (updateWebsite website r).1 = Except.ok updated ∧
      updated._id = existing._id ∧ existing._id = id ∧
      UpdatedField r (updateWebsite website r).2 website.username existing.username
        updated.username ∧
      UpdatedField r (updateWebsite website r).2 website.password existing.password
        updated.password ∧
      UpdatedField r (updateWebsite website r).2 website.accountId existing.accountId
        updated.accountId ∧
      UpdatedField r (updateWebsite website r).2 website.businessId existing.businessId
        updated.businessId ∧
      getWebsiteById (updateWebsite website r).2 id = some updated ∧
      updated.secured = true := by
  have hex : existing._id = id := by
    have := List.find?_some hget
    simpa using this
  rw [updateWebsite_unfold website r id existing hid ht hget]
  refine ⟨_, rfl, rfl, hex, ?_, ?_, ?_, ?_, ?_, rfl⟩
  on_goal 5 =>
    simp only [getWebsiteById]
    refine find?_updateFirst_const id _ _ ?_ hex
    simp only [secretOrExisting_websiteDb]
    change (getWebsiteById r id).isSome = true
    rw [hget]; rfl
  all_goals
    obtain ⟨wid, name, url, u, p, a, b⟩ := website
    rcases truthyText_cases u with ⟨pu, rfl, hpu⟩ | htu <;>
    rcases truthyText_cases p with ⟨pp, rfl, hpp⟩ | htp <;>
    rcases truthyText_cases a with ⟨pa, rfl, hpa⟩ | hta <;>
    rcases truthyText_cases b with ⟨pb, rfl, hpb⟩ | htb <;>
    simp +arith [UpdatedField, getSecret, *, assocGet_assocSet, secretOrExisting_some,
      secretOrExisting_falsy, truthyText_some]

/-- C16: for a stored account and an `updateWebsite` input with its `_id`, the
call returns the updated record, which is then the stored record with that
`_id`; its `_id` is unchanged; each of username, password, accountId and
businessId that is absent or empty in the input keeps exactly the value the
stored record held, and each one that is present is replaced by an identifier
drawn during the call under which the keychain holds the new plaintext. -/
theorem updateWebsite_keeps_omitted (website : WebsiteInput) (r : Repository) (id : Str)
    (existing : Website) (hid : website._id = some id) (ht : id.truthy = true)
    (hget : getWebsiteById r id = some existing) :
    ∃ updated, (updateWebsite website r).1 = Except.ok updated ∧
      updated._id = existing._id ∧ existing._id = id ∧
      UpdatedField r (updateWebsite website r).2 website.username existing.username
        updated.username ∧
      UpdatedField r (updateWebsite website r).2 website.password existing.password
        updated.password ∧
      UpdatedField r (updateWebsite website r).2 website.accountId existing.accountId
        updated.accountId ∧
      UpdatedField r (updateWebsite website r).2 website.businessId existing.businessId
        updated.businessId ∧
      getWebsiteById (updateWebsite website r).2 id = some updated ∧
      updated.secured = true :=
  updateWebsite_spec website r id existing hid ht hget

/-- Instance of C16: the password of the account of `exRepoUser` is changed, the
user name is omitted. -/
theorem updateWebsite_keeps_omitted_witness :
    ∃ updated,
      (updateWebsite { exInput "" "" with _id := some (Str.gen 2), password := some "p2" }
        exRepoUser).1 = Except.ok updated ∧ updated.username = Str.gen 0 :=
  have h := updateWebsite_keeps_omitted
    { exInput "" "" with _id := some (Str.gen 2), password := some "p2" } exRepoUser (Str.gen 2)
    (prepareWebsite exInputUser Repository.empty).1 rfl rfl (by decide)
  ⟨h.choose, h.choose_spec.1, h.choose_spec.2.2.2.1⟩

theorem secretOrEmpty_websiteDb (v : Option String) (r : Repository) :
    (secretOrEmpty v r).2.websiteDb = r.websiteDb := by
  rcases truthyText_cases v with ⟨p, rfl, hp⟩ | h
  · simp [secretOrEmpty_some, hp]
  · simp [secretOrEmpty_falsy, h]

theorem getMatching_single (docs : List Website) (d : Website)
    (h : ∀ x ∈ docs, x._id ≠ d._id) :
    getMatching (docs ++ [d]) [d._id] = [d] := by
  have hf : (docs ++ [d]).filter (fun x => decide (x._id = d._id)) = [d] := by
    rw [List.filter_append]
    have : docs.filter (fun x => decide (x._id = d._id)) = [] := by
      rw [List.filter_eq_nil_iff]
      intro x hx
      simpa using h x hx
    simp [this]
  have hs : ownPropertyOrder [(d._id, d)] = [(d._id, d)] := by
    unfold ownPropertyOrder
    cases hi : arrayIndex d._id <;> simp [hi]
  unfold getMatching
  simp only [List.foldl_cons, List.foldl_nil, hf]
  simp [assocSet, hs]

theorem deref_storedAsSecret (before after : Repository) (input : Option String) (stored : Str)
    (h : StoredAsSecret before after input stored) : deref after true stored = readBack input := by
  unfold StoredAsSecret at h
  unfold deref readBack
  by_cases hi : truthyText input = true
  · simp only [hi, if_true] at h ⊢
    obtain ⟨n, e, -, -, hs⟩ := h
    rw [hs, e]
    simp [Str.truthy]
  · simp only [hi, Bool.false_eq_true, if_false] at h ⊢
    subst h
    simp [Str.truthy]

theorem isSome_storedAsSecret (before after : Repository) (input : Option String) (stored : Str)
    (h : StoredAsSecret before after input stored) (ht : stored.truthy = true) :
    (getSecret after stored).isSome = true := by
  unfold StoredAsSecret at h
  by_cases hi : truthyText input = true
  · simp only [hi, if_true] at h
    obtain ⟨n, -, -, -, hs⟩ := h
    rw [hs]
    cases input with
    | none => simp [truthyText] at hi
    | some p => rfl
  · simp only [hi, Bool.false_eq_true, if_false] at h
    subst h
    simp [Str.truthy] at ht

/-- C17: when `createWebsite(w)` returns the record `r`, `getWebsitesByIds([r._id])`
returns exactly one account: its username, password, accountId and businessId
are the plaintext values given in `w`, the empty string for a credential absent
from `w`, and its `_id`, name, url, secured and failure flags are those of
`r`. -/
theorem getWebsitesByIds_reads_back (website : WebsiteInput) (r : Repository) (doc : Website)
    (hok : (createWebsite website r).1 = Except.ok doc) :
    getWebsitesByIds (createWebsite website r).2 [doc._id] =
      [{ _id := doc._id
         name := doc.name
         url := doc.url
         username := readBack website.username
         password := readBack website.password
         accountId := readBack website.accountId
         businessId := readBack website.businessId
         secured := doc.secured
         authFailed := doc.authFailed
         fetchFailed := doc.fetchFailed }] := by
  obtain ⟨hdb, hfresh, hsec, -, -, hu, hp, ha, hb, -⟩ :=
    createWebsite_returned website r doc hok
  have hm := getMatching_single r.websiteDb doc hfresh
  simp only [getWebsitesByIds, findByIds, hdb, hm]
  simp [derefWebsite, hsec, deref_storedAsSecret _ _ _ _ hu, deref_storedAsSecret _ _ _ _ hp,
    deref_storedAsSecret _ _ _ _ ha, deref_storedAsSecret _ _ _ _ hb]

/-- Instance of C17: the account of `exInputUser` is read back with its
password. -/
theorem getWebsitesByIds_reads_back_witness :
    (createWebsite exInputUser Repository.empty).1 =
        Except.ok (prepareWebsite exInputUser Repository.empty).1 ∧
      (getWebsitesByIds (createWebsite exInputUser Repository.empty).2
        [(prepareWebsite exInputUser Repository.empty).1._id]).map Account.password =
        [some (Str.text "p1")] :=
  ⟨rfl, congrArg (List.map Account.password)
    (getWebsitesByIds_reads_back exInputUser Repository.empty _ rfl)⟩

theorem secretOrExisting_isSome (v : Option String) (existing : Str) (r : Repository) (k : Str)
    (h : (getSecret r k).isSome = true) :
    (getSecret (secretOrExisting v existing r).2 k).isSome = true := by
  rcases truthyText_cases v with ⟨p, rfl, hp⟩ | hv
  · simp only [secretOrExisting_some _ _ _ hp, getSecret, assocGet_assocSet]
    by_cases hk : Str.gen r.fresh = k
    · simp [hk]
    · simpa [hk, getSecret] using h
  · simpa [secretOrExisting_falsy _ _ _ hv] using h

theorem updateWebsite_isSome (website : WebsiteInput) (r : Repository) (id : Str)
    (existing : Website) (hid : website._id = some id) (ht : id.truthy = true)
    (hget : getWebsiteById r id = some existing) (k : Str)
    (h : (getSecret r k).isSome = true) :
    (getSecret (updateWebsite website r).2 k).isSome = true := by
  rw [updateWebsite_unfold website r id existing hid ht hget]
  simp only [getSecret]
  exact secretOrExisting_isSome _ _ _ k (secretOrExisting_isSome _ _ _ k
    (secretOrExisting_isSome _ _ _ k (secretOrExisting_isSome _ _ _ k h)))

theorem updatedField_resolves (r r' : Repository) (input : Option String)
    (existing stored : Str) (h : UpdatedField r r' input existing stored)
    (hmono : (getSecret r existing).isSome = true → (getSecret r' existing).isSome = true)
    (hsrc : existing.truthy = true →
      (getSecret r existing).isSome = true ∨ truthyText input = true)
    (ht : stored.truthy = true) : (getSecret r' stored).isSome = true := by
  unfold UpdatedField at h
  by_cases hi : truthyText input = true
  · simp only [hi, if_true] at h
    obtain ⟨n, -, -, -, hs⟩ := h
    rw [hs]
    cases input with
    | none => simp [truthyText] at hi
    | some p => rfl
  · simp only [hi, if_false] at h
    subst h
    rcases hsrc ht with h1 | h1
    · exact hmono h1
    · exact absurd h1 hi

/-- C18, as stated, fails: a record stored unsecured with the raw user name
`ann` and a raw password, updated with a new password only, is stored with
`secured = true` while its user name is still the raw value, under which the
keychain holds nothing. -/
theorem partial_update_of_raw_record :
    getWebsiteById exRepoRaw (Str.gen 1) ≠ none ∧
    (getWebsiteById (updateWebsite exUpdatePassword exRepoRaw).2 (Str.gen 1)).map
      (fun d => (d.secured, d.username)) = some (true, Str.text "ann") ∧
    getSecret (updateWebsite exUpdatePassword exRepoRaw).2 (Str.text "ann") = none ∧
    (getWebsiteById (updateWebsite exUpdatePassword exRepoRaw).2 (Str.gen 1)).map
      (fun d => decide (Resolves (updateWebsite exUpdatePassword exRepoRaw).2 d)) =
      some false := by
  decide

/-- C18, amended: when `createWebsite` returns a record, that record is stored,
has `secured = true` and each of its non-empty credential fields is a key of
the keychain; after a successful `updateWebsite` the stored record has
`secured = true`, and each of its non-empty credential fields is a key of the
keychain provided that the non-empty credential fields of the record were keys
of the keychain before the call or that the input supplies every non-empty
credential field of the record. -/
theorem stored_record_secured_and_resolving (website : WebsiteInput) (r : Repository) :
    (∀ doc, (createWebsite website r).1 = Except.ok doc →
      doc.secured = true ∧ Resolves (createWebsite website r).2 doc ∧
      getWebsiteById (createWebsite website r).2 doc._id = some doc) ∧
    (∀ id existing, website._id = some id → id.truthy = true →
      getWebsiteById r id = some existing →
      ∃ updated, (updateWebsite website r).1 = Except.ok updated ∧
        getWebsiteById (updateWebsite website r).2 id = some updated ∧
        updated.secured = true ∧
        (Resolves r existing ∨ SuppliesAll website existing →
          Resolves (updateWebsite website r).2 updated)) := by
  refine ⟨?_, ?_⟩
  · intro doc hok
    obtain ⟨hdb, hfresh, hsec, -, -, hu, hp, ha, hb, -⟩ :=
      createWebsite_returned website r doc hok
    refine ⟨hsec, ?_, ?_⟩
    · intro f hf htr
      simp only [Website.credentials, List.mem_cons, List.mem_singleton, List.not_mem_nil,
        or_false] at hf
      rcases hf with rfl | rfl | rfl | rfl
      · exact isSome_storedAsSecret _ _ _ _ hu htr
      · exact isSome_storedAsSecret _ _ _ _ hp htr
      · exact isSome_storedAsSecret _ _ _ _ ha htr
      · exact isSome_storedAsSecret _ _ _ _ hb htr
    · rw [getWebsiteById, hdb, List.find?_append]
      have hnone : r.websiteDb.find? (fun d => decide (d._id = doc._id)) = none := by
        rw [List.find?_eq_none]
        intro d hd
        simpa using hfresh d hd
      simp [hnone]
  · intro id existing hid ht hget
    obtain ⟨updated, h1, -, -, fu, fp, fa, fb, hstored, hsec⟩ :=
      updateWebsite_spec website r id existing hid ht hget
    refine ⟨updated, h1, hstored, hsec, ?_⟩
    intro hsrc f hf htr
    have hmono := updateWebsite_isSome website r id existing hid ht hget
    simp only [Website.credentials, List.mem_cons, List.mem_singleton, List.not_mem_nil,
      or_false] at hf
    have hres : ∀ g ∈ existing.credentials, g.truthy = true →
        Resolves r existing → (getSecret r g).isSome = true := fun g hg hgt hr => hr g hg hgt
    rcases hf with rfl | rfl | rfl | rfl
    · refine updatedField_resolves r _ _ _ _ fu (hmono _) ?_ htr
      intro he
      rcases hsrc with h | h
      · exact Or.inl (hres _ (by simp [Website.credentials]) he h)
      · exact Or.inr (h.1 he)
    · refine updatedField_resolves r _ _ _ _ fp (hmono _) ?_ htr
      intro he
      rcases hsrc with h | h
      · exact Or.inl (hres _ (by simp [Website.credentials]) he h)
      · exact Or.inr (h.2.1 he)
    · refine updatedField_resolves r _ _ _ _ fa (hmono _) ?_ htr
      intro he
      rcases hsrc with h | h
      · exact Or.inl (hres _ (by simp [Website.credentials]) he h)
      · exact Or.inr (h.2.2.1 he)
    · refine updatedField_resolves r _ _ _ _ fb (hmono _) ?_ htr
      intro he
      rcases hsrc with h | h
      · exact Or.inl (hres _ (by simp [Website.credentials]) he h)
      · exact Or.inr (h.2.2.2 he)

/-- Instance of C18, amended: the password of the secured account of
`exRepoUser` is changed. -/
theorem stored_record_secured_and_resolving_witness :
    ∃ updated,
      (updateWebsite { exInput "" "" with _id := some (Str.gen 2), password := some "p2" }
        exRepoUser).1 = Except.ok updated ∧
      Resolves (updateWebsite
        { exInput "" "" with _id := some (Str.gen 2), password := some "p2" } exRepoUser).2
        updated :=
  have h := (stored_record_secured_and_resolving
    { exInput "" "" with _id := some (Str.gen 2), password := some "p2" } exRepoUser).2
    (Str.gen 2) (prepareWebsite exInputUser Repository.empty).1 rfl rfl (by decide)
  ⟨h.choose, h.choose_spec.1, h.choose_spec.2.2.2 (Or.inl (by decide))⟩

/-! ## Further instances -/

/-- Instance of C13: with the message `authenticationFailed` the change made to
the record of the account is setting `authFailed`. -/
theorem handleFetchError_sets_one_flag_witness :
    markFailed "authenticationFailed" (exSite 1 "A" "ok" false) =
      { exSite 1 "A" "ok" false with authFailed := true } :=
  ((handleFetchError_sets_one_flag (exAccount 1 "A" "ok" false) "authenticationFailed"
    exOne).2.2.1 (exSite 1 "A" "ok" false)).1 rfl

/-- Instance of C19: a document without date is persisted with the date `null`,
and its download is registered under the `_id` of the row. -/
theorem handleFetchResults_persists_and_registers_witness :
    List.Forall₂ (ResultFor exEnv) [exDocNoDate]
        (handleFetchResults exEnv [exDocNoDate] exOne).1 ∧
      (rowsOf (handleFetchResults exEnv [exDocNoDate] exOne).1).map Invoice.date = [none] ∧
      (handleFetchResults exEnv [exDocNoDate] exOne).2.availableDownloads =
        [(exDocNoDate.download, Str.gen 100)] :=
  ⟨(handleFetchResults_persists_and_registers exEnv [exDocNoDate] exOne).1, by decide,
    by decide⟩

/-! ## Properties of saving and mailing -/

/-- C21 (as the code behaves): for an id under which no invoice row is stored,
`downloadInvoice` and `getInvoicePathForMail` raise a `TypeError` (they read
`invoice.error` on `null`), whether or not an artifact is registered under the
id; they do not resolve with a not-found object. -/
theorem downloadInvoice_raises_without_row (host : Host) (st : MainProcess) (id : Str)
    (lang : String) (h : getInvoiceById st.repo id = none) :
    downloadInvoice host st id lang = Except.error typeError ∧
      getInvoicePathForMail st id = Except.error typeError := by
  simp [downloadInvoice, getInvoicePathForMail, h]

/-- Instance of C21: after a fetch session that stored one row, the id
`missing` has neither a row nor an artifact, and both functions raise. -/
theorem downloadInvoice_raises_without_row_witness :
    getInvoiceById exAfterFirst.repo (Str.text "missing") = none ∧
      exAfterFirst.availableDownloads.find? (fun item => decide (item.2 = Str.text "missing"))
        = none ∧
      downloadInvoice exHost exAfterFirst (Str.text "missing") "nl" = Except.error typeError ∧
      getInvoicePathForMail exAfterFirst (Str.text "missing") = Except.error typeError :=
  ⟨by decide, by decide,
    downloadInvoice_raises_without_row exHost exAfterFirst (Str.text "missing") "nl" (by decide)⟩

/-- With a stored row, both functions answer from the artifact registered under
the id itself: not found when there is none, otherwise the first artifact
registered under it. -/
theorem downloadInvoice_with_row (host : Host) (st : MainProcess) (id : Str) (lang : String)
    (invoice : Invoice) (h : getInvoiceById st.repo id = some invoice) :
    (st.availableDownloads.find? (fun item => decide (item.2 = id)) = none ∧
      downloadInvoice host st id lang = Except.ok (Reply.error "downloadIsNotAvailable") ∧
      getInvoicePathForMail st id = Except.ok (Reply.error "downloadIsNotAvailable")) ∨
    ∃ download, (download, id) ∈ st.availableDownloads ∧
      (downloadInvoice host st id lang =
          (getDownloadPath host st.repo invoice lang).map
            (fun downloadPath => Reply.ok { download := download, downloadPath := downloadPath })) ∧
      ∃ attachment, getInvoicePathForMail st id = Except.ok (Reply.ok attachment) ∧
        attachment.filename = mailFilename invoice ∧
        (attachment.content = download.buffer) ∧
        (attachment.path = if download.buffer.isSome then none else some download) := by
  cases hf : st.availableDownloads.find? (fun item => decide (item.2 = id)) with
  | none =>
    left
    simp [downloadInvoice, getInvoicePathForMail, h, hf]
  | some item =>
    right
    have hmem := List.mem_of_find?_eq_some hf
    have hid : item.2 = id := by simpa using List.find?_some hf
    obtain ⟨download, id'⟩ := item
    simp only at hid
    subst hid
    refine ⟨download, hmem, ?_, ?_⟩
    · simp only [downloadInvoice, h, hf]
      cases getDownloadPath host st.repo invoice lang <;> rfl
    · simp only [getInvoicePathForMail, h, hf]
      cases hb : download.buffer with
      | none => exact ⟨_, rfl, rfl, by simp, by simp⟩
      | some b => exact ⟨_, rfl, rfl, by simp, by simp⟩

theorem splitFirst_eq (pattern : List Char) :
    ∀ (s before after : List Char), splitFirst pattern s = some (before, after) →
      s = before ++ pattern ++ after := by
  intro s
  induction s with
  | nil =>
    intro before after h
    simp only [splitFirst] at h
    split at h
    · rename_i hp
      simp only [Option.some.injEq, Prod.mk.injEq] at h
      simp [← h.1, ← h.2, hp]
    · cases h
  | cons c rest ih =>
    intro before after h
    simp only [splitFirst] at h
    split at h
    · rename_i hp
      simp only [Option.some.injEq, Prod.mk.injEq] at h
      obtain ⟨t, ht⟩ := List.isPrefixOf_iff_prefix.1 hp
      rw [← h.1, ← h.2, ← ht]
      simp
    · cases hr : splitFirst pattern rest with
      | none => simp [hr] at h
      | some found =>
        simp only [hr, Option.map_some', Option.some.injEq, Prod.mk.injEq] at h
        have := ih found.1 found.2 (by rw [hr])
        rw [← h.1, ← h.2, this]
        simp

theorem getSubstitution_literal (matched before after : List Char) :
    ∀ r : List Char, '$' ∉ r → getSubstitution matched before after r = r
  | [], _ => rfl
  | [_], _ => rfl
  | c :: d :: rest, h => by
    have hc : c ≠ '$' := fun e => h (by simp [e])
    have ih := getSubstitution_literal matched before after (d :: rest)
      (fun hm => h (List.mem_cons_of_mem _ hm))
    rw [getSubstitution, if_neg hc, ih]

theorem jsReplace_eq_replaceFirst (s pattern value : String) (h : NoDollar value) :
    jsReplace s pattern value = replaceFirst s pattern value := by
  unfold jsReplace replaceFirst
  cases splitFirst pattern.data s.data with
  | none => rfl
  | some found =>
    obtain ⟨before, after⟩ := found
    simp only
    rw [getSubstitution_literal _ _ _ _ h]

theorem noDollar_removed (s pattern : String) (h : NoDollar s) :
    NoDollar (jsReplace s pattern "") := by
  unfold jsReplace
  cases hs : splitFirst pattern.data s.data with
  | none => exact h
  | some found =>
    obtain ⟨before, after⟩ := found
    have e := splitFirst_eq _ _ _ _ hs
    unfold NoDollar at h ⊢
    rw [e] at h
    simp only [List.mem_append, not_or] at h
    have : getSubstitution pattern.data before after ("" : String).data = [] := rfl
    simp only [this, List.append_nil, List.mem_append, not_or]
    exact ⟨h.1.1, h.2⟩
/-- The occurrence found by `splitFirst` is the first one: no occurrence of
the pattern starts earlier in the text. -/
theorem splitFirst_least (pattern : List Char) :
    ∀ (s before after : List Char), splitFirst pattern s = some (before, after) →
      ∀ (b a : List Char), s = b ++ pattern ++ a → before.length ≤ b.length := by
  intro s
  induction s with
  | nil =>
    intro before after h b a _
    simp only [splitFirst] at h
    split at h
    · cases h; exact Nat.zero_le _
    · cases h
  | cons c rest ih =>
    intro before after h b a hs
    simp only [splitFirst] at h
    split at h
    · cases h; exact Nat.zero_le _
    · rename_i hpre
      cases hr : splitFirst pattern rest with
      | none => rw [hr] at h; cases h
      | some found =>
        rw [hr] at h
        cases h
        cases b with
        | nil =>
          exfalso
          apply hpre
          rw [hs]
          simp
        | cons d b2 =>
          simp only [List.cons_append, List.cons.injEq] at hs
          have := ih found.1 found.2 hr b2 a hs.2
          simp only [List.length_cons]
          omega

/-- C29: `getDownloadPath` does not insert every value literally, and it is not
the trailing extension that it removes from the file name.  With the format
`[description]` and the description `$&` the name is `[description]` (in the
replacement text of `replace`, `$&` stands for the matched text), where literal
insertion gives `$&`.  With the format `[suggested-filename]` the file name
`jan.pdf.zip` gives `jan.zip` and the file name `jan.pdf.zip.pdf` gives
`jan.zip.pdf`: the first `.pdf` is removed, not the one the name ends with,
where the file name without its trailing extension is `jan.pdf.zip` in both
cases.  `getInvoicePathForMail` tests the end of the same file name. -/
theorem getDownloadPath_not_literal :
    getDownloadPath exHost (exRepoFormat "[description]") (exInvoice "$&" "jan.pdf") "nl"
        = Except.ok "/home/ann/Documents/VerzamelSysteem/[description].pdf" ∧
      literalPath exHost "[description]" (exInvoice "$&" "jan.pdf") "nl"
        = "/home/ann/Documents/VerzamelSysteem/$&.pdf" ∧
      getDownloadPath exHost (exRepoFormat "[suggested-filename]")
          (exInvoice "March" "jan.pdf.zip") "nl"
        = Except.ok "/home/ann/Documents/VerzamelSysteem/jan.zip.pdf" ∧
      literalPath exHost "[suggested-filename]" (exInvoice "March" "jan.pdf.zip") "nl"
        = "/home/ann/Documents/VerzamelSysteem/jan.pdf.zip.pdf" ∧
      getDownloadPath exHost (exRepoFormat "[suggested-filename]")
          (exInvoice "March" "jan.pdf.zip.pdf") "nl"
        = Except.ok "/home/ann/Documents/VerzamelSysteem/jan.zip.pdf.pdf" ∧
      literalPath exHost "[suggested-filename]" (exInvoice "March" "jan.pdf.zip.pdf") "nl"
        = "/home/ann/Documents/VerzamelSysteem/jan.pdf.zip.pdf" ∧
      mailFilename (exInvoice "March" "jan.pdf.zip") = "Books - jan.pdf.zip.pdf" ∧
      mailFilename (exInvoice "March" "jan.pdf.zip.pdf") = "Books - jan.pdf.zip.pdf" := by
  refine ⟨?_, ?_, ?_, ?_, ?_, ?_, ?_, ?_⟩ <;> first | decide | rfl

theorem splitFirst_isSome (pattern : List Char) :
    ∀ (t u : List Char), (splitFirst pattern (t ++ pattern ++ u)).isSome = true := by
  intro t
  induction t with
  | nil =>
    intro u
    cases h : ([] ++ pattern ++ u : List Char) with
    | nil =>
      have hp : pattern = [] := by
        simp only [List.nil_append, List.append_eq_nil] at h
        exact h.1
      simp [splitFirst, hp]
    | cons c rest =>
      have hpre : pattern.isPrefixOf (c :: rest) = true := by
        rw [← h]
        exact List.isPrefixOf_iff_prefix.2 ⟨u, by simp⟩
      simp [splitFirst, hpre]
  | cons c t ih =>
    intro u
    simp only [List.cons_append, splitFirst]
    split
    · rfl
    · have := ih u
      simp only [List.append_assoc] at this
      simp [Option.isSome_map, this]

theorem replaceFirst_trailing (fileName : String) (h : TrailingOnly fileName) :
    replaceFirst fileName ".pdf" "" = withoutTrailingPdf fileName := by
  unfold replaceFirst withoutTrailingPdf jsEndsWith
  cases hs : splitFirst ".pdf".data fileName.data with
  | none =>
    have hn : ¬ (".pdf".data <:+ fileName.data) := by
      rintro ⟨t, ht⟩
      have := splitFirst_isSome ".pdf".data t []
      rw [List.append_nil, ht, hs] at this
      cases this
    have hb : (".pdf".data.isSuffixOf fileName.data) = false := by
      cases hb : ".pdf".data.isSuffixOf fileName.data with
      | false => rfl
      | true => exact absurd (List.isSuffixOf_iff_suffix.1 hb) hn
    simp [hb]
  | some found =>
    obtain ⟨before, after⟩ := found
    have ha : after = [] := h (before, after) (by rw [hs]; rfl)
    subst ha
    have e := splitFirst_eq _ _ _ _ hs
    have hb : (".pdf".data.isSuffixOf fileName.data) = true :=
      List.isSuffixOf_iff_suffix.2 ⟨before, by rw [e]; simp⟩
    have hl : ".pdf".data.length = 4 := rfl
    simp only [hb, if_true]
    congr 1
    rw [e]
    simp [hl]

/-- Where `getDownloadPath` does agree with literal insertion: when the stored
settings have a format, neither the file name, the description, the normalised
date nor the account name holds a dollar sign, and `.pdf` occurs in the file
name at most as its trailing extension, the path returned is
`<documents>/VerzamelSysteem/<name>.pdf` where `<name>` is obtained from the
format by replacing, in this order and each time in the result of the step
before, the first occurrence of `[suggested-filename]` by the file name without
its trailing `.pdf`, of `[description]` by the description, of `[date]` by the
normalised date (the empty string for an invoice without date) and of
`[website-name]` by the account name, each inserted literally. -/
theorem getDownloadPath_replaces_first_occurrences (host : Host) (r : Repository)
    (settings : Settings) (format : String) (invoice : Invoice) (lang : String)
    (hs : getSettings r = some settings) (hf : settings.format = some format)
    (h1 : NoDollar invoice.fileName) (h2 : NoDollar invoice.description)
    (h3 : NoDollar (dateText host invoice lang)) (h4 : NoDollar invoice.wsName)
    (ht : TrailingOnly invoice.fileName) :
    getDownloadPath host r invoice lang = Except.ok (literalPath host format invoice lang) := by
  have h0 : NoDollar "" := by decide
  have h1' : NoDollar (jsReplace invoice.fileName ".pdf" "") := noDollar_removed _ _ h1
  unfold getDownloadPath literalPath
  simp only [hs, hf]
  rw [jsReplace_eq_replaceFirst _ _ _ h4]
  unfold dateText at h3 ⊢
  rw [jsReplace_eq_replaceFirst _ _ _ h3, jsReplace_eq_replaceFirst _ _ _ h2,
    jsReplace_eq_replaceFirst _ _ _ h1', jsReplace_eq_replaceFirst _ _ _ h0,
    replaceFirst_trailing _ ht]

/-- The format `[date] [website-name] [suggested-filename]` for the invoice
`jan.pdf` of account `Books`. -/
theorem getDownloadPath_replaces_first_occurrences_witness :
    NoDollar (exInvoice "March" "jan.pdf").fileName ∧
      TrailingOnly (exInvoice "March" "jan.pdf").fileName ∧
      getDownloadPath exHost (exRepoFormat "[date] [website-name] [suggested-filename]")
          (exInvoice "March" "jan.pdf") "nl"
        = Except.ok "/home/ann/Documents/VerzamelSysteem/2024-03-01 Books jan.pdf" :=
  ⟨by decide, by decide,
    (getDownloadPath_replaces_first_occurrences exHost
      (exRepoFormat "[date] [website-name] [suggested-filename]") _
      "[date] [website-name] [suggested-filename]" (exInvoice "March" "jan.pdf") "nl" rfl rfl
      (by decide) (by decide) (by decide) (by decide) (by decide)).trans (by rfl)⟩

/-! ## Properties of the sequential runner -/

theorem runLoopFrom_eq {α : Type} (fs : List (MainProcess → Run α)) :
    ∀ (results : List α) (st : MainProcess),
      runLoopFrom fs results st =
        match runSequentially fs st with
        | Run.suspended s => Run.suspended s
        | Run.returned values s => Run.returned (results ++ values) s := by
  induction fs with
  | nil => intro results st; simp [runLoopFrom, runSequentially]
  | cons f rest ih =>
    intro results st
    simp only [runLoopFrom, runSequentially]
    cases f st with
    | suspended s1 => rfl
    | returned value s1 =>
      simp only
      rw [ih]
      cases runSequentially rest s1 with
      | suspended s2 => rfl
      | returned values s2 => simp

theorem runSequentially_chain {α : Type} (fs : List (MainProcess → Run α)) :
    ∀ st : MainProcess, (∀ f ∈ fs, Completes f) →
      ∃ (values : List α) (states : List MainProcess),
        runSequentially fs st = Run.returned values (states.getLastD st) ∧
        values.length = fs.length ∧ states.length = fs.length + 1 ∧ states[0]? = some st ∧
        ∀ i f, fs[i]? = some f →
          ∃ s value s1, states[i]? = some s ∧ values[i]? = some value ∧
            states[i + 1]? = some s1 ∧ f s = Run.returned value s1 := by
  induction fs with
  | nil =>
    intro st _
    exact ⟨[], [st], rfl, rfl, rfl, rfl, by simp⟩
  | cons f rest ih =>
    intro st h
    obtain ⟨value, s1, e1⟩ := h f (List.mem_cons_self _ _) st
    obtain ⟨values, states, e, hv, hs, h0, hi⟩ :=
      ih s1 (fun g hg => h g (List.mem_cons_of_mem _ hg))
    refine ⟨value :: values, st :: states, ?_, by simp [hv], by simp [hs], by simp, ?_⟩
    · simp only [runSequentially, e1, e]
      cases states with
      | nil => simp at hs
      | cons s0 more => simp [List.getLastD]
    · intro i g hg
      cases i with
      | zero =>
        simp only [List.getElem?_cons_zero, Option.some.injEq] at hg
        subst hg
        exact ⟨st, value, s1, by simp, by simp, by simpa using h0, e1⟩
      | succ j =>
        simp only [List.getElem?_cons_succ] at hg ⊢
        exact hi j g hg

/-- C22: `runSequentially` equals the left-to-right loop over the functions, on
the empty list it returns the empty list in the unchanged state, and when every
function completes it returns a list of the same length: there are states
`states[0] = st, ..., states[n]` such that the i-th function runs from
`states[i]`, the state its predecessor returned in, returns the i-th value and
leaves `states[i + 1]`, the last of which is the state at the return. -/
theorem runSequentially_is_loop {α : Type} (fs : List (MainProcess → Run α))
    (st : MainProcess) :
    runSequentially fs st = runLoop fs st ∧
      runSequentially ([] : List (MainProcess → Run α)) st = Run.returned [] st ∧
      ((∀ f ∈ fs, Completes f) →
        ∃ (values : List α) (states : List MainProcess),
          runSequentially fs st = Run.returned values (states.getLastD st) ∧
          values.length = fs.length ∧ states.length = fs.length + 1 ∧ states[0]? = some st ∧
          ∀ i f, fs[i]? = some f →
            ∃ s value s1, states[i]? = some s ∧ values[i]? = some value ∧
              states[i + 1]? = some s1 ∧ f s = Run.returned value s1) := by
  refine ⟨?_, rfl, runSequentially_chain fs st⟩
  unfold runLoop
  rw [runLoopFrom_eq]
  cases runSequentially fs st with
  | suspended s => rfl
  | returned values s => simp

/-- Instance of C22: two functions that complete, run on a new process. -/
theorem runSequentially_is_loop_witness :
    (∀ f ∈ exThunks, Completes f) ∧
      ∃ (values : List Nat) (states : List MainProcess),
        runSequentially exThunks (MainProcess.init Repository.empty) =
          Run.returned values (states.getLastD (MainProcess.init Repository.empty)) ∧
        values.length = exThunks.length ∧ states.length = exThunks.length + 1 ∧
        states[0]? = some (MainProcess.init Repository.empty) ∧
        ∀ i f, exThunks[i]? = some f →
          ∃ s value s1, states[i]? = some s ∧ values[i]? = some value ∧
            states[i + 1]? = some s1 ∧ f s = Run.returned value s1 :=
  have h : ∀ f ∈ exThunks, Completes f := by
    intro f hf s
    simp only [exThunks, List.mem_cons, List.mem_singleton, List.not_mem_nil, or_false] at hf
    rcases hf with rfl | rfl <;> exact ⟨_, _, rfl⟩
  ⟨h, (runSequentially_is_loop exThunks (MainProcess.init Repository.empty)).2.2 h⟩

theorem sent_awaitCode (env : Env) (name : String) (id : Str) (q : Option String)
    (st : MainProcess) :
    (awaitCode env name id q st).state.sent = st.sent ++ [Event.on2FA name id q] := by
  unfold awaitCode
  simp only [get2FAInput, send]
  cases env.operator id with
  | none => simp [Run.state]
  | some code =>
    simp only [resolve2FAInput, assocGet_assocSet_same]
    split <;> simp [Run.state, (resolvePromise_fields _ _ _).2.2.2.2.1]

theorem sent_driveProvider (env : Env) (ws : Account) (provider : Script) (st : MainProcess) :
    SentAtMostRequest ws st (driveProvider env ws provider st).state := by
  unfold driveProvider
  split
  · split
    · exact Or.inl rfl
    · split
      · exact Or.inl rfl
      · split
        · have := sent_awaitCode env ws.name ws._id (some provider.securityQuestion) st
          split <;> rename_i h <;> rw [h] at this <;> exact Or.inr ⟨_, this⟩
        · have := sent_awaitCode env ws.name ws._id none st
          split <;> rename_i h <;> rw [h] at this <;> exact Or.inr ⟨_, this⟩
  · split <;> exact Or.inl rfl

theorem sent_settle (ws : Account) (pn : String) (o : Except String (List Document))
    (st : MainProcess) :
    ∃ mid, (settle ws pn o st).state.sent = st.sent ++ mid ∧ ∀ e ∈ mid, RunEvent ws e := by
  cases o with
  | ok r => exact ⟨[], by simp [settle, Run.state, logInfo], by simp⟩
  | error m =>
    refine ⟨[Event.onNotification m (some ws.name) "error"], ?_, ?_⟩
    · simp [settle, Run.state, logInfo, handleFetchError, send]
    · intro e he
      simp only [List.mem_singleton] at he
      exact Or.inr (Or.inl ⟨m, he⟩)

theorem sent_fetchInvoicesForWs (env : Env) (ws : Account) (filters : Filters)
    (st : MainProcess) :
    ∃ mid, (fetchInvoicesForWs env ws filters st).state.sent = st.sent ++ mid ∧
      ∀ e ∈ mid, RunEvent ws e := by
  unfold fetchInvoicesForWs
  split
  · obtain ⟨mid, e, h⟩ := sent_settle ws "" (Except.ok [])
      (send (Event.onNotification "websiteIsNotSupported" none "error") st)
    refine ⟨Event.onNotification "websiteIsNotSupported" none "error" :: mid, ?_, ?_⟩
    · rw [e]; simp [send]
    · intro x hx
      rcases List.mem_cons.1 hx with rfl | hx
      · exact Or.inr (Or.inr rfl)
      · exact h x hx
  · split
    · exact sent_settle _ _ _ _
    · dsimp only
      split
      · exact sent_settle _ _ _ _
      · rename_i provider _
        have h1 := sent_driveProvider env ws provider
          (logInfo (provider.name ++ " - " ++ ws.name) "Starting..." st)
        have h0 : (logInfo (provider.name ++ " - " ++ ws.name) "Starting..." st).sent = st.sent :=
          rfl
        split
        · rename_i s1 h
          rw [h] at h1
          rcases h1 with h1 | ⟨q, h1⟩
          · exact ⟨[], by simpa [Run.state, h0] using h1, by simp⟩
          · refine ⟨[Event.on2FA ws.name ws._id q], by simpa [Run.state, h0] using h1, ?_⟩
            intro e he
            simp only [List.mem_singleton] at he
            exact Or.inl ⟨q, he⟩
        · rename_i outcome s1 h
          rw [h] at h1
          obtain ⟨mid, e, hm⟩ := sent_settle ws (provider.name ++ " - " ++ ws.name) outcome s1
          rcases h1 with h1 | ⟨q, h1⟩
          · refine ⟨mid, ?_, hm⟩
            rw [e]
            simp only [Run.state] at h1
            rw [h1, h0]
          · refine ⟨Event.on2FA ws.name ws._id q :: mid, ?_, ?_⟩
            · rw [e]
              simp only [Run.state] at h1
              rw [h1, h0]
              simp
            · intro x hx
              rcases List.mem_cons.1 hx with rfl | hx
              · exact Or.inl ⟨q, rfl⟩
              · exact hm x hx

theorem sent_fetchTask (env : Env) (filters : Filters) (ws : Account) (st : MainProcess) :
    ∃ mid, (∀ e ∈ mid, RunEvent ws e) ∧
      match fetchTask env filters ws st with
      | Run.returned _ s1 => s1.sent = st.sent ++ loadingEvent ws :: (mid ++ [completedEvent ws])
      | Run.suspended s1 => s1.sent = st.sent ++ loadingEvent ws :: mid := by
  obtain ⟨mid, e, hm⟩ := sent_fetchInvoicesForWs env ws filters
    (send (Event.onFetchWsChange "loadingWebsite" ws.name none) st)
  refine ⟨mid, hm, ?_⟩
  unfold fetchTask
  cases h : fetchInvoicesForWs env ws filters
      (send (Event.onFetchWsChange "loadingWebsite" ws.name none) st) with
  | suspended s1 =>
    rw [h] at e
    simpa [Run.state, send, loadingEvent] using e
  | returned docs s1 =>
    rw [h] at e
    simp only [Run.state] at e
    simp [send, e, loadingEvent, completedEvent]

theorem runEvent_distinct (ws ws' : Account) (e : Event) (h : RunEvent ws e) :
    e ≠ loadingEvent ws' ∧ e ≠ completedEvent ws' := by
  rcases h with ⟨q, rfl⟩ | ⟨m, rfl⟩ | rfl <;> simp [loadingEvent, completedEvent]

theorem sent_runSequentially (env : Env) (filters : Filters) (wss : List Account) :
    ∀ st : MainProcess, ∃ (mids : List (List Event)) (tail : List Event),
      mids.length ≤ wss.length ∧
      (runSequentially (wss.map (fetchTask env filters)) st).state.sent =
        st.sent ++ inTurn wss mids ++ tail ∧
      (∀ (i : Nat) (ws : Account) (mid : List Event), wss[i]? = some ws → mids[i]? = some mid →
        ∀ e ∈ mid, RunEvent ws e) ∧
      match runSequentially (wss.map (fetchTask env filters)) st with
      | Run.returned _ _ => mids.length = wss.length ∧ tail = []
      | Run.suspended _ =>
        ∃ ws mid, wss[mids.length]? = some ws ∧ tail = loadingEvent ws :: mid ∧
          ∀ e ∈ mid, RunEvent ws e := by
  induction wss with
  | nil =>
    intro st
    exact ⟨[], [], by simp, by simp [runSequentially, Run.state, inTurn], by simp,
      by simp [runSequentially]⟩
  | cons ws rest ih =>
    intro st
    obtain ⟨mid, hm, ht⟩ := sent_fetchTask env filters ws st
    simp only [List.map_cons, runSequentially]
    cases h : fetchTask env filters ws st with
    | suspended s1 =>
      rw [h] at ht
      simp only at ht
      exact ⟨[], loadingEvent ws :: mid, by simp, by simp [Run.state, inTurn, ht], by simp,
        ⟨ws, mid, by simp, rfl, hm⟩⟩
    | returned docs s1 =>
      rw [h] at ht
      simp only at ht
      obtain ⟨mids, tail, hl, hs, hr, hc⟩ := ih s1
      have hidx : ∀ (i : Nat) (w : Account) (m : List Event), (ws :: rest)[i]? = some w →
          (mid :: mids)[i]? = some m → ∀ e ∈ m, RunEvent w e := by
        intro i w m hw hmm
        cases i with
        | zero =>
          simp only [List.getElem?_cons_zero, Option.some.injEq] at hw hmm
          subst hw; subst hmm
          exact hm
        | succ j =>
          simp only [List.getElem?_cons_succ] at hw hmm
          exact hr j w m hw hmm
      dsimp only
      cases hrun : runSequentially (rest.map (fetchTask env filters)) s1 with
      | suspended s2 =>
        rw [hrun] at hs hc
        simp only [Run.state] at hs
        simp only at hc
        refine ⟨mid :: mids, tail, by simp [hl], ?_, hidx, ?_⟩
        · simp [Run.state, hs, ht, inTurn]
        · simpa using hc
      | returned values s2 =>
        rw [hrun] at hs hc
        simp only [Run.state] at hs
        simp only at hc
        refine ⟨mid :: mids, tail, by simp [hl], ?_, hidx, ?_⟩
        · simp [Run.state, hs, ht, inTurn]
        · simpa using hc

theorem fetchInvoices_state (env : Env) (filters : Filters) (ids : List Str) (st : MainProcess) :
    (fetchInvoices env filters ids st).state.sent =
      (runSequentially ((getWebsitesByIds st.repo ids).map (fetchTask env filters))
        { st with repo := deleteAllInvoices st.repo }).state.sent ∧
    ((∃ s, fetchInvoices env filters ids st = Run.suspended s) ↔
      ∃ s, runSequentially ((getWebsitesByIds st.repo ids).map (fetchTask env filters))
        { st with repo := deleteAllInvoices st.repo } = Run.suspended s) := by
  unfold fetchInvoices
  dsimp only
  rw [getWebsitesByIds_deleteAllInvoices]
  cases runSequentially ((getWebsitesByIds st.repo ids).map (fetchTask env filters))
      { st with repo := deleteAllInvoices st.repo } with
  | suspended s1 => simp [Run.state]
  | returned docs s1 => simp [Run.state, (handleAllResults_spec env docs s1).2.2.2.2.2.2.2]
/-- C23: the events a `fetchInvoices` call sends are, after those sent before,
the events of the resolved accounts one account at a time and in their order:
for each account its `loadingWebsite` progress event (name of the account, no
percentage), then the events of its run, then its
`fetchingInvoicesFromWebsiteCompleted` notification, the progress event of
the next account coming after.  The events of a run are code requests and
error notifications, none of them a progress event or a completion
notification.  A call that returns has done so for every account; a call
suspended on a code request has done so for the accounts before the waiting
one, whose progress event and run events come last.  The call returns when
the operator answers for every account. -/
theorem fetchInvoices_events_in_order (env : Env) (filters : Filters) (ids : List Str)
    (st : MainProcess) :
    (∃ (mids : List (List Event)) (tail : List Event),
      mids.length ≤ (getWebsitesByIds st.repo ids).length ∧
      (fetchInvoices env filters ids st).state.sent =
        st.sent ++ inTurn (getWebsitesByIds st.repo ids) mids ++ tail ∧
      (∀ (i : Nat) (ws : Account) (mid : List Event),
        (getWebsitesByIds st.repo ids)[i]? = some ws → mids[i]? = some mid →
        ∀ e ∈ mid, RunEvent ws e ∧ ∀ ws', e ≠ loadingEvent ws' ∧ e ≠ completedEvent ws') ∧
      match fetchInvoices env filters ids st with
      | Run.returned _ _ => mids.length = (getWebsitesByIds st.repo ids).length ∧ tail = []
      | Run.suspended _ =>
        ∃ ws mid, (getWebsitesByIds st.repo ids)[mids.length]? = some ws ∧
          tail = loadingEvent ws :: mid ∧ ∀ e ∈ mid, RunEvent ws e) ∧
    ((∀ ws ∈ getWebsitesByIds st.repo ids, (env.operator ws._id).isSome = true) →
      ∃ results st', fetchInvoices env filters ids st = Run.returned results st') := by
  constructor
  · obtain ⟨mids, tail, hl, hs, hr, hc⟩ :=
      sent_runSequentially env filters (getWebsitesByIds st.repo ids)
        { st with repo := deleteAllInvoices st.repo }
    refine ⟨mids, tail, hl, ?_, ?_, ?_⟩
    · rw [(fetchInvoices_state env filters ids st).1, hs]
    · intro i ws mid hw hm e he
      exact ⟨hr i ws mid hw hm e he, fun ws' => runEvent_distinct ws ws' e (hr i ws mid hw hm e he)⟩
    · unfold fetchInvoices
      dsimp only
      rw [getWebsitesByIds_deleteAllInvoices]
      cases hrun : runSequentially ((getWebsitesByIds st.repo ids).map (fetchTask env filters))
          { st with repo := deleteAllInvoices st.repo } with
      | suspended s1 => rw [hrun] at hc; simpa using hc
      | returned docs s1 => rw [hrun] at hc; simpa using hc
  · intro h
    obtain ⟨docs, s1, e, -⟩ := runSequentially_returns (fetchTask env filters)
      (getWebsitesByIds st.repo ids) { st with repo := deleteAllInvoices st.repo }
      (fun ws hws s => fetchTask_returns env filters ws s (h ws hws))
    unfold fetchInvoices
    dsimp only
    rw [getWebsitesByIds_deleteAllInvoices, e]
    exact ⟨_, _, rfl⟩

/-- Instance of C23: a session over an account whose script raises and one whose
script returns no document. -/
theorem fetchInvoices_events_in_order_witness :
    (∀ ws ∈ getWebsitesByIds exTwo.repo [Str.gen 1, Str.gen 2],
      (exEnv.operator ws._id).isSome = true) ∧
    (∃ results st',
      fetchInvoices exEnv exFilters [Str.gen 1, Str.gen 2] exTwo = Run.returned results st') ∧
    (fetchInvoices exEnv exFilters [Str.gen 1, Str.gen 2] exTwo).state.sent =
      [Event.onFetchWsChange "loadingWebsite" "A" none,
        Event.onNotification "failedToFetchInvoicesFromWebsite" (some "A") "error",
        Event.onNotification "fetchingInvoicesFromWebsiteCompleted" (some "A") "success",
        Event.onFetchWsChange "loadingWebsite" "B" none,
        Event.onNotification "fetchingInvoicesFromWebsiteCompleted" (some "B") "success"] :=
  have h : ∀ ws ∈ getWebsitesByIds exTwo.repo [Str.gen 1, Str.gen 2],
      (exEnv.operator ws._id).isSome = true := fun _ _ => rfl
  ⟨h, (fetchInvoices_events_in_order exEnv exFilters [Str.gen 1, Str.gen 2] exTwo).2 h,
    by decide⟩

/-! ## Properties of the drive of one provider -/

theorem driveObject_observe {σ : Type} (env : Env) (ws : Account) (p : ProviderObject σ) (s : σ)
    (st : MainProcess) :
    (driveObject env ws p s st).1 = driveProvider env ws (p.observe s) st := by
  unfold driveObject driveProvider ProviderObject.observe
  dsimp only
  split
  · rcases ha : p.authenticate s with ⟨r, s1⟩
    cases r with
    | error m => rfl
    | ok u =>
      dsimp only
      split
      · rfl
      · split
        · cases awaitCode env ws.name ws._id (some (p.securityQuestion s1)) st <;> rfl
        · cases awaitCode env ws.name ws._id none st <;> rfl
  · rcases hf : p.fetch s with ⟨r, s1⟩
    cases r <;> rfl

theorem observe_recording (script : Script) (calls : List ScriptCall) :
    (recording script).observe calls = script := by
  cases script; rfl

theorem fetchInvoicesForWs_object {σ : Type} (env : Env) (ws : Account) (filters : Filters)
    (st : MainProcess) (Provider : Ctx → Except String Script) (p : ProviderObject σ) (s : σ)
    (hP : env.providers ws.url = some Provider) (hg : env.getPage ws = none)
    (hc : Provider (ctxOf st filters ws) = Except.ok (p.observe s)) :
    fetchInvoicesForWs env ws filters st =
      thenSettle ws (p.name ++ " - " ++ ws.name)
        (driveObject env ws p s (logInfo (p.name ++ " - " ++ ws.name) "Starting..." st)).1 := by
  unfold ctxOf at hc
  rw [driveObject_observe]
  unfold fetchInvoicesForWs
  simp only [hP, hg, hc]
  have hn : (p.observe s).name = p.name := rfl
  rw [hn]
  cases driveProvider env ws (p.observe s) (logInfo (p.name ++ " - " ++ ws.name) "Starting..." st)
    <;> rfl

/-- C24: for an account whose provider has `requires2FA` false, the calls of
`fetchInvoicesForWs` leave the provider object in the state one call of
`fetch()` leaves it in: `fetch` is called once, `authenticate` and the
continuation are not called.  The run returns; it creates no promise,
registers no waiter and sends no code request (at most the notification of
the error raised).  When `fetch` returns a list, that list is returned as it
is, nothing is sent and both failure flags of the account are cleared. -/
theorem fetchInvoicesForWs_without_2FA {σ : Type} (env : Env) (ws : Account)
    (filters : Filters) (st : MainProcess) (Provider : Ctx → Except String Script)
    (p : ProviderObject σ) (s : σ)
    (hP : env.providers ws.url = some Provider) (hg : env.getPage ws = none)
    (hc : Provider (ctxOf st filters ws) = Except.ok (p.observe s))
    (h2 : p.requires2FA = false) :
    (driveObject env ws p s (logInfo (p.name ++ " - " ++ ws.name) "Starting..." st)).2 =
        (p.fetch s).2 ∧
      fetchInvoicesForWs env ws filters st =
        thenSettle ws (p.name ++ " - " ++ ws.name)
          (driveObject env ws p s (logInfo (p.name ++ " - " ++ ws.name) "Starting..." st)).1 ∧
      ∃ docs st', fetchInvoicesForWs env ws filters st = Run.returned docs st' ∧
        st'.twoFAWaitingList = st.twoFAWaitingList ∧ st'.nextPromise = st.nextPromise ∧
        st'.settled = st.settled ∧
        (st'.sent = st.sent ∨
          ∃ m, st'.sent = st.sent ++ [Event.onNotification m (some ws.name) "error"]) ∧
        ∀ result, (p.fetch s).1 = Except.ok result →
          docs = result ∧ st'.sent = st.sent ∧
          ∀ id, getWebsiteById st'.repo id =
            (getWebsiteById st.repo id).map (fun d => if id = ws._id then clearFlags d else d) := by
  have hobj := fetchInvoicesForWs_object env ws filters st Provider p s hP hg hc
  refine ⟨?_, hobj, ?_⟩
  · unfold driveObject
    simp only [h2, Bool.false_eq_true, if_false]
    rcases p.fetch s with ⟨r, s1⟩
    cases r <;> rfl
  · rw [hobj]
    unfold driveObject
    simp only [h2, Bool.false_eq_true, if_false]
    rcases hf : p.fetch s with ⟨r, s1⟩
    cases r with
    | error m =>
      refine ⟨[], _, rfl, ?_, ?_, ?_, Or.inr ⟨m, ?_⟩, ?_⟩
      · by_cases h : m = "authenticationFailed" <;> simp [logInfo, handleFetchError, send, h]
      · by_cases h : m = "authenticationFailed" <;> simp [logInfo, handleFetchError, send, h]
      · by_cases h : m = "authenticationFailed" <;> simp [logInfo, handleFetchError, send, h]
      · by_cases h : m = "authenticationFailed" <;> simp [logInfo, handleFetchError, send, h]
      · intro result hr
        cases hr
    | ok docs =>
      refine ⟨docs, _, rfl, rfl, rfl, rfl, Or.inl rfl, ?_⟩
      intro result hr
      simp only [Except.ok.injEq] at hr
      refine ⟨hr, rfl, fun id => ?_⟩
      exact getWebsiteById_handleFetchSuccess ws
        (logInfo (p.name ++ " - " ++ ws.name) "Starting..." st) id

/-- Instance of C24: the account `A`, flagged `authFailed`, whose script needs
no code; the provider object that records its calls has received one call,
`fetch`. -/
theorem fetchInvoicesForWs_without_2FA_witness :
    exEnv.providers (exAccount 1 "A" "ok" true).url = some exScriptOk ∧
      exEnv.getPage (exAccount 1 "A" "ok" true) = none ∧
      exScriptOk (ctxOf exFlaggedOk exFilters (exAccount 1 "A" "ok" true)) =
        Except.ok ((recording exPlain).observe []) ∧
      (recording exPlain).requires2FA = false ∧
      (driveObject exEnv (exAccount 1 "A" "ok" true) (recording exPlain) []
        (logInfo ((recording exPlain).name ++ " - " ++ (exAccount 1 "A" "ok" true).name)
          "Starting..." exFlaggedOk)).2 = [ScriptCall.fetch] :=
  ⟨rfl, rfl, rfl, rfl,
    (fetchInvoicesForWs_without_2FA exEnv (exAccount 1 "A" "ok" true) exFilters exFlaggedOk
      exScriptOk (recording exPlain) [] rfl rfl rfl rfl).1.trans rfl⟩

/-- C25: for an account whose provider has `requires2FA` true and reports
`authDone` once `authenticate` has returned, the calls of `fetchInvoicesForWs`
leave the provider object in the state that `authenticate` followed by one
call of the continuation with the empty string leaves it in.  The run returns
what the continuation returned (the empty list when it raised); it creates no
promise, registers no waiter and sends no code request (at most the
notification of the error raised). -/
theorem fetchInvoicesForWs_authenticated {σ : Type} (env : Env) (ws : Account)
    (filters : Filters) (st : MainProcess) (Provider : Ctx → Except String Script)
    (p : ProviderObject σ) (s : σ)
    (hP : env.providers ws.url = some Provider) (hg : env.getPage ws = none)
    (hc : Provider (ctxOf st filters ws) = Except.ok (p.observe s))
    (h2 : p.requires2FA = true) (ha : (p.authenticate s).1 = Except.ok ())
    (hd : p.authDone (p.authenticate s).2 = true) :
    (driveObject env ws p s (logInfo (p.name ++ " - " ++ ws.name) "Starting..." st)).2 =
        (p.continuation "" (p.authenticate s).2).2 ∧
      fetchInvoicesForWs env ws filters st =
        thenSettle ws (p.name ++ " - " ++ ws.name)
          (driveObject env ws p s (logInfo (p.name ++ " - " ++ ws.name) "Starting..." st)).1 ∧
      ∃ st', fetchInvoicesForWs env ws filters st =
          Run.returned (returnedDocs (p.continuation "" (p.authenticate s).2).1) st' ∧
        st'.twoFAWaitingList = st.twoFAWaitingList ∧ st'.nextPromise = st.nextPromise ∧
        st'.settled = st.settled ∧
        (st'.sent = st.sent ∨
          ∃ m, st'.sent = st.sent ++ [Event.onNotification m (some ws.name) "error"]) := by
  have hobj := fetchInvoicesForWs_object env ws filters st Provider p s hP hg hc
  have hdrive : driveObject env ws p s (logInfo (p.name ++ " - " ++ ws.name) "Starting..." st) =
      (Run.returned (p.continuation "" (p.authenticate s).2).1
        (handleFetchSuccess ws (logInfo (p.name ++ " - " ++ ws.name) "Starting..." st)),
        (p.continuation "" (p.authenticate s).2).2) := by
    unfold driveObject
    simp only [h2, if_true]
    rcases hauth : p.authenticate s with ⟨r, s1⟩
    rw [hauth] at ha hd
    simp only at ha hd
    subst ha
    simp only [hd, if_true]
  refine ⟨by rw [hdrive], hobj, ?_⟩
  rw [hobj, hdrive]
  cases p.continuation "" (p.authenticate s).2 with
  | mk r s2 =>
    cases r with
    | error m =>
      refine ⟨_, rfl, ?_, ?_, ?_, Or.inr ⟨m, ?_⟩⟩ <;>
        by_cases h : m = "authenticationFailed" <;>
        simp [logInfo, handleFetchError, handleFetchSuccess, send, h]
    | ok docs => exact ⟨_, rfl, rfl, rfl, rfl, Or.inl rfl⟩

/-- Instance of C25: the account `A` whose script is authenticated once
`authenticate` has returned; the recording provider object has received
`authenticate` and then the continuation with the empty string. -/
theorem fetchInvoicesForWs_authenticated_witness :
    exEnv.providers (exAccount 1 "A" "late" false).url = some exScriptLate ∧
      exEnv.getPage (exAccount 1 "A" "late" false) = none ∧
      exScriptLate (ctxOf (exProcess [exSite 1 "A" "late" false]) exFilters
        (exAccount 1 "A" "late" false)) = Except.ok ((recording exLate).observe []) ∧
      (recording exLate).requires2FA = true ∧
      ((recording exLate).authenticate []).1 = Except.ok () ∧
      (recording exLate).authDone ((recording exLate).authenticate []).2 = true ∧
      (driveObject exEnv (exAccount 1 "A" "late" false) (recording exLate) []
        (logInfo ((recording exLate).name ++ " - " ++ (exAccount 1 "A" "late" false).name)
          "Starting..." (exProcess [exSite 1 "A" "late" false]))).2 =
        [ScriptCall.authenticate, ScriptCall.continuation ""] :=
  ⟨rfl, rfl, rfl, rfl, rfl, rfl,
    (fetchInvoicesForWs_authenticated exEnv (exAccount 1 "A" "late" false) exFilters
      (exProcess [exSite 1 "A" "late" false]) exScriptLate (recording exLate) []
      rfl rfl rfl rfl rfl rfl).1.trans rfl⟩

theorem awaitCode_silent (env : Env) (name : String) (id : Str) (q : Option String)
    (st : MainProcess) (hop : env.operator id = none) :
    awaitCode env name id q st = Run.suspended (get2FAInput name id q st).2 := by
  unfold awaitCode
  simp only [hop]

/-- C26: for an account whose provider has `requires2FA` true and is not
authenticated when `authenticate` has returned, `fetchInvoicesForWs` sends one
code request, keyed by the `_id` of the account and carrying the security
question of the provider when it asks one and no question otherwise.  While
the operator has not answered, the run is suspended with its waiter
registered under the `_id`, and the provider object is in the state
`authenticate` left it in: the continuation has not been called.  When the
operator submits a code, the calls leave the object in the state `authenticate`
followed by one call of the continuation with that code leaves it in, the run
returns what the continuation returned (the empty list when it raised) and
has sent no second code request. -/
theorem fetchInvoicesForWs_awaits_code {σ : Type} (env : Env) (ws : Account)
    (filters : Filters) (st : MainProcess) (Provider : Ctx → Except String Script)
    (p : ProviderObject σ) (s : σ)
    (hP : env.providers ws.url = some Provider) (hg : env.getPage ws = none)
    (hc : Provider (ctxOf st filters ws) = Except.ok (p.observe s))
    (h2 : p.requires2FA = true) (ha : (p.authenticate s).1 = Except.ok ())
    (hd : p.authDone (p.authenticate s).2 = false) :
    fetchInvoicesForWs env ws filters st =
        thenSettle ws (p.name ++ " - " ++ ws.name)
          (driveObject env ws p s (logInfo (p.name ++ " - " ++ ws.name) "Starting..." st)).1 ∧
      (env.operator ws._id = none →
        (driveObject env ws p s (logInfo (p.name ++ " - " ++ ws.name) "Starting..." st)).2 =
          (p.authenticate s).2 ∧
        ∃ st', fetchInvoicesForWs env ws filters st = Run.suspended st' ∧
          st'.sent = st.sent ++
            [Event.on2FA ws.name ws._id (questionOf p (p.authenticate s).2)] ∧
          assocGet st'.twoFAWaitingList ws._id = some st.nextPromise ∧
          settledValue st' st.nextPromise = settledValue st st.nextPromise) ∧
      (∀ code, env.operator ws._id = some code → RelayWF st →
        (driveObject env ws p s (logInfo (p.name ++ " - " ++ ws.name) "Starting..." st)).2 =
          (p.continuation code (p.authenticate s).2).2 ∧
        ∃ st', fetchInvoicesForWs env ws filters st =
            Run.returned (returnedDocs (p.continuation code (p.authenticate s).2).1) st' ∧
          (st'.sent = st.sent ++
              [Event.on2FA ws.name ws._id (questionOf p (p.authenticate s).2)] ∨
            ∃ m, st'.sent = st.sent ++
              [Event.on2FA ws.name ws._id (questionOf p (p.authenticate s).2),
                Event.onNotification m (some ws.name) "error"])) := by
  have hobj := fetchInvoicesForWs_object env ws filters st Provider p s hP hg hc
  have hdrive : driveObject env ws p s (logInfo (p.name ++ " - " ++ ws.name) "Starting..." st) =
      match awaitCode env ws.name ws._id (questionOf p (p.authenticate s).2)
          (logInfo (p.name ++ " - " ++ ws.name) "Starting..." st) with
      | Run.suspended st1 => (Run.suspended st1, (p.authenticate s).2)
      | Run.returned code st1 =>
        (Run.returned (p.continuation code (p.authenticate s).2).1 st1,
          (p.continuation code (p.authenticate s).2).2) := by
    unfold driveObject questionOf
    simp only [h2, if_true]
    rcases hauth : p.authenticate s with ⟨r, s1⟩
    rw [hauth] at ha hd
    simp only at ha hd
    subst ha
    simp only [hd, Bool.false_eq_true, if_false]
    by_cases hq : p.requiresSecurityQuestion s1 = true
    · simp only [hq, if_true]
    · simp only [hq, Bool.false_eq_true, if_false]
  refine ⟨hobj, ?_, ?_⟩
  · intro hop
    rw [hobj, hdrive, awaitCode_silent _ _ _ _ _ hop]
    refine ⟨rfl, _, rfl, ?_, ?_, ?_⟩
    · simp [get2FAInput, send, logInfo]
    · simp [get2FAInput, send, logInfo, assocGet_assocSet_same]
    · simp [get2FAInput, send, logInfo, settledValue]
  · intro code hop hwf
    have hwf' : RelayWF (logInfo (p.name ++ " - " ++ ws.name) "Starting..." st) := hwf
    obtain ⟨s1, e1, -, -, -, t1, -⟩ :=
      awaitCode_answered env ws.name ws._id (questionOf p (p.authenticate s).2) _ code hwf' hop
    rw [hobj, hdrive, e1]
    refine ⟨rfl, ?_⟩
    have t1' : s1.sent = st.sent ++
        [Event.on2FA ws.name ws._id (questionOf p (p.authenticate s).2)] := t1
    dsimp only [thenSettle]
    generalize p.continuation code (p.authenticate s).2 = rc
    cases rc with
    | mk r s2 =>
      cases r with
      | error m =>
        refine ⟨_, rfl, Or.inr ⟨m, ?_⟩⟩
        by_cases h : m = "authenticationFailed" <;>
          simp [logInfo, handleFetchError, send, h, t1']
      | ok docs => exact ⟨_, rfl, Or.inl (by simp [logInfo, t1'])⟩

/-- Instance of C26: the account `A` whose script asks for a code.  With an
operator who never answers, the recording provider object has received
`authenticate` only; with the operator who answers `123` it has received
`authenticate` and then the continuation with `123`. -/
theorem fetchInvoicesForWs_awaits_code_witness :
    exEnv.providers (exAccount 1 "A" "2fa" true).url = some exScript2FA ∧
      exEnv.getPage (exAccount 1 "A" "2fa" true) = none ∧
      exScript2FA (ctxOf exFlagged2FA exFilters (exAccount 1 "A" "2fa" true)) =
        Except.ok ((recording exCode).observe []) ∧
      (recording exCode).requires2FA = true ∧
      ((recording exCode).authenticate []).1 = Except.ok () ∧
      (recording exCode).authDone ((recording exCode).authenticate []).2 = false ∧
      exEnv.operator (exAccount 1 "A" "2fa" true)._id = some "123" ∧
      exEnvSilent.operator (exAccount 1 "A" "2fa" true)._id = none ∧
      RelayWF exFlagged2FA ∧
      (driveObject exEnvSilent (exAccount 1 "A" "2fa" true) (recording exCode) []
        (logInfo ((recording exCode).name ++ " - " ++ (exAccount 1 "A" "2fa" true).name)
          "Starting..." exFlagged2FA)).2 = [ScriptCall.authenticate] ∧
      (driveObject exEnv (exAccount 1 "A" "2fa" true) (recording exCode) []
        (logInfo ((recording exCode).name ++ " - " ++ (exAccount 1 "A" "2fa" true).name)
          "Starting..." exFlagged2FA)).2 =
        [ScriptCall.authenticate, ScriptCall.continuation "123"] :=
  ⟨rfl, rfl, rfl, rfl, rfl, rfl, rfl, rfl, by decide,
    ((fetchInvoicesForWs_awaits_code exEnvSilent (exAccount 1 "A" "2fa" true) exFilters
      exFlagged2FA exScript2FA (recording exCode) [] rfl rfl rfl rfl rfl rfl).2.1 rfl).1.trans rfl,
    ((fetchInvoicesForWs_awaits_code exEnv (exAccount 1 "A" "2fa" true) exFilters
      exFlagged2FA exScript2FA (recording exCode) [] rfl rfl rfl rfl rfl rfl).2.2 "123" rfl
      (by decide)).1.trans rfl⟩

/-! ## Properties of the settings -/

/-- C27 (as the code behaves): for a stored settings record, the record
`initSettings` leaves is the stored record with only the last of its missing
fields set to its default: each update writes a copy of the record read at the
start, so an update undoes the one before.  A record that lacks two or more of
the four fields still lacks all but the last of them afterwards. -/
theorem initSettings_sets_last_default_only (r : Repository) (settings : Settings)
    (h : getSettings r = some settings) :
    getSettings (initSettings r) = some (lastDefault settings) := by
  unfold getSettings at h
  cases hdb : r.settingDb with
  | nil => rw [hdb] at h; cases h
  | cons first rest =>
    rw [hdb] at h
    simp only [List.head?_cons, Option.some.injEq] at h
    subst h
    unfold initSettings lastDefault
    simp only [getSettings, hdb, List.head?_cons]
    cases hf : first.format <;> cases hd : first.dateFormat <;> cases hm : first.debugMode <;>
      cases hk : first.licenseKey <;>
      simp [updateSettings, updateFirst, hdb]

/-- Instance of C27: a stored record without `format` and `dateFormat` is left
without `format`. -/
theorem initSettings_sets_last_default_only_witness :
    getSettings exRepoOldSettings =
        some { format := none, dateFormat := none, debugMode := some true,
               licenseKey := some "K" } ∧
      getSettings (initSettings exRepoOldSettings) =
        some { format := none, dateFormat := some "d-M-yyyy", debugMode := some true,
               licenseKey := some "K" } :=
  ⟨rfl, (initSettings_sets_last_default_only exRepoOldSettings _ rfl).trans rfl⟩

theorem frame_start (env : Env) (filters : Filters) (wss : List Account) (st : MainProcess) :
    (runSequentially (wss.map (fetchTask env filters))
        { st with repo := deleteAllInvoices st.repo }).state.repo.invoiceDb = [] ∧
      (runSequentially (wss.map (fetchTask env filters))
        { st with repo := deleteAllInvoices st.repo }).state.availableDownloads =
        st.availableDownloads := by
  obtain ⟨h1, -, -, -, h5⟩ := frame_runSequentially env filters wss
    { st with repo := deleteAllInvoices st.repo }
  exact ⟨h1, h5⟩

/-- C28: during a `fetchInvoices` call, whatever number of accounts has been run,
the invoice store is empty and `availableDownloads` is as it was at the call.
A call that is suspended on a code request is in such a state, also when
accounts before the waiting one have succeeded.  A call that returns has run
all accounts to a state of this kind, in which every event of the call has
been sent, and only then has created the rows and registered the artifacts. -/
theorem fetchInvoices_persists_after_last_account (env : Env) (filters : Filters)
    (ids : List Str) (st : MainProcess) :
    (∀ k : Nat,
      (runSequentially (((getWebsitesByIds st.repo ids).take k).map (fetchTask env filters))
        { st with repo := deleteAllInvoices st.repo }).state.repo.invoiceDb = [] ∧
      (runSequentially (((getWebsitesByIds st.repo ids).take k).map (fetchTask env filters))
        { st with repo := deleteAllInvoices st.repo }).state.availableDownloads =
        st.availableDownloads) ∧
    (∀ s, fetchInvoices env filters ids st = Run.suspended s →
      s.repo.invoiceDb = [] ∧ s.availableDownloads = st.availableDownloads) ∧
    (∀ results st', fetchInvoices env filters ids st = Run.returned results st' →
      ∃ docs s1,
        runSequentially ((getWebsitesByIds st.repo ids).map (fetchTask env filters))
          { st with repo := deleteAllInvoices st.repo } = Run.returned docs s1 ∧
        s1.repo.invoiceDb = [] ∧ s1.availableDownloads = st.availableDownloads ∧
        st'.sent = s1.sent ∧
        results = (handleAllResults env docs s1).1 ∧ st' = (handleAllResults env docs s1).2) := by
  refine ⟨fun k => frame_start env filters _ st, ?_, ?_⟩
  · intro s h
    have hf := frame_start env filters (getWebsitesByIds st.repo ids) st
    unfold fetchInvoices at h
    dsimp only at h
    rw [getWebsitesByIds_deleteAllInvoices] at h
    cases hrun : runSequentially ((getWebsitesByIds st.repo ids).map (fetchTask env filters))
        { st with repo := deleteAllInvoices st.repo } with
    | suspended s1 =>
      rw [hrun] at h hf
      simp only [Run.suspended.injEq] at h
      subst h
      exact hf
    | returned docs s1 =>
      rw [hrun] at h
      cases h
  · intro results st' h
    obtain ⟨docs, s1, hrun, hr, hs⟩ := fetchInvoices_returned env filters ids st st' results h
    rw [getWebsitesByIds_deleteAllInvoices] at hrun
    have hf := frame_start env filters (getWebsitesByIds st.repo ids) st
    rw [hrun] at hf
    refine ⟨docs, s1, hrun, hf.1, hf.2, ?_, hr, hs⟩
    rw [hs]
    exact (handleAllResults_spec env docs s1).2.2.2.2.2.2.2

/-- Instance of C28: with an operator who never answers, the session over an
account that succeeds and an account that asks for a code is suspended, the
document of the first account not being persisted; with the operator who
answers, the session returns. -/
theorem fetchInvoices_persists_after_last_account_witness :
    (∃ s, fetchInvoices exEnvSilent exFilters [Str.gen 1, Str.gen 2] exOkThen2FA =
        Run.suspended s ∧ s.repo.invoiceDb = [] ∧ s.availableDownloads = []) ∧
    (∃ results st' docs s1,
      fetchInvoices exEnv exFilters [Str.gen 1, Str.gen 2] exOkThen2FA =
        Run.returned results st' ∧
      runSequentially ((getWebsitesByIds exOkThen2FA.repo [Str.gen 1, Str.gen 2]).map
          (fetchTask exEnv exFilters))
        { exOkThen2FA with repo := deleteAllInvoices exOkThen2FA.repo } = Run.returned docs s1 ∧
      s1.repo.invoiceDb = [] ∧ st'.repo.invoiceDb.length = 2) :=
  ⟨⟨_, rfl,
    (fetchInvoices_persists_after_last_account exEnvSilent exFilters [Str.gen 1, Str.gen 2]
      exOkThen2FA).2.1 _ rfl⟩,
    (fetchInvoices_persists_after_last_account exEnv exFilters [Str.gen 1, Str.gen 2]
      exOkThen2FA).2.2 _ _ rfl |>.elim fun docs h => h.elim fun s1 h =>
        ⟨_, _, docs, s1, rfl, h.1, h.2.1, by decide⟩⟩

/-! ## Properties of the provider catalog -/

set_option maxRecDepth 100000 in
theorem catalog_values_are_keys : ∀ entry ∈ providerCatalog, entry.value ∈ registryKeys := by
  decide

theorem sent_settle_error (ws : Account) (pn : String) (o : Except String (List Document))
    (st : MainProcess) :
    ∃ mid, (settle ws pn o st).state.sent = st.sent ++ mid ∧
      ∀ e ∈ mid, ∃ m, e = Event.onNotification m (some ws.name) "error" := by
  cases o with
  | ok r => exact ⟨[], by simp [settle, Run.state, logInfo], by simp⟩
  | error m =>
    refine ⟨[Event.onNotification m (some ws.name) "error"], ?_, ?_⟩
    · simp [settle, Run.state, logInfo, handleFetchError, send]
    · intro e he
      simp only [List.mem_singleton] at he
      exact ⟨m, he⟩

theorem sent_supported (env : Env) (ws : Account) (filters : Filters) (st : MainProcess)
    (h : (env.providers ws.url).isSome = true) :
    ∃ mid, (fetchInvoicesForWs env ws filters st).state.sent = st.sent ++ mid ∧
      ∀ e ∈ mid, (∃ q, e = Event.on2FA ws.name ws._id q) ∨
        ∃ m, e = Event.onNotification m (some ws.name) "error" := by
  obtain ⟨P, hP⟩ := Option.isSome_iff_exists.1 h
  unfold fetchInvoicesForWs
  simp only [hP]
  split
  · obtain ⟨mid, e, hm⟩ := sent_settle_error ws "" (Except.error _) st
    exact ⟨mid, e, fun x hx => Or.inr (hm x hx)⟩
  · split
    · obtain ⟨mid, e, hm⟩ := sent_settle_error ws "" (Except.error _) st
      exact ⟨mid, e, fun x hx => Or.inr (hm x hx)⟩
    · rename_i provider _
      have h1 := sent_driveProvider env ws provider
        (logInfo (provider.name ++ " - " ++ ws.name) "Starting..." st)
      have h0 : (logInfo (provider.name ++ " - " ++ ws.name) "Starting..." st).sent = st.sent :=
        rfl
      split
      · rename_i s1 hd
        rw [hd] at h1
        rcases h1 with h1 | ⟨q, h1⟩
        · exact ⟨[], by simpa [Run.state, h0] using h1, by simp⟩
        · refine ⟨[Event.on2FA ws.name ws._id q], by simpa [Run.state, h0] using h1, ?_⟩
          intro e he
          simp only [List.mem_singleton] at he
          exact Or.inl ⟨q, he⟩
      · rename_i outcome s1 hd
        rw [hd] at h1
        obtain ⟨mid, e, hm⟩ :=
          sent_settle_error ws (provider.name ++ " - " ++ ws.name) outcome s1
        rcases h1 with h1 | ⟨q, h1⟩
        · refine ⟨mid, ?_, fun x hx => Or.inr (hm x hx)⟩
          rw [e]
          simp only [Run.state] at h1
          rw [h1, h0]
        · refine ⟨Event.on2FA ws.name ws._id q :: mid, ?_, ?_⟩
          · rw [e]
            simp only [Run.state] at h1
            rw [h1, h0]
            simp
          · intro x hx
            rcases List.mem_cons.1 hx with rfl | hx
            · exact Or.inl ⟨q, rfl⟩
            · exact Or.inr (hm x hx)

/-- C30: the value of every entry of the provider catalog is a key of the
provider registry.  Hence, with the registry of the source, the lookup
`this.providers.get(ws.url)` of `fetchInvoicesForWs` finds a class for an
account whose url is the value of a catalog entry, and the run of the account
does not send the `websiteIsNotSupported` notification. -/
theorem catalog_entry_is_supported (env : Env) (hreg : Registered env) (entry : ProviderEntry)
    (he : entry ∈ providerCatalog) (ws : Account) (hu : ws.url = entry.value)
    (filters : Filters) (st : MainProcess) :
    entry.value ∈ registryKeys ∧ (env.providers ws.url).isSome = true ∧
      ∃ mid, (fetchInvoicesForWs env ws filters st).state.sent = st.sent ++ mid ∧
        Event.onNotification "websiteIsNotSupported" none "error" ∉ mid := by
  have hk := catalog_values_are_keys entry he
  have hs : (env.providers ws.url).isSome = true := (hreg ws.url).2 (hu ▸ hk)
  obtain ⟨mid, e, hm⟩ := sent_supported env ws filters st hs
  refine ⟨hk, hs, mid, e, ?_⟩
  intro hmem
  rcases hm _ hmem with ⟨q, hq⟩ | ⟨m, hq⟩ <;> cases hq

/-- Instance of C30: an account created from the first entry of the catalog. -/
theorem catalog_entry_is_supported_witness :
    Registered exEnvRegistry ∧ exEntry ∈ providerCatalog ∧
      (exEnvRegistry.providers (exAccount 1 "Ink" exEntry.value false).url).isSome = true :=
  have hreg : Registered exEnvRegistry := by
    intro url
    by_cases h : url ∈ registryKeys <;> simp [exEnvRegistry, h]
  have he : exEntry ∈ providerCatalog := List.mem_cons_self _ _
  ⟨hreg, he,
    (catalog_entry_is_supported exEnvRegistry hreg exEntry he
      (exAccount 1 "Ink" exEntry.value false) rfl exFilters
      (exProcess [exSite 1 "Ink" exEntry.value false])).2.1⟩

end Verzamel
